import Mathlib

/-!
# Nasa-Software-Taller: a verification development

Shallow embedding of the browser scripts of the repository:

* `3er Punto/script.js`: the search widget `DynamicSearch` over a post list,
  with its browser-history handling;
* `4to Punto/config.js`: `NASAConfig` (API key storage, URL builders);
* `4to Punto/apod.js`, `4to Punto/mars.js`: the synchronous validation that
  precedes the network request of a query;
* `4to Punto/mars.js`, `4to Punto/tech.js`: the rover-photo and tech-image
  queries run against a network given as a function from addresses to
  responses;
* `4to Punto/app.js`: `NASAApiExplorer` (module switching, configuration
  files, keyboard shortcuts, validation of the API key).

JavaScript strings are Lean strings, objects are key/value lists in
`Object.keys` order, `localStorage` is a partial map from keys to strings, and
every method that mutates `this`, the DOM or the storage is a function from the
state before the call to the state after it.
-/

set_option autoImplicit false

namespace NasaTaller

/-! ## Host functions -/

deriving instance DecidableEq for Except

/-- The two string functions of the host that the scripts call and whose
Unicode tables are outside the repository: `String.prototype.toLowerCase` and
the global `encodeURIComponent`. -/
structure Host where
  toLowerCase : String → String
  encodeURIComponent : String → String

/-- A host whose `toLowerCase` lowers the ASCII letters and whose
`encodeURIComponent` is the identity; used to evaluate the model on concrete
ASCII inputs. -/
def asciiHost : Host where
  toLowerCase := fun s => ⟨s.data.map Char.toLower⟩
  encodeURIComponent := fun s => s

/-- Scan of `String.prototype.includes` over code points: does `needle` start
at the current position or at a later one. -/
def includesFrom (needle : List Char) : List Char → Bool
  | [] => needle.isPrefixOf []
  | c :: cs => needle.isPrefixOf (c :: cs) || includesFrom needle cs

/-- JavaScript `s.includes(searchString)`. -/
def includes (s searchString : String) : Bool :=
  includesFrom searchString.data s.data

/-- ECMAScript `WhiteSpace` and `LineTerminator` code points, the characters
removed by `String.prototype.trim`. -/
def isWhiteSpace (c : Char) : Bool :=
  let n := c.toNat
  n = 0x09 || n = 0x0A || n = 0x0B || n = 0x0C || n = 0x0D || n = 0x20 ||
  n = 0xA0 || n = 0x1680 || (0x2000 ≤ n && n ≤ 0x200A) ||
  n = 0x2028 || n = 0x2029 || n = 0x202F || n = 0x205F || n = 0x3000 ||
  n = 0xFEFF

/-- JavaScript `s.trim()`. -/
def trim (s : String) : String :=
  ⟨((s.data.dropWhile isWhiteSpace).reverse.dropWhile isWhiteSpace).reverse⟩

/-! ## The search widget (`3er Punto/script.js`) -/

/-- A post of the remote list: numeric id, title and body. -/
structure Post where
  id : Nat
  title : String
  body : String
  deriving DecidableEq, Repr

/-- The element built by `createPostElement(post, searchQuery)`: the post it
renders and the term highlighted in it. -/
structure PostCard where
  post : Post
  highlight : String
  deriving DecidableEq, Repr

/-- One entry of the session history: the `search` field of its state object
(`none` for a `null` state) and the query part of its URL. -/
structure HistoryEntry where
  state : Option String
  search : String
  deriving DecidableEq, Repr

/-- The session history of the tab: the entries behind the current one (most
recent first), the current entry and the entries ahead of it. -/
structure BrowserHistory where
  back : List HistoryEntry
  current : HistoryEntry
  forward : List HistoryEntry
  deriving DecidableEq, Repr

/-- The call `history.pushState(state, title, url)`: the entries ahead are
dropped and the new entry becomes current. -/
def BrowserHistory.pushState (h : BrowserHistory) (state : Option String)
    (search : String) : BrowserHistory :=
  { back := h.current :: h.back, current := ⟨state, search⟩, forward := [] }

/-- The value of `history.length`. -/
def BrowserHistory.length (h : BrowserHistory) : Nat :=
  h.back.length + 1 + h.forward.length

/-- The object `DynamicSearch` together with the DOM elements and the browser
history it drives. -/
structure DynamicSearch where
  posts : List Post
  searchHistory : List String
  currentSearchIndex : Int
  /-- The text of `searchInput.value`. -/
  searchInput : String
  /-- Is `backButton.disabled` set. -/
  backButtonDisabled : Bool
  /-- Has `loadingIndicator` the class `hidden`. -/
  loadingHidden : Bool
  /-- Has `searchInfo` the class `hidden`. -/
  searchInfoHidden : Bool
  /-- Has `noResults` the class `hidden`. -/
  noResultsHidden : Bool
  /-- Is `resultsContainer.style.display` equal to `block`. -/
  resultsVisible : Bool
  /-- The text of `currentSearchSpan`. -/
  currentSearch : String
  /-- The text of `resultCountSpan`. -/
  resultCount : Nat
  /-- The children of `resultsContainer`. -/
  cards : List PostCard
  history : BrowserHistory
  deriving DecidableEq, Repr

/-- State after the constructor, before the post list has arrived, for a page
opened at a URL with query part `search`. -/
def DynamicSearch.init (search : String) : DynamicSearch where
  posts := []
  searchHistory := []
  currentSearchIndex := -1
  searchInput := ""
  backButtonDisabled := true
  loadingHidden := false
  searchInfoHidden := true
  noResultsHidden := true
  resultsVisible := false
  currentSearch := ""
  resultCount := 0
  cards := []
  history := { back := [], current := ⟨none, search⟩, forward := [] }

/-- Embedding of `hideAllSections()`. -/
def hideAllSections (s : DynamicSearch) : DynamicSearch :=
  { s with loadingHidden := true, searchInfoHidden := true,
           noResultsHidden := true, resultsVisible := false }

/-- Embedding of `showSearchInfo(query, count)`. -/
def showSearchInfo (query : String) (count : Nat) (s : DynamicSearch) :
    DynamicSearch :=
  { s with currentSearch := query, resultCount := count,
           searchInfoHidden := false }

/-- Embedding of `createPostElement(post, searchQuery)`. -/
def createPostElement (post : Post) (searchQuery : String) : PostCard :=
  ⟨post, searchQuery⟩

/-- Embedding of `displayPosts(posts, searchQuery, updateInfo)`. -/
def displayPosts (posts : List Post) (searchQuery : String)
    (updateInfo : Bool) (s : DynamicSearch) : DynamicSearch :=
  let s := hideAllSections s
  let s := if updateInfo && searchQuery != "" then
      showSearchInfo searchQuery posts.length s else s
  if posts.length == 0 && searchQuery != "" then
    { s with noResultsHidden := false }
  else
    { s with cards := posts.map (fun post => createPostElement post searchQuery),
             resultsVisible := true }

/-- Embedding of `showAllPosts()`. -/
def showAllPosts (s : DynamicSearch) : DynamicSearch :=
  displayPosts s.posts "" false s

/-- The callback given to `filter` in `filterAndDisplayPosts`. -/
def matchesQuery (h : Host) (query : String) (post : Post) : Bool :=
  let searchTerm := h.toLowerCase query
  includes (h.toLowerCase post.title) searchTerm ||
  includes (h.toLowerCase post.body) searchTerm ||
  includes (toString post.id) searchTerm

/-- Embedding of `filterAndDisplayPosts(query, updateInfo)`. -/
def filterAndDisplayPosts (h : Host) (query : String) (updateInfo : Bool)
    (s : DynamicSearch) : DynamicSearch :=
  if query == "" then showAllPosts s
  else
    let filteredPosts := s.posts.filter (matchesQuery h query)
    displayPosts filteredPosts query updateInfo s

/-- Embedding of `updateBackButton()`. -/
def updateBackButton (s : DynamicSearch) : DynamicSearch :=
  let hasHistory := decide (s.history.length > 1) && s.history.current.search != ""
  { s with backButtonDisabled := !hasHistory }

/-- Embedding of `addToSearchHistory(query)`. -/
def addToSearchHistory (query : String) (s : DynamicSearch) : DynamicSearch :=
  if s.searchHistory.getLast? != some query then
    let searchHistory := s.searchHistory ++ [query]
    { s with searchHistory := searchHistory,
             currentSearchIndex := (searchHistory.length : Int) - 1 }
  else s

/-- Embedding of `performSearch()`. -/
def performSearch (h : Host) (s : DynamicSearch) : DynamicSearch :=
  let query := trim s.searchInput
  if query == "" then showAllPosts s
  else
    let s := { s with history :=
      s.history.pushState (some query) ("?search=" ++ h.encodeURIComponent query) }
    let s := addToSearchHistory query s
    let s := filterAndDisplayPosts h query true s
    updateBackButton s

/-- Embedding of `search(query)`: the term is put in the input field and submitted. -/
def search (h : Host) (query : String) (s : DynamicSearch) : DynamicSearch :=
  performSearch h { s with searchInput := query }

/-- The posts whose cards are on screen: the children of `resultsContainer`
while it is displayed, none while it is hidden. -/
def shownPosts (s : DynamicSearch) : List Post :=
  if s.resultsVisible then s.cards.map PostCard.post else []

/-- The posts of a small list used to evaluate the widget. -/
def samplePosts : List Post :=
  [⟨1, "Sunt Aut", "quia et"⟩, ⟨2, "qui est esse", "EST rerum"⟩,
   ⟨12, "in quibusdam", "itaque id aut"⟩]

/-- The widget after `samplePosts` has been loaded and displayed. -/
def sampleSearch : DynamicSearch :=
  showAllPosts { hideAllSections (DynamicSearch.init "") with posts := samplePosts }

/-! ## JavaScript values and objects -/

/-- The JavaScript values that reach the modelled functions. A number is given
by the whole number it is. -/
inductive JSValue where
  | undefined
  | null
  | bool (b : Bool)
  | num (n : Int)
  | str (s : String)
  deriving DecidableEq, Repr

/-- The conversion `ToBoolean`: is the value truthy. -/
def JSValue.truthy : JSValue → Bool
  | .undefined => false
  | .null => false
  | .bool b => b
  | .num n => n != 0
  | .str s => s != ""

/-- The conversion `String(value)`, as applied by `URLSearchParams.append`. -/
def JSValue.toJSString : JSValue → String
  | .undefined => "undefined"
  | .null => "null"
  | .bool true => "true"
  | .bool false => "false"
  | .num n => toString n
  | .str s => s

/-- The operator `a || b`. -/
def JSValue.or (a b : JSValue) : JSValue :=
  if a.truthy then a else b

/-! ## Number values -/

/-- The least `j` from `k` on with `n < 2 ^ 2 ^ j`, looked for `fuel` steps
at most. -/
def bitsBound : Nat → Nat → Nat → Nat
  | 0, k, _ => k
  | fuel + 1, k, n => if n < 2 ^ 2 ^ k then k else bitsBound fuel (k + 1) n

/-- The whole part of the binary logarithm of `n`, for `n` below `2 ^ 2 ^ k`,
found by halving the range of the exponent `k` times. -/
def binaryLogBelow : Nat → Nat → Nat
  | 0, _ => 0
  | k + 1, n =>
    if n < 2 ^ 2 ^ k then binaryLogBelow k n
    else 2 ^ k + binaryLogBelow k (n / 2 ^ 2 ^ k)

/-- The place of the highest binary digit of `n`: the whole part of its binary
logarithm, and 0 for 0. -/
def binaryLog (n : Nat) : Nat :=
  binaryLogBelow (bitsBound n 0 n) n

/-- The whole number nearest to `a / b`, and the even one of the two nearest
when `a / b` lies half way between them. -/
def roundHalfEven (a b : Nat) : Nat :=
  let q := a / b
  let r := a % b
  if 2 * r < b then q else if b < 2 * r then q + 1 else if q % 2 = 0 then q else q + 1

/-- Rounding to the nearest Number value, ties to even, for the real `a / b`
that is not negative, counted in units of `2 ^ -1074`, the least positive
Number value: the result is in the same units. Number values are the multiples
of the unit below `2 ^ 53` units, and above they keep 53 binary digits. -/
def roundUnits (a b : Nat) : Nat :=
  let shift := binaryLog (a / b) - 52
  roundHalfEven a (b * 2 ^ shift) * 2 ^ shift

/-- The rounding `roundUnits` for a real `a / b` of either sign. -/
def roundSigned (a : Int) (b : Nat) : Int :=
  if a < 0 then -(roundUnits a.natAbs b : Int) else (roundUnits a.natAbs b : Int)

/-- A Number value other than `NaN`, by the whole number `units` of which it is
the multiple of `2 ^ -1074`. A magnitude of `2 ^ 1024` or more stands for the
infinity of its sign, which is what a rounding that leaves the finite range
gives. -/
structure JSNumber where
  units : Int
  deriving DecidableEq, Repr

/-- The number of units in 1. -/
def JSNumber.one : Nat := 2 ^ 1074

/-- The Number value for the real `num / den`. -/
def JSNumber.ofFraction (num : Int) (den : Nat) : JSNumber :=
  ⟨roundSigned (num * JSNumber.one) den⟩

/-- The Number value for a whole number. -/
def JSNumber.ofInt (n : Int) : JSNumber :=
  JSNumber.ofFraction n 1

/-- The value `Infinity`, or `-Infinity`. -/
def JSNumber.infinity (negative : Bool) : JSNumber :=
  ⟨if negative then -((2 ^ 2098 : Nat) : Int) else ((2 ^ 2098 : Nat) : Int)⟩

/-- The product `x * y` of two finite Number values. -/
def JSNumber.mul (x y : JSNumber) : JSNumber :=
  ⟨roundSigned (x.units * y.units) JSNumber.one⟩

/-- The sum `x + y` of two finite Number values. -/
def JSNumber.add (x y : JSNumber) : JSNumber :=
  ⟨roundSigned (x.units + y.units) 1⟩

/-- The difference `x - y` of two finite Number values. -/
def JSNumber.sub (x y : JSNumber) : JSNumber :=
  ⟨roundSigned (x.units - y.units) 1⟩

/-- The whole number `Math.floor(x)` of a finite Number value. -/
def JSNumber.floor (x : JSNumber) : Int :=
  x.units / (JSNumber.one : Int)

/-- The whole number nearest to a finite Number value in the direction of 0. -/
def JSNumber.truncate (x : JSNumber) : Int :=
  if x.units < 0 then -((-x.units) / (JSNumber.one : Int)) else x.units / (JSNumber.one : Int)

/-- The units are those of a Number value: a multiple of the unit with at most
53 binary digits in front of its zeros. -/
def JSNumber.isValue (x : JSNumber) : Bool :=
  x.units.natAbs % 2 ^ (binaryLog x.units.natAbs - 52) == 0

/-- The comparison `x < n` with a whole number `n`. -/
def JSNumber.ltInt (x : JSNumber) (n : Int) : Bool :=
  decide (x.units < n * JSNumber.one)

/-- The comparison `x > n` with a whole number `n`. -/
def JSNumber.gtInt (x : JSNumber) (n : Int) : Bool :=
  decide (n * JSNumber.one < x.units)

/-- The comparison `x <= n` with a whole number `n`. -/
def JSNumber.leInt (x : JSNumber) (n : Int) : Bool :=
  decide (x.units ≤ n * JSNumber.one)

/-- The value of a digit: `0` to `9`, `a` to `f` and `A` to `F`. -/
def digitValue (c : Char) : Option Nat :=
  if '0' ≤ c ∧ c ≤ '9' then some (c.toNat - '0'.toNat)
  else if 'a' ≤ c ∧ c ≤ 'f' then some (c.toNat - 'a'.toNat + 10)
  else if 'A' ≤ c ∧ c ≤ 'F' then some (c.toNat - 'A'.toNat + 10)
  else none

/-- Value of the digits `ds` in the given radix, read after the digits worth
`acc`; `none` when a character is not a digit of the radix. -/
def digitsValue (radix : Nat) : List Char → Nat → Option Nat
  | [], acc => some acc
  | c :: cs, acc =>
    match digitValue c with
    | some d => if d < radix then digitsValue radix cs (radix * acc + d) else none
    | none => none

/-- What a text that is a `StrNumericLiteral` denotes: an infinity, or the real
`digits * 10 ^ exponent` with its sign. -/
inductive NumericLiteral where
  | infinity (negative : Bool)
  | decimal (negative : Bool) (digits : Nat) (exponent : Int)
  deriving DecidableEq, Repr

/-- The whole number that an `ExponentPart` denotes, 0 when there is none;
`none` when the text is no `ExponentPart`. -/
def parseExponent : List Char → Option Int
  | [] => some 0
  | e :: rest =>
    if e = 'e' ∨ e = 'E' then
      match rest with
      | [] => none
      | '+' :: ds => if ds = [] then none else (digitsValue 10 ds 0).map fun n => (n : Int)
      | '-' :: ds => if ds = [] then none else (digitsValue 10 ds 0).map fun n => -(n : Int)
      | ds => (digitsValue 10 ds 0).map fun n => (n : Int)
    else none

/-- The digits and the exponent of a `StrUnsignedDecimalLiteral` other than
`Infinity`: digits, then optionally a point and digits, with a digit on at
least one side of the point, then optionally an exponent part. -/
def parseUnsignedDecimal (cs : List Char) : Option (Nat × Int) :=
  let whole := cs.takeWhile Char.isDigit
  let rest := cs.dropWhile Char.isDigit
  let fraction :=
    match rest with
    | '.' :: rest => rest.takeWhile Char.isDigit
    | _ => []
  let rest :=
    match rest with
    | '.' :: rest => rest.dropWhile Char.isDigit
    | _ => rest
  if whole = [] ∧ fraction = [] then none
  else
    match digitsValue 10 (whole ++ fraction) 0, parseExponent rest with
    | some digits, some exponent => some (digits, exponent - (fraction.length : Int))
    | _, _ => none

/-- A `StrUnsignedDecimalLiteral` with the given sign. -/
def parseDecimal (negative : Bool) (cs : List Char) : Option NumericLiteral :=
  if cs = "Infinity".data then some (.infinity negative)
  else (parseUnsignedDecimal cs).map fun (digits, exponent) =>
    .decimal negative digits exponent

/-- A `NonDecimalIntegerLiteral`: the prefix `0x`, `0o` or `0b`, in either
case, and at least one digit of its radix. -/
def parseNonDecimal (cs : List Char) : Option NumericLiteral :=
  match cs with
  | '0' :: x :: d :: ds =>
    let radix :=
      if x = 'x' ∨ x = 'X' then 16
      else if x = 'o' ∨ x = 'O' then 8
      else if x = 'b' ∨ x = 'B' then 2
      else 0
    (digitsValue radix (d :: ds) 0).map fun n => .decimal false n 0
  | _ => none

/-- What the text denotes as a `StringNumericLiteral`, `none` when it is none:
white space around is dropped, and the empty text denotes 0. -/
def parseNumericLiteral (s : String) : Option NumericLiteral :=
  match (trim s).data with
  | [] => some (.decimal false 0 0)
  | '+' :: cs => parseDecimal false cs
  | '-' :: cs => parseDecimal true cs
  | cs =>
    match parseNonDecimal cs with
    | some literal => some literal
    | none => parseDecimal false cs

/-- The numerator of the real that the literal denotes, without its sign. -/
def NumericLiteral.num : NumericLiteral → Nat
  | .infinity _ => 2 ^ 1024
  | .decimal _ digits exponent => digits * 10 ^ exponent.toNat

/-- The denominator of the real that the literal denotes. -/
def NumericLiteral.den : NumericLiteral → Nat
  | .infinity _ => 1
  | .decimal _ _ exponent => 10 ^ (-exponent).toNat

/-- Is the literal written with the sign `-`. -/
def NumericLiteral.negative : NumericLiteral → Bool
  | .infinity negative => negative
  | .decimal negative _ _ => negative

/-- The Number value of a literal: the real it denotes, rounded. -/
def NumericLiteral.toNumber (literal : NumericLiteral) : JSNumber :=
  match literal with
  | .infinity negative => JSNumber.infinity negative
  | .decimal negative _ _ =>
    JSNumber.ofFraction (if negative then -(literal.num : Int) else literal.num) literal.den

/-- The conversion `ToNumber` on strings; `none` stands for `NaN`. -/
def stringToNumber (s : String) : Option JSNumber :=
  (parseNumericLiteral s).map NumericLiteral.toNumber


/-- The conversion `ToNumber`; `none` stands for `NaN`. -/
def JSValue.toNumber : JSValue → Option JSNumber
  | .undefined => none
  | .null => some (JSNumber.ofInt 0)
  | .bool true => some (JSNumber.ofInt 1)
  | .bool false => some (JSNumber.ofInt 0)
  | .num n => some (JSNumber.ofInt n)
  | .str s => stringToNumber s

/-- The comparison `v < n` against a number: false when `v` converts to
`NaN`. -/
def JSValue.ltNum (v : JSValue) (n : Int) : Bool :=
  match v.toNumber with
  | some x => x.ltInt n
  | none => false

/-- The comparison `v > n` against a number: false when `v` converts to
`NaN`. -/
def JSValue.gtNum (v : JSValue) (n : Int) : Bool :=
  match v.toNumber with
  | some x => x.gtInt n
  | none => false

/-- The comparison `v <= n` against a number: false when `v` converts to
`NaN`. -/
def JSValue.leNum (v : JSValue) (n : Int) : Bool :=
  match v.toNumber with
  | some x => x.leInt n
  | none => false

/-- A plain object: its own properties in `Object.keys` order. The keys of an
object are pairwise distinct. -/
abbrev JSObject := List (String × JSValue)

/-- Embedding of `Object.keys(o)`. -/
def JSObject.keys (o : JSObject) : List String :=
  o.map Prod.fst

/-- The property read `o[key]`: `undefined` when the object has no such
property. -/
def JSObject.get (o : JSObject) (key : String) : JSValue :=
  match o.lookup key with
  | some v => v
  | none => .undefined

/-- The assignment `o[key] = value` for a key that is not an array index: an
existing property keeps its place, a new one goes last. -/
def JSObject.set : JSObject → String → JSValue → JSObject
  | [], key, value => [(key, value)]
  | (k, v) :: rest, key, value =>
    if k = key then (key, value) :: rest else (k, v) :: JSObject.set rest key value

/-! ## `NASAConfig` (`4to Punto/config.js`) -/

/-- The store `localStorage`: the string kept under each key, if any. -/
abbrev Storage := String → Option String

/-- Embedding of `localStorage.getItem(key)`. -/
def Storage.getItem (st : Storage) (key : String) : Option String :=
  st key

/-- Embedding of `localStorage.setItem(key, value)`. -/
def Storage.setItem (st : Storage) (key value : String) : Storage :=
  fun k => if k = key then some value else st k

/-- A storage with nothing in it. -/
def Storage.empty : Storage :=
  fun _ => none

/-- The object built by `new URL(...)`: the address up to the query and the
list held by `searchParams`. The string returned by `toString()` is this
address followed by the percent-encoded list. -/
structure URL where
  base : String
  searchParams : List (String × String)
  deriving DecidableEq, Repr

/-- Embedding of `url.searchParams.append(key, value)`. -/
def URL.append (url : URL) (key : String) (value : JSValue) : URL :=
  { url with searchParams := url.searchParams ++ [(key, value.toJSString)] }

/-- Embedding of `url.searchParams.get(key)`: the first value under the key. -/
def URL.get (url : URL) (key : String) : Option String :=
  url.searchParams.lookup key

/-- A notification element appended to the page by `showNotification`. -/
structure Notification where
  message : String
  type : String
  deriving DecidableEq, Repr

/-- The field `DEFAULT_API_KEY`. -/
def DEFAULT_API_KEY : String := "ZU8ao0WdvEWElFEdS90VR6haD0WRHpddhywpxBsh"

/-- The entry `BASE_URLS.APOD`, parsed. -/
def BASE_URLS.APOD : URL := ⟨"https://api.nasa.gov/planetary/apod", []⟩

/-- The entry `BASE_URLS.MARS_ROVER`, parsed. -/
def BASE_URLS.MARS_ROVER : URL :=
  ⟨"https://api.nasa.gov/mars-photos/api/v1/rovers/curiosity/photos", []⟩

/-- The entry `BASE_URLS.TECH_TRANSFER`, parsed. -/
def BASE_URLS.TECH_TRANSFER : URL := ⟨"https://images-api.nasa.gov/search", []⟩

/-- The entry `BASE_URLS.WMS_BASE`, parsed. -/
def BASE_URLS.WMS_BASE : URL :=
  ⟨"https://gibs.earthdata.nasa.gov/wms/epsg4326/best/wms.cgi", []⟩

/-- The entry `DEFAULTS.MAX_MARS_PHOTOS`. -/
def DEFAULTS.MAX_MARS_PHOTOS : Nat := 50

/-- The entry `DEFAULTS.MAX_TECH_RESULTS`. -/
def DEFAULTS.MAX_TECH_RESULTS : Nat := 20

/-- The entry `DEFAULTS.DEFAULT_SOL`. -/
def DEFAULTS.DEFAULT_SOL : Int := 1000

/-- The entry `DEFAULTS.WMS_IMAGE_FORMAT`. -/
def DEFAULTS.WMS_IMAGE_FORMAT : String := "image/jpeg"

/-- The entry `DEFAULTS.WMS_WIDTH`. -/
def DEFAULTS.WMS_WIDTH : Int := 1024

/-- The entry `DEFAULTS.WMS_HEIGHT`. -/
def DEFAULTS.WMS_HEIGHT : Int := 512

/-- Embedding of `getApiKey()`: `localStorage.getItem('nasa_api_key') || DEFAULT_API_KEY`. -/
def getApiKey (st : Storage) : String :=
  match st.getItem "nasa_api_key" with
  | some key => if key != "" then key else DEFAULT_API_KEY
  | none => DEFAULT_API_KEY

/-- What `NASAConfig` reads and writes outside itself: the storage and the
notifications shown so far (oldest first). -/
structure ConfigEnv where
  storage : Storage
  notifications : List Notification

/-- Embedding of `showNotification(message, type)`. -/
def showNotification (message type : String) (env : ConfigEnv) : ConfigEnv :=
  { env with notifications := env.notifications ++ [⟨message, type⟩] }

/-- Embedding of `setApiKey(apiKey)` for a string argument. -/
def setApiKey (apiKey : String) (env : ConfigEnv) : ConfigEnv :=
  if apiKey != "" && trim apiKey != "" then
    showNotification "API Key guardada correctamente" "success"
      { env with storage := env.storage.setItem "nasa_api_key" (trim apiKey) }
  else
    showNotification "Por favor ingresa una API Key válida" "error" env

/-- Embedding of `buildUrl(baseUrl, params)`, with `baseUrl` given as the object that
`new URL(baseUrl)` makes of it. The result is the URL and the caller's
`params` object as the call leaves it. -/
def buildUrl (st : Storage) (baseUrl : URL) (params : JSObject) : URL × JSObject :=
  let url := baseUrl
  let params := params.set "api_key" (.str (getApiKey st))
  let url := params.keys.foldl (fun (url : URL) key =>
    if params.get key ≠ .null ∧ params.get key ≠ .undefined ∧ params.get key ≠ .str "" then
      url.append key (params.get key)
    else url) url
  (url, params)

/-- Embedding of `buildWmsUrl(layer, date, options)`. -/
def buildWmsUrl (layer date : String) (options : JSObject) : URL :=
  let params : JSObject :=
    [("SERVICE", .str "WMS"),
     ("VERSION", .str "1.3.0"),
     ("REQUEST", .str "GetMap"),
     ("FORMAT", (options.get "format").or (.str DEFAULTS.WMS_IMAGE_FORMAT)),
     ("TRANSPARENT", .str "true"),
     ("LAYERS", .str layer),
     ("CRS", .str "EPSG:4326"),
     ("STYLES", .str ""),
     ("WIDTH", (options.get "width").or (.num DEFAULTS.WMS_WIDTH)),
     ("HEIGHT", (options.get "height").or (.num DEFAULTS.WMS_HEIGHT)),
     ("BBOX", (options.get "bbox").or (.str "-180,-90,180,90")),
     ("TIME", .str date)]
  let url := BASE_URLS.WMS_BASE
  params.keys.foldl (fun (url : URL) key => url.append key (params.get key)) url

/-! ## Validation of the rover-photo query (`4to Punto/mars.js`) -/

/-- The statements of `getMarsPhotos(sol)` from the start of the `try` block to
the call `fetch(url)`, for the texts of the sol field and the camera selector:
`.error message` when a statement throws (the `catch` block shows the message
and no request is made), `.ok url` when `fetch(url)` is reached. An omitted
argument is `null`. -/
def getMarsPhotosRequest (st : Storage) (solInput cameraSelect : String)
    (sol : JSValue) : Except String URL :=
  let selectedSol := sol.or (.str solInput)
  let selectedCamera := cameraSelect
  if !selectedSol.truthy || selectedSol.ltNum 1 then
    .error "Por favor ingresa un sol válido (día marciano)"
  else if selectedSol.gtNum 4000 then
    .error "El sol no puede ser mayor a 4000"
  else
    let params : JSObject := [("sol", selectedSol), ("page", .num 1)]
    let params := if selectedCamera != "" then
        params.set "camera" (.str selectedCamera) else params
    .ok (buildUrl st BASE_URLS.MARS_ROVER params).1

/-! ## Validation of the picture-of-day query (`4to Punto/apod.js`) -/

/-- A date string of the form `YYYY-MM-DD`, as an `input` of type `date` holds
it and `formatDate` produces it, by its three numbers. -/
structure CivilDate where
  year : Nat
  month : Nat
  day : Nat
  deriving DecidableEq, Repr

/-- Number of days from 1970-01-01 to the date, in the proleptic Gregorian
calendar. -/
def CivilDate.epochDay (d : CivilDate) : Int :=
  let y : Int := if d.month ≤ 2 then (d.year : Int) - 1 else d.year
  let era : Int := y / 400
  let yoe : Int := y - era * 400
  let mp : Int := ((d.month : Int) + 9) % 12
  let doy : Int := (153 * mp + 2) / 5 + (d.day : Int) - 1
  let doe : Int := yoe * 365 + yoe / 4 - yoe / 100 + doy
  era * 146097 + doe - 719468

/-- Milliseconds in a day. -/
def msPerDay : Int := 86400000

/-- The time value of `new Date('YYYY-MM-DD')`: midnight UTC of the date, in
milliseconds since the epoch. -/
def CivilDate.getTime (d : CivilDate) : Int :=
  d.epochDay * msPerDay

/-- The decimal digits of `n`, padded with zeros on the left to `width`
characters. -/
def padZero (width n : Nat) : String :=
  ⟨List.replicate (width - (toString n).length) '0'⟩ ++ toString n

/-- The text `YYYY-MM-DD` of the date. -/
def CivilDate.toISO (d : CivilDate) : String :=
  padZero 4 d.year ++ "-" ++ padZero 2 d.month ++ "-" ++ padZero 2 d.day

/-- The first day with a picture: `1995-06-16`. -/
def firstAPOD : CivilDate := ⟨1995, 6, 16⟩

/-- The UTC calendar day that contains the instant `now` (milliseconds since
the epoch), as a number of days since 1970-01-01: the day that
`new Date().toISOString().split('T')[0]` names. -/
def todayDay (now : Int) : Int :=
  now / msPerDay

/-- Is `y` a leap year of the Gregorian calendar. -/
def isLeapYear (y : Nat) : Bool :=
  y % 4 = 0 && (y % 100 != 0 || y % 400 = 0)

/-- Number of days of month `m` in year `y`. -/
def daysInMonth (y m : Nat) : Nat :=
  if m = 2 then (if isLeapYear y then 29 else 28)
  else if m = 4 ∨ m = 6 ∨ m = 9 ∨ m = 11 then 30 else 31

/-- The three numbers name a day of the calendar. -/
def CivilDate.valid (d : CivilDate) : Prop :=
  1 ≤ d.month ∧ d.month ≤ 12 ∧ 1 ≤ d.day ∧ d.day ≤ daysInMonth d.year d.month

/-- The date `a` is earlier in the calendar than `b`. -/
def CivilDate.before (a b : CivilDate) : Prop :=
  a.year < b.year ∨
    (a.year = b.year ∧ (a.month < b.month ∨ (a.month = b.month ∧ a.day < b.day)))

/-- Days from 1 March of year 0 to 1 March of year `y`. -/
def yearStart (y : Int) : Int :=
  (y / 400) * 146097 +
    ((y - (y / 400) * 400) * 365 + (y - (y / 400) * 400) / 4 - (y - (y / 400) * 400) / 100)

/-- Days from 1 March of year 0 to the first day of the month number `n`,
months being counted from March of year 0. -/
def monthStart (n : Int) : Int :=
  yearStart (n / 12) + (153 * (n % 12) + 2) / 5

/-- The number of the month of the date, counted from March of year 0. -/
def monthIndex (d : CivilDate) : Int :=
  12 * (d.year : Int) + (d.month : Int) - 3

/-- The statements of `getAPOD(date)` from the start of the `try` block to the
call `fetch(url)`, at the instant `now` and for the content of the date field
(`none` when it is empty): `.error message` when a statement throws (the
`catch` block shows the message and no request is made), `.ok url` when
`fetch(url)` is reached. An omitted argument is `none`. -/
def getAPODRequest (st : Storage) (now : Int) (dateInput : Option CivilDate)
    (date : Option CivilDate) : Except String URL :=
  match date.orElse (fun _ => dateInput) with
  | none => .error "Por favor selecciona una fecha"
  | some selectedDate =>
    let selected := selectedDate.getTime
    let today := now
    if selected > today then
      .error "No se puede seleccionar una fecha futura"
    else
      let firstAPOD := firstAPOD.getTime
      if selected < firstAPOD then
        .error "APOD comenzó el 16 de junio de 1995"
      else
        .ok (buildUrl st BASE_URLS.APOD
          [("date", .str selectedDate.toISO), ("hd", .bool true)]).1

/-! ## `NASAApiExplorer` (`4to Punto/app.js`) -/

/-- A call that the coordinator makes into a feature module. -/
inductive ModuleCall where
  /-- The call `window.apodModule.loadTodaysAPOD()`. -/
  | loadTodaysAPOD
  /-- The timer of 500 ms that loads a map image if the date field is set. -/
  | wmsTimer
  deriving DecidableEq, Repr

/-- The object `NASAApiExplorer` with the parts of the page it acts on. The
four feature modules are loaded before the object is built. -/
structure NASAApiExplorer extends ConfigEnv where
  currentModule : String
  /-- The elements of class `module`: the id of each and whether its class list
  holds `active`. -/
  modules : List (String × Bool)
  /-- The elements of class `nav-btn`: the `data-module` attribute of each and
  whether its class list holds `active`. -/
  navButtons : List (String × Bool)
  /-- The text of the field `apiKeyInput`. -/
  apiKeyInput : String
  /-- The markup inside `apodResults`. -/
  apodResults : String
  /-- The markup inside `wmsResults`. -/
  wmsResults : String
  /-- The text of the field `wmsDate`. -/
  wmsDate : String
  /-- The calls made into the feature modules so far, oldest first. -/
  calls : List ModuleCall

/-- The class `active` is added to the first element whose name is `name`, if
there is one. -/
def activateFirst (name : String) : List (String × Bool) → List (String × Bool)
  | [] => []
  | (n, a) :: rest =>
    if n = name then (n, true) :: rest else (n, a) :: activateFirst name rest

/-- A module id made of letters, digits, `-` and `_`. For such an id the
selector `[data-module="id"]` of `switchModule` is well formed and selects the
elements whose attribute is the id; the model of `switchModule` covers these
ids. -/
def selectorSafe (moduleId : String) : Bool :=
  moduleId.data.all fun c => c.isAlphanum || c = '-' || c = '_'

/-- Embedding of `handleModuleSwitch(moduleId)`. -/
def handleModuleSwitch (moduleId : String) (app : NASAApiExplorer) :
    NASAApiExplorer :=
  if moduleId = "apod" then
    if app.apodResults = "" then
      if getApiKey app.storage = "DEMO_KEY" then
        { app with calls := app.calls ++ [.loadTodaysAPOD] }
      else app
    else app
  else if moduleId = "wms" then
    if app.wmsResults = "" then
      { app with calls := app.calls ++ [.wmsTimer] }
    else app
  else app

/-- Embedding of `switchModule(moduleId)`. -/
def switchModule (moduleId : String) (app : NASAApiExplorer) : NASAApiExplorer :=
  let modules := app.modules.map fun m => (m.1, false)
  let modules := activateFirst (moduleId ++ "-module") modules
  let navButtons := app.navButtons.map fun b => (b.1, false)
  let navButtons := activateFirst moduleId navButtons
  let app := { app with modules := modules, navButtons := navButtons,
                        currentModule := moduleId }
  let app := handleModuleSwitch moduleId app
  { app with storage := app.storage.setItem "nasa_current_module" moduleId }

/-- Embedding of `loadInitialModule()`. -/
def loadInitialModule (app : NASAApiExplorer) : NASAApiExplorer :=
  let savedModule :=
    match app.storage.getItem "nasa_current_module" with
    | some name => if name != "" then name else "apod"
    | none => "apod"
  switchModule savedModule app

/-- The page of the explorer as the constructor finds it: the four panels and
their four navigation buttons, none active, and the given storage. -/
def NASAApiExplorer.init (st : Storage) : NASAApiExplorer where
  storage := st
  notifications := []
  currentModule := "apod"
  modules := [("apod-module", false), ("wms-module", false),
              ("mars-module", false), ("tech-module", false)]
  navButtons := [("apod", false), ("wms", false), ("mars", false), ("tech", false)]
  apiKeyInput := ""
  apodResults := ""
  wmsResults := ""
  wmsDate := ""
  calls := []

/-! ## Back navigation in the search widget (`3er Punto/script.js`) -/

/-- The listener of `popstate` installed by `handlePopState()`, for the state
of the entry navigated to: `some search` for a state object `{search}`, `none`
for a `null` state. -/
def onPopState (h : Host) (state : Option String) (s : DynamicSearch) :
    DynamicSearch :=
  match state with
  | some search =>
    updateBackButton (filterAndDisplayPosts h search false { s with searchInput := search })
  | none =>
    updateBackButton (showAllPosts { s with searchInput := "" })

/-- The call `history.back()` followed by the `popstate` event it causes: the
entry behind becomes the current one and the present one moves ahead. With no
entry of this page behind, the widget is left as it is. -/
def historyBack (h : Host) (s : DynamicSearch) : DynamicSearch :=
  match s.history.back with
  | [] => s
  | entry :: rest =>
    onPopState h entry.state
      { s with history :=
          { back := rest, current := entry,
            forward := s.history.current :: s.history.forward } }

/-! ## Network responses -/

/-- The object `Response` that `fetch` resolves to: the status line and the
outcome of `response.json()`, which is the parsed body or the message of the
error it rejects with. -/
structure Response (α : Type) where
  status : Nat
  statusText : String
  body : Except String α

/-- The property `response.ok`: the status is in the range 200 to 299. -/
def Response.ok {α : Type} (response : Response α) : Bool :=
  decide (200 ≤ response.status) && decide (response.status ≤ 299)

/-- The network as a query sees it: what `fetch(url)` settles to, the response
or the message of the error it rejects with. -/
abbrev Fetch (α : Type) := URL → Except String (Response α)

/-! ## Import, shortcuts and key validation in `NASAApiExplorer` -/

/-- The four module names. -/
def moduleNames : List String := ["apod", "wms", "mars", "tech"]

/-- Show a notification from the coordinator: `window.nasaConfig.showNotification`. -/
def NASAApiExplorer.notify (message type : String) (app : NASAApiExplorer) :
    NASAApiExplorer :=
  { app with toConfigEnv := showNotification message type app.toConfigEnv }

/-- What `document.querySelector` does with the text `[data-module="id"]` for
an id that is not selector-safe, where the CSS parser of the host decides: it
throws on a text that is no selector, and otherwise returns no element or the
first element the text selects, which may be any element of the page. -/
inductive SelectorOutcome where
  | syntaxError
  | noElement
  /-- The element of class `nav-btn` at this place of `navButtons`. -/
  | navButton (index : Nat)
  /-- The element of class `module` at this place of `modules`. -/
  | modulePanel (index : Nat)
  /-- An element that is neither a panel nor a navigation button. -/
  | otherElement
  deriving DecidableEq, Repr

/-- The class `active` is added to the element at place `index`, if there is
one. -/
def activateAt : Nat → List (String × Bool) → List (String × Bool)
  | _, [] => []
  | 0, (n, _) :: rest => (n, true) :: rest
  | index + 1, e :: rest => e :: activateAt index rest

/-- The method `switchModule(moduleId)` for an id that is not selector-safe,
given what `querySelector` does with its selector: `.error` with the page as it
is when the call throws, `.ok` with the page after the method otherwise. -/
def switchModuleUnsafe (outcome : SelectorOutcome) (moduleId : String)
    (app : NASAApiExplorer) : Except NASAApiExplorer NASAApiExplorer :=
  let modules := app.modules.map fun m => (m.1, false)
  let modules := activateFirst (moduleId ++ "-module") modules
  let navButtons := app.navButtons.map fun b => (b.1, false)
  let app := { app with modules := modules, navButtons := navButtons }
  match outcome with
  | .syntaxError => .error app
  | _ =>
    let app :=
      match outcome with
      | .navButton index => { app with navButtons := activateAt index app.navButtons }
      | .modulePanel index => { app with modules := activateAt index app.modules }
      | _ => app
    let app := { app with currentModule := moduleId }
    let app := handleModuleSwitch moduleId app
    .ok { app with storage := app.storage.setItem "nasa_current_module" moduleId }

/-- The method `switchModule(moduleId)` for any id: the model `switchModule`
for a selector-safe id, and what the host's selector parser makes of it
otherwise. -/
def switchModuleAny (css : String → SelectorOutcome) (moduleId : String)
    (app : NASAApiExplorer) : Except NASAApiExplorer NASAApiExplorer :=
  if selectorSafe moduleId then .ok (switchModule moduleId app)
  else switchModuleUnsafe (css moduleId) moduleId app

/-- The method `loadInitialModule()` for any stored name: `.error` with the
page as it is when `switchModule` throws. -/
def loadInitialModuleAny (css : String → SelectorOutcome) (app : NASAApiExplorer) :
    Except NASAApiExplorer NASAApiExplorer :=
  let savedModule :=
    match app.storage.getItem "nasa_current_module" with
    | some name => if name != "" then name else "apod"
    | none => "apod"
  switchModuleAny css savedModule app

/-- The outcome of `JSON.parse` on the content of an imported file. The field
values of an object are `null`, booleans, numbers and strings. -/
inductive ParsedConfig where
  /-- The content is not valid JSON: `JSON.parse` throws. -/
  | syntaxError
  /-- A value that is not an object: `null`, a boolean, a number or a string.
  An array reads like a number here: it has no `apiKey` and no
  `currentModule`. -/
  | scalar (value : JSValue)
  | object (fields : JSObject)

/-- The first statement of the `try` block of `importConfig`, on the parsed
object: `if (config.apiKey) { setApiKey(config.apiKey); apiKeyInput.value =
config.apiKey }`. The result is `.error` with the page as it is when the
statement throws: a key that is not a string has no method `trim`. -/
def importApiKey (config : JSObject) (app : NASAApiExplorer) :
    Except NASAApiExplorer NASAApiExplorer :=
  if (config.get "apiKey").truthy then
    match config.get "apiKey" with
    | .str apiKey =>
      .ok { app with toConfigEnv := setApiKey apiKey app.toConfigEnv,
                     apiKeyInput := apiKey }
    | _ => .error app
  else .ok app

/-- The second statement of the `try` block of `importConfig`, on the parsed
object: `if (config.currentModule) { this.switchModule(config.currentModule) }`.
A module name that is a number or a boolean is kept by its text. -/
def importCurrentModule (css : String → SelectorOutcome) (config : JSObject)
    (app : NASAApiExplorer) : Except NASAApiExplorer NASAApiExplorer :=
  if (config.get "currentModule").truthy then
    switchModuleAny css (config.get "currentModule").toJSString app
  else .ok app

/-- The handler `reader.onload` of `importConfig(file)`, for the outcome of
`JSON.parse` on the file and for what the host's selector parser does with
module ids that are not selector-safe. -/
def importConfig (css : String → SelectorOutcome) (parsed : ParsedConfig)
    (app : NASAApiExplorer) : NASAApiExplorer :=
  let failed := fun (app : NASAApiExplorer) =>
    app.notify "Error al importar configuración" "error"
  let imported := fun (app : NASAApiExplorer) =>
    app.notify "Configuración importada correctamente" "success"
  match parsed with
  | .syntaxError => failed app
  | .scalar value =>
    -- reading a property of `null` throws; other values have no such property
    if value = .null ∨ value = .undefined then failed app else imported app
  | .object config =>
    match importApiKey config app with
    | .error app => failed app
    | .ok app =>
      match importCurrentModule css config app with
      | .error app => failed app
      | .ok app => imported app

/-- The click listener of the navigation button at place `index`:
`switchModule(btn.getAttribute('data-module'))`. -/
def navClick (index : Nat) (app : NASAApiExplorer) : NASAApiExplorer :=
  match app.navButtons.get? index with
  | some button => switchModule button.1 app
  | none => app

/-- The fields of a `keydown` event that the shortcut listener can see. -/
structure KeyboardEvent where
  altKey : Bool
  ctrlKey : Bool
  shiftKey : Bool
  metaKey : Bool
  key : String
  deriving DecidableEq, Repr

/-- The module that the `keydown` listener of `setupEventListeners()` passes to
`switchModule`, if it calls it. -/
def keydownTarget (e : KeyboardEvent) : Option String :=
  if e.altKey && !e.ctrlKey && !e.shiftKey then
    if e.key = "1" then some "apod"
    else if e.key = "2" then some "wms"
    else if e.key = "3" then some "mars"
    else if e.key = "4" then some "tech"
    else none
  else none

/-- The `keydown` listener of `setupEventListeners()`. -/
def onKeydown (e : KeyboardEvent) (app : NASAApiExplorer) : NASAApiExplorer :=
  match keydownTarget e with
  | some moduleId => switchModule moduleId app
  | none => app

/-- The method `validateApiKey(apiKey)`, for the network it probes. The
argument is not read: the probe carries the stored key. -/
def validateApiKey {α : Type} (fetch : Fetch α) (_apiKey : String)
    (app : NASAApiExplorer) : NASAApiExplorer :=
  let testUrl := (buildUrl app.storage BASE_URLS.APOD [("count", .num 1)]).1
  match fetch testUrl with
  | .ok response =>
    if response.ok then
      let app := app.notify "API Key válida y funcionando correctamente" "success"
      if app.currentModule = "apod" then
        { app with calls := app.calls ++ [.loadTodaysAPOD] }
      else app
    else if response.status = 403 then
      app.notify "API Key inválida. Verifica que sea correcta." "error"
    else if response.status = 429 then
      app.notify "API Key válida pero límite de peticiones excedido" "warning"
    else
      app.notify "No se pudo validar la API Key" "warning"
  | .error message =>
    app.notify ("Error al validar API Key: " ++ message) "error"

/-! ## The rover-photo query and its response (`4to Punto/mars.js`) -/

/-- A photo record of the rover endpoint, by the fields the cards show. -/
structure Photo where
  id : Nat
  sol : Nat
  camera : String
  img_src : String
  earth_date : String
  rover : String
  deriving DecidableEq, Repr

/-- The body of a rover-photo response: its `photos` field, `none` when the
field is missing. -/
structure MarsData where
  photos : Option (List Photo)
  deriving DecidableEq, Repr

/-- What the container `marsResults` holds: nothing, the error card with its
message, or the header for a sol followed by the grid of photo cards. -/
inductive MarsResults where
  | empty
  | error (message : String)
  | photos (sol : String) (cards : List Photo)
  deriving DecidableEq, Repr

/-- The object `MarsRoverModule` with its elements of the page. -/
structure MarsRoverModule where
  /-- The text of the field `solInput`. -/
  solInput : String
  /-- The value of the selector `cameraSelect`. -/
  cameraSelect : String
  /-- Has `marsLoading` the class `hidden`. -/
  loadingHidden : Bool
  results : MarsResults
  currentPhotos : List Photo
  deriving DecidableEq, Repr

/-- The message thrown for a response whose status is not in the 2xx range,
the same in the three query modules. -/
def statusErrorMessage {α : Type} (response : Response α) : String :=
  if response.status = 429 then
    "Límite de peticiones excedido. Espera un momento e intenta nuevamente."
  else
    "Error " ++ toString response.status ++ ": " ++ response.statusText

/-- Embedding of `showLoading(show)` of the rover-photo module. -/
def MarsRoverModule.showLoading (visible : Bool) (m : MarsRoverModule) : MarsRoverModule :=
  if visible then { m with loadingHidden := false, results := .empty }
  else { m with loadingHidden := true }

/-- Embedding of `showError(message)` of the rover-photo module. -/
def MarsRoverModule.showError (message : String) (m : MarsRoverModule) : MarsRoverModule :=
  { m with results := .error message }

/-- Embedding of `displayMarsPhotos(photos, sol)`. -/
def displayMarsPhotos (photos : List Photo) (sol : JSValue) (m : MarsRoverModule) :
    MarsRoverModule :=
  { m with results := .photos sol.toJSString photos }

/-- The `try` block of `getMarsPhotos(sol)` after `showLoading(true)`: `.error`
with the message of what is thrown and the module as it is then, `.ok` with the
module after the block. -/
def getMarsPhotosTry (st : Storage) (fetch : Fetch MarsData) (sol : JSValue)
    (m : MarsRoverModule) : Except (String × MarsRoverModule) MarsRoverModule :=
  let selectedSol := sol.or (.str m.solInput)
  let selectedCamera := m.cameraSelect
  match getMarsPhotosRequest st m.solInput m.cameraSelect sol with
  | .error message => .error (message, m)
  | .ok url =>
    match fetch url with
    | .error message => .error (message, m)
    | .ok response =>
      if !response.ok then .error (statusErrorMessage response, m)
      else
        match response.body with
        | .error message => .error (message, m)
        | .ok data =>
          match data.photos with
          | some (photo :: photos) =>
            let maxPhotos := DEFAULTS.MAX_MARS_PHOTOS
            let m := { m with currentPhotos := (photo :: photos).take maxPhotos }
            .ok (displayMarsPhotos m.currentPhotos selectedSol m)
          | _ =>
            .error ("No se encontraron fotos para el sol " ++ selectedSol.toJSString ++
              (if selectedCamera != "" then " con la cámara " ++ selectedCamera else "") ++
              ". Intenta con otro sol o cámara.", m)

/-- The method `getMarsPhotos(sol)`, run to its end against the network
`fetch`. An omitted argument is `null`. -/
def getMarsPhotos (st : Storage) (fetch : Fetch MarsData) (sol : JSValue)
    (m : MarsRoverModule) : MarsRoverModule :=
  let m := m.showLoading true
  let m :=
    match getMarsPhotosTry st fetch sol m with
    | .ok m => m
    | .error (message, m) => m.showError message
  m.showLoading false

/-! ## The tech-image search and its response (`4to Punto/tech.js`) -/

/-- A record of the `data` array of a search item, by its text fields;
`none` for a missing field. -/
structure TechItemData where
  title : Option String
  description : Option String
  deriving DecidableEq, Repr

/-- An item of a search response: the addresses of its `links` array and its
`data` array, `none` for a missing array. -/
structure TechItem where
  links : Option (List String)
  data : Option (List TechItemData)
  href : Option String
  deriving DecidableEq, Repr

/-- The field `collection` of a search response. -/
structure TechCollection where
  items : Option (List TechItem)
  deriving DecidableEq, Repr

/-- The body of a search response. -/
structure TechData where
  collection : Option TechCollection
  deriving DecidableEq, Repr

/-- What the container `techResults` holds: nothing, the error card with its
message, or the header for a search followed by one card per item. -/
inductive TechResults where
  | empty
  | error (message : String)
  | technologies (searchQuery : String) (cards : List TechItem)
  deriving DecidableEq, Repr

/-- The object `TechTransferModule` with its elements of the page. -/
structure TechTransferModule where
  /-- The text of the field `techSearchInput`. -/
  searchInput : String
  /-- The value of the selector `techLimit`. -/
  limitSelect : String
  /-- Has `techLoading` the class `hidden`. -/
  loadingHidden : Bool
  results : TechResults
  currentTech : List TechItem
  deriving DecidableEq, Repr

/-- The expression `a || b` for an optional string argument `a` (`none` when
omitted) and a string `b`. -/
def orString (a : Option String) (b : String) : String :=
  match a with
  | some x => if x != "" then x else b
  | none => b

/-- The callback given to `filter` in `searchTechnologies`:
`item.links && item.links.length > 0 && item.data && item.data[0] &&
item.data[0].description`. -/
def isValidTech (item : TechItem) : Bool :=
  (match item.links with
    | some links => decide (links.length > 0)
    | none => false) &&
  (match item.data with
    | some (first :: _) =>
      (match first.description with
        | some description => description != ""
        | none => false)
    | _ => false)

/-- Embedding of `showLoading(show)` of the tech-image module. -/
def TechTransferModule.showLoading (visible : Bool) (m : TechTransferModule) :
    TechTransferModule :=
  if visible then { m with loadingHidden := false, results := .empty }
  else { m with loadingHidden := true }

/-- Embedding of `showError(message)` of the tech-image module. -/
def TechTransferModule.showError (message : String) (m : TechTransferModule) :
    TechTransferModule :=
  { m with results := .error message }

/-- Embedding of `displayTechnologies(technologies, searchQuery)`: the header
and one card for every technology. -/
def displayTechnologies (technologies : List TechItem) (searchQuery : String)
    (m : TechTransferModule) : TechTransferModule :=
  { m with results := .technologies searchQuery technologies }

/-- The address that `searchTechnologies` fetches for a query and a limit. -/
def techSearchUrl (searchQuery searchLimit : String) : URL :=
  { base := BASE_URLS.TECH_TRANSFER.base,
    searchParams := [("q", searchQuery), ("media_type", "image"),
      ("page_size", searchLimit)] }

/-- The `try` block of `searchTechnologies(query, limit)` after
`showLoading(true)`: `.error` with the message of what is thrown and the module
as it is then, `.ok` with the module after the block. -/
def searchTechnologiesTry (fetch : Fetch TechData) (query limit : Option String)
    (m : TechTransferModule) : Except (String × TechTransferModule) TechTransferModule :=
  let searchQuery := orString query (trim m.searchInput)
  let searchLimit := orString limit m.limitSelect
  if searchQuery == "" then .error ("Por favor ingresa un término de búsqueda", m)
  else
    let url := techSearchUrl searchQuery searchLimit
    match fetch url with
    | .error message => .error (message, m)
    | .ok response =>
      if !response.ok then .error (statusErrorMessage response, m)
      else
        match response.body with
        | .error message => .error (message, m)
        | .ok data =>
          match data.collection.bind (fun collection => collection.items) with
          | some (item :: items) =>
            let validTech := (item :: items).filter isValidTech
            if validTech.length == 0 then
              .error ("No se encontraron contenidos con imágenes disponibles. " ++
                "Intenta con otros términos.", m)
            else
              let m := { m with currentTech := validTech }
              .ok (displayTechnologies validTech searchQuery m)
          | _ =>
            .error ("No se encontraron contenidos para \"" ++ searchQuery ++
              "\". Intenta con otros términos como: space, rocket, satellite, technology.", m)

/-- The method `searchTechnologies(query, limit)`, run to its end against the
network `fetch`. An omitted argument is `none`. -/
def searchTechnologies (fetch : Fetch TechData) (query limit : Option String)
    (m : TechTransferModule) : TechTransferModule :=
  let m := m.showLoading true
  let m :=
    match searchTechnologiesTry fetch query limit m with
    | .ok m => m
    | .error (message, m) => m.showError message
  m.showLoading false

/-- A valid item used to evaluate the tech-image module. -/
def sampleTechItem : TechItem :=
  { links := some ["https://images-assets.nasa.gov/image/a/a~thumb.jpg"],
    data := some [⟨some "Solar array", some "A solar array in orbit"⟩],
    href := some "https://images-assets.nasa.gov/image/a/collection.json" }

/-- A tech-image module before its first search. -/
def sampleTechModule : TechTransferModule :=
  { searchInput := "space", limitSelect := "50", loadingHidden := true,
    results := .empty, currentTech := [] }

/-- A network that answers every request with status 200 and `count` copies of
the valid item. -/
def techNetwork (count : Nat) : Fetch TechData :=
  fun _ => .ok ⟨200, "OK", .ok ⟨some ⟨some (List.replicate count sampleTechItem)⟩⟩⟩

/-- A rover-photo module with sol 1000 in its field. -/
def sampleMarsModule : MarsRoverModule :=
  { solInput := "1000", cameraSelect := "", loadingHidden := true,
    results := .empty, currentPhotos := [] }

/-- A network that answers every request with status 200 and `count` photos of
sol 1000, numbered from 0. -/
def marsNetwork (count : Nat) : Fetch MarsData :=
  fun _ => .ok ⟨200, "OK", .ok ⟨some ((List.range count).map fun i =>
    ⟨i, 1000, "MAST", "https://mars.nasa.gov/p.jpg", "2015-05-30", "Curiosity"⟩)⟩⟩

/-! ## Text and map-tile helpers (`4to Punto/config.js`, `4to Punto/wms.js`) -/

/-- Embedding of `truncateText(text, length)` for a text and a non-negative
whole length. Lengths count the characters of the string. -/
def truncateText (text : String) (length : Nat) : String :=
  if text == "" || decide (text.length ≤ length) then text
  else ⟨text.data.take length⟩ ++ "..."

/-- Embedding of `WMSModule.buildWMSUrl(layer, date)`: the base address
followed by the entries of its `URLSearchParams`. -/
def buildWMSUrl (layer date : String) : URL :=
  { base := BASE_URLS.WMS_BASE.base,
    searchParams :=
      [("SERVICE", "WMS"),
       ("VERSION", "1.3.0"),
       ("REQUEST", "GetMap"),
       ("FORMAT", "image/jpeg"),
       ("TRANSPARENT", "false"),
       ("LAYERS", layer),
       ("CRS", "EPSG:4326"),
       ("STYLES", ""),
       ("WIDTH", "1024"),
       ("HEIGHT", "512"),
       ("BBOX", "-90,-180,90,180"),
       ("TIME", date)] }

/-! ## Invariant of the internal search history -/

/-- No two neighbours of `searchHistory` are equal and `currentSearchIndex` is
the index of its last entry. -/
def HistoryInvariant (s : DynamicSearch) : Prop :=
  s.searchHistory.Chain' (fun a b => a ≠ b) ∧
    s.currentSearchIndex = (s.searchHistory.length : Int) - 1

/-! ## Random queries (`4to Punto/config.js`, `4to Punto/mars.js`, `4to Punto/apod.js`) -/

/-- Embedding of `getRandomSol()` for the Number value `random` that
`Math.random()` returns. The product, its floor and the sum are those of
Number values; the result is a whole number. -/
def getRandomSol (random : JSNumber) : Int :=
  let product := JSNumber.mul random (JSNumber.ofInt 3000)
  let floored := JSNumber.ofInt product.floor
  (JSNumber.add floored (JSNumber.ofInt 1)).floor

/-- Embedding of `getRandomSolPhotos()` for the Number value `random` that
`Math.random()` returns. -/
def getRandomSolPhotos (st : Storage) (fetch : Fetch MarsData) (random : JSNumber)
    (m : MarsRoverModule) : MarsRoverModule :=
  let randomSol := getRandomSol random
  let m := { m with solInput := toString randomSol }
  getMarsPhotos st fetch (.num randomSol) m

/-- The calendar date of the day number `z` (days since 1970-01-01) in the
proleptic Gregorian calendar: the date that `toISOString()` prints for an
instant of that day. -/
def civilFromDays (z : Int) : CivilDate :=
  let z := z + 719468
  let era := z / 146097
  let doe := z - era * 146097
  let yoe := (doe - doe / 1460 + doe / 36524 - doe / 146096) / 365
  let y := yoe + era * 400
  let doy := doe - (365 * yoe + yoe / 4 - yoe / 100)
  let mp := (5 * doy + 2) / 153
  let d := doy - (153 * mp + 2) / 5 + 1
  let m := if mp < 10 then mp + 3 else mp - 9
  ⟨(if m ≤ 2 then y + 1 else y).toNat, m.toNat, d.toNat⟩

/-- The time value of `new Date(value)` for a finite Number value: `none`, an
invalid date, for a magnitude above 8.64e15, and otherwise the value without
its fraction. -/
def timeClip (value : JSNumber) : Option Int :=
  if 8640000000000000 * JSNumber.one < value.units.natAbs then none
  else some value.truncate

/-- Embedding of `formatDate(date)` of `NASAConfig`, for a valid date object by
its time value: `date.toISOString().split('T')[0]`. -/
def formatDate (time : Int) : CivilDate :=
  civilFromDays (time / msPerDay)

/-- The Number value `randomTime` of `getRandomApodDate()` at the instant
`now`, for the Number value `random` that `Math.random()` returns:
`start.getTime() + Math.random() * (end.getTime() - start.getTime())`. -/
def randomTime (now : Int) (random : JSNumber) : JSNumber :=
  let start := JSNumber.ofInt firstAPOD.getTime
  let endTime := JSNumber.ofInt now
  JSNumber.add start (JSNumber.mul random (JSNumber.sub endTime start))

/-- Embedding of `getRandomApodDate()` at the instant `now`, for the Number
value `random` that `Math.random()` returns: `none` when `toISOString()`
throws, the date being invalid. -/
def getRandomApodDate (now : Int) (random : JSNumber) : Option CivilDate :=
  (timeClip (randomTime now random)).map formatDate

/-! ## Export of the configuration (`4to Punto/app.js`) -/

/-- Embedding of `exportConfig()`, for the text `timestamp` that
`new Date().toISOString()` returns: the object `config` whose JSON text is
offered for download, and the page after the call. -/
def exportConfig (timestamp : String) (app : NASAApiExplorer) :
    JSObject × NASAApiExplorer :=
  let config : JSObject :=
    [("apiKey", .str (getApiKey app.storage)),
     ("currentModule", .str app.currentModule),
     ("version", .str "1.0.0"),
     ("timestamp", .str timestamp)]
  (config, app.notify "Configuración exportada" "success")

/-- What `JSON.parse` makes of the file written by `exportConfig()`: the
object `config` again, `JSON.stringify` followed by `JSON.parse` being the
identity on an object whose fields are strings. -/
def exportedFile (timestamp : String) (app : NASAApiExplorer) : ParsedConfig :=
  .object (exportConfig timestamp app).1

/-! ## The form with local storage (`punto1/script.js`) -/

/-- The values of the three fields `nombre`, `correo` and `edad`. -/
structure FormFields where
  nombre : String
  correo : String
  edad : String
  deriving DecidableEq, Repr

/-- What the element `resultado` shows: nothing yet, the three stored values,
or the text that nothing is stored. -/
inductive Resultado where
  | empty
  | datos (nombre correo edad : String)
  | sinDatos
  deriving DecidableEq, Repr

/-- The page of the form. The item `datosUsuario` of the storage is kept by the
object that `JSON.parse` makes of its text, `none` when there is no item:
`JSON.stringify` followed by `JSON.parse` is the identity on an object whose
fields are strings. -/
structure FormPage where
  fields : FormFields
  /-- The values that `formulario.reset()` puts back. -/
  defaults : FormFields
  /-- The custom validity message of `edad`. -/
  edadCustomValidity : String
  datosUsuario : Option JSObject
  /-- The texts shown by `alert`, oldest first. -/
  alerts : List String
  /-- Has `reportValidity()` been called. -/
  validityReported : Bool
  resultado : Resultado
  deriving DecidableEq, Repr

/-- Embedding of `formulario.checkValidity()`: no field has a custom validity
message and the fields satisfy the constraints of the markup, given by
`constraints`. -/
def checkValidity (constraints : FormFields → Bool) (p : FormPage) : Bool :=
  p.edadCustomValidity == "" && constraints p.fields

/-- The listener of `submit` on `formulario`, for the constraints that the
markup of the page puts on the fields. -/
def onSubmit (constraints : FormFields → Bool) (p : FormPage) : FormPage :=
  let p := { p with edadCustomValidity := "" }
  let p :=
    if (JSValue.str p.fields.edad).leNum 18 then
      { p with edadCustomValidity := "Debes tener más de 18 años." }
    else p
  if checkValidity constraints p then
    let datos : JSObject :=
      [("nombre", .str p.fields.nombre), ("correo", .str p.fields.correo),
       ("edad", .str p.fields.edad)]
    let p := { p with datosUsuario := some datos }
    let p := { p with alerts := p.alerts ++ ["Datos guardados exitosamente"] }
    { p with fields := p.defaults }
  else
    { p with validityReported := true }

/-- The listener of `click` on the button `mostrar`. -/
def onMostrar (p : FormPage) : FormPage :=
  match p.datosUsuario with
  | some datos =>
    let nombre := (datos.get "nombre").toJSString
    let correo := (datos.get "correo").toJSString
    let edad := (datos.get "edad").toJSString
    { p with resultado := .datos nombre correo edad }
  | none => { p with resultado := .sinDatos }

/-- A page of the form with every field empty and nothing stored. -/
def sampleForm : FormPage :=
  { fields := ⟨"", "", ""⟩, defaults := ⟨"", "", ""⟩, edadCustomValidity := "",
    datosUsuario := none, alerts := [], validityReported := false, resultado := .empty }

/-! ## Start of the search widget (`3er Punto/script.js`) -/

/-- Embedding of `showLoading(show)` of the search widget. -/
def DynamicSearch.showLoading (visible : Bool) (s : DynamicSearch) : DynamicSearch :=
  if visible then { hideAllSections s with loadingHidden := false }
  else { s with loadingHidden := true }

/-- The rest of `loadInitialData()` once the response has arrived with status
2xx and the post list `posts` as its body: the event "post list finished
loading". -/
def postsLoaded (posts : List Post) (s : DynamicSearch) : DynamicSearch :=
  let s := { s with posts := posts }
  let s := s.showLoading false
  showAllPosts s

/-- The callback of the timer of 100 ms that the listener of `load` sets when
the URL has a non-empty parameter `search`, with value `searchParam`: the event
"replay timer fired". The widget has been built by then. -/
def replayTimer (h : Host) (searchParam : String) (s : DynamicSearch) : DynamicSearch :=
  search h searchParam s

/-! ## The picture-of-day query and its response (`4to Punto/apod.js`) -/

/-- The body of a picture-of-day response, by the fields the card shows;
`none` for a missing field. -/
structure ApodData where
  media_type : Option String
  title : Option String
  date : Option String
  url : Option String
  explanation : Option String
  copyright : Option String
  hdurl : Option String
  deriving DecidableEq, Repr

/-- What the container `apodResults` holds: nothing, the error card with its
message, or the card of a picture. -/
inductive ApodResults where
  | empty
  | error (message : String)
  | picture (data : ApodData)
  deriving DecidableEq, Repr

/-- The object `APODModule` with its elements of the page. -/
structure APODModule where
  /-- The content of the field `apodDate`, `none` when it is empty. -/
  dateInput : Option CivilDate
  /-- Has `apodLoading` the class `hidden`. -/
  loadingHidden : Bool
  results : ApodResults
  deriving DecidableEq, Repr

/-- Embedding of `showLoading(show)` of the picture-of-day module. -/
def APODModule.showLoading (visible : Bool) (m : APODModule) : APODModule :=
  if visible then { m with loadingHidden := false, results := .empty }
  else { m with loadingHidden := true }

/-- Embedding of `showError(message)` of the picture-of-day module. -/
def APODModule.showError (message : String) (m : APODModule) : APODModule :=
  { m with results := .error message }

/-- Embedding of `displayAPOD(data)`. -/
def displayAPOD (data : ApodData) (m : APODModule) : APODModule :=
  { m with results := .picture data }

/-- The `try` block of `getAPOD(date)` after `showLoading(true)`, at the
instant `now`: `.error` with the message of what is thrown and the module as it
is then, `.ok` with the module after the block. The body of the response is
`.error` when reading it, or reading its field `media_type`, throws. -/
def getAPODTry (st : Storage) (now : Int) (fetch : Fetch ApodData)
    (date : Option CivilDate) (m : APODModule) :
    Except (String × APODModule) APODModule :=
  match getAPODRequest st now m.dateInput date with
  | .error message => .error (message, m)
  | .ok url =>
    match fetch url with
    | .error message => .error (message, m)
    | .ok response =>
      if !response.ok then .error (statusErrorMessage response, m)
      else
        match response.body with
        | .error message => .error (message, m)
        | .ok data =>
          if data.media_type != some "image" then
            .error ("Este día no tiene una imagen disponible, solo video. " ++
              "Intenta otra fecha.", m)
          else .ok (displayAPOD data m)

/-- The method `getAPOD(date)`, run to its end at the instant `now` against the
network `fetch`. An omitted argument is `none`. -/
def getAPOD (st : Storage) (now : Int) (fetch : Fetch ApodData)
    (date : Option CivilDate) (m : APODModule) : APODModule :=
  let m := m.showLoading true
  let m :=
    match getAPODTry st now fetch date m with
    | .ok m => m
    | .error (message, m) => m.showError message
  m.showLoading false

/-- Embedding of `getRandomAPOD()` for the Number value `random` that
`Math.random()` returns: `none` when `getRandomApodDate()` throws. -/
def getRandomAPOD (st : Storage) (now : Int) (fetch : Fetch ApodData)
    (random : JSNumber) (m : APODModule) : Option APODModule :=
  (getRandomApodDate now random).map fun randomDate =>
    getAPOD st now fetch (some randomDate) { m with dateInput := some randomDate }

/-! ## Pages used to evaluate the export and the import -/

/-- A page with the key `k1` stored and the module `mars` active. -/
def sampleExporter : NASAApiExplorer :=
  switchModule "mars" (NASAApiExplorer.init (Storage.empty.setItem "nasa_api_key" "k1"))

/-- A page with the key `other` stored and the module `apod` active. -/
def sampleImporter : NASAApiExplorer :=
  NASAApiExplorer.init (Storage.empty.setItem "nasa_api_key" "other")

/-! ## Specification vocabulary for the query responses -/

/-- The items of a search response, none when `collection` or `items` is
missing. -/
def responseItems (data : TechData) : List TechItem :=
  match data.collection with
  | some collection => collection.items.getD []
  | none => []

/-- The item has at least one link and a non-empty description in its first
data record. -/
def TechItem.Showable (item : TechItem) : Prop :=
  (∃ links, item.links = some links ∧ links ≠ []) ∧
    ∃ first rest description, item.data = some (first :: rest) ∧
      first.description = some description ∧ description ≠ ""

instance instDecidableShowable (item : TechItem) : Decidable item.Showable :=
  decidable_of_iff (isValidTech item = true) (by
    obtain ⟨links, data, href⟩ := item
    unfold isValidTech TechItem.Showable
    cases links with
    | none => simp
    | some links =>
      cases data with
      | none => simp
      | some records =>
        cases records with
        | nil => simp
        | cons first rest =>
          cases hd : first.description with
          | none => simp [hd]
          | some description =>
            cases links <;> simp [hd])

/-- The kinds of failure of a query: the input is refused before any request,
the request is rejected or answered with a status outside 2xx, or the body of a
2xx response cannot be read or lacks what the module requires. -/
inductive QueryFailure where
  | validation
  | transport
  | shape
  deriving DecidableEq, Repr

/-- The failure of a picture-of-day query, `none` when there is none: the body
must have the media type `image`. -/
def apodFailure (st : Storage) (now : Int) (fetch : Fetch ApodData)
    (date : Option CivilDate) (m : APODModule) : Option QueryFailure :=
  match getAPODRequest st now m.dateInput date with
  | .error _ => some .validation
  | .ok url =>
    match fetch url with
    | .error _ => some .transport
    | .ok response =>
      if response.ok then
        match response.body with
        | .error _ => some .shape
        | .ok data => if data.media_type = some "image" then none else some .shape
      else some .transport

/-- The failure of a rover-photo query, `none` when there is none: the body
must have a photo list that is not empty. -/
def marsFailure (st : Storage) (fetch : Fetch MarsData) (sol : JSValue)
    (m : MarsRoverModule) : Option QueryFailure :=
  match getMarsPhotosRequest st m.solInput m.cameraSelect sol with
  | .error _ => some .validation
  | .ok url =>
    match fetch url with
    | .error _ => some .transport
    | .ok response =>
      if response.ok then
        match response.body with
        | .error _ => some .shape
        | .ok data => if data.photos.getD [] = [] then some .shape else none
      else some .transport

/-- The failure of a tech-image search, `none` when there is none: the term
must not be empty, and the body must have at least one item with a link and a
description. -/
def techFailure (fetch : Fetch TechData) (query limit : Option String)
    (m : TechTransferModule) : Option QueryFailure :=
  if orString query (trim m.searchInput) = "" then some .validation
  else
    match fetch (techSearchUrl (orString query (trim m.searchInput))
        (orString limit m.limitSelect)) with
    | .error _ => some .transport
    | .ok response =>
      if response.ok then
        match response.body with
        | .error _ => some .shape
        | .ok data =>
          if (responseItems data).filter isValidTech = [] then some .shape else none
      else some .transport

/-! ## Specification vocabulary for the search widget -/

/-- The string `t` occurs in `s`: some run of consecutive characters of `s`
is `t`. -/
def Contains (s t : String) : Prop :=
  ∃ pre suf : List Char, pre ++ t.data ++ suf = s.data

instance instDecidableContains (s t : String) : Decidable (Contains s t) :=
  inferInstanceAs (Decidable (t.data <:+: s.data))

/-- The search term occurs, case-insensitively, in the title or the body of the
post, or its lowercase form occurs in the decimal string of the post's id. -/
def TermOccurs (h : Host) (q : String) (p : Post) : Prop :=
  Contains (h.toLowerCase p.title) (h.toLowerCase q) ∨
  Contains (h.toLowerCase p.body) (h.toLowerCase q) ∨
  Contains (toString p.id) (h.toLowerCase q)

instance instDecidableTermOccurs (h : Host) (q : String) (p : Post) :
    Decidable (TermOccurs h q p) := by
  unfold TermOccurs
  infer_instance

/-! ## Specification vocabulary for the URL builders -/

/-- Is the value one that `buildUrl` puts in the query: not `null`, not
`undefined` and not the empty string. -/
def JSValue.isGiven (v : JSValue) : Bool :=
  decide (v ≠ .null ∧ v ≠ .undefined ∧ v ≠ .str "")

/-- The query entry that `append` makes of a property. -/
def queryEntry (e : String × JSValue) : String × String :=
  (e.1, e.2.toJSString)

/-- The value that `buildWmsUrl` sends for an option: the text of the caller's
value when that value is truthy, the default otherwise. -/
def optionOrDefault (options : JSObject) (key : String) (default : String) : String :=
  if (options.get key).truthy then (options.get key).toJSString else default

/-! ## Specification vocabulary for numbers -/

/-- The real that the literal denotes is at most the whole number `c`. -/
def NumericLiteral.atMost (literal : NumericLiteral) (c : Nat) : Prop :=
  literal.negative = true ∨ literal.num ≤ c * literal.den

instance instDecidableAtMost (literal : NumericLiteral) (c : Nat) :
    Decidable (literal.atMost c) :=
  inferInstanceAs (Decidable (literal.negative = true ∨ literal.num ≤ c * literal.den))

/-- The whole number `⌊3000 r⌋ + 1` for the real `r` that the draw is, in
exact arithmetic. -/
def exactRandomSol (random : JSNumber) : Int :=
  random.units * 3000 / (JSNumber.one : Int) + 1

/-- The UTC calendar day of the real `start + r * (now - start)` for the real
`r` that the draw is, in exact arithmetic. -/
def exactRandomApodDate (now : Int) (random : JSNumber) : CivilDate :=
  civilFromDays
    ((firstAPOD.getTime * (JSNumber.one : Int) + random.units * (now - firstAPOD.getTime)) /
      (JSNumber.one : Int) / msPerDay)

/-! ## Lemmas on the string functions -/

theorem includesFrom_iff_occurs (needle hay : List Char) :
    includesFrom needle hay = true ↔ needle <:+: hay := by
  induction hay with
  | nil => simp [includesFrom]
  | cons c cs ih =>
    simp only [includesFrom, Bool.or_eq_true, ih, List.infix_cons_iff]
    simp

theorem includes_iff_contains (s t : String) :
    includes s t = true ↔ Contains s t :=
  includesFrom_iff_occurs t.data s.data

theorem matchesQuery_iff (h : Host) (q : String) (p : Post) :
    matchesQuery h q p = true ↔ TermOccurs h q p := by
  simp only [matchesQuery, TermOccurs, Bool.or_eq_true, includes_iff_contains, or_assoc]

theorem shownPosts_displayPosts (posts : List Post) (q : String) (u : Bool)
    (s : DynamicSearch) (hq : q ≠ "") :
    shownPosts (displayPosts posts q u s) = posts := by
  cases posts with
  | nil =>
    cases u <;> simp [displayPosts, shownPosts, hideAllSections, showSearchInfo, hq]
  | cons p ps =>
    cases u <;>
      simp [displayPosts, shownPosts, hideAllSections, showSearchInfo, hq,
        createPostElement, Function.comp_def]

theorem trim_eq_empty_iff (s : String) :
    trim s = "" ↔ ∀ c ∈ s.data, isWhiteSpace c = true := by
  unfold trim
  constructor
  · intro h
    have h1 : ((s.data.dropWhile isWhiteSpace).reverse.dropWhile isWhiteSpace).reverse = [] :=
      congrArg String.data h
    rw [List.reverse_eq_nil_iff, List.dropWhile_eq_nil_iff] at h1
    have h2 : s.data.dropWhile isWhiteSpace = [] := by
      cases hd : s.data.dropWhile isWhiteSpace with
      | nil => rfl
      | cons c cs =>
        have hc : isWhiteSpace c = true := h1 c (by simp [hd])
        have := List.head_dropWhile_not isWhiteSpace s.data (by simp [hd])
        simp [hd, hc] at this
    exact List.dropWhile_eq_nil_iff.1 h2
  · intro h
    have h2 : s.data.dropWhile isWhiteSpace = [] := List.dropWhile_eq_nil_iff.2 h
    simp [h2]

/-- What `displayPosts` leaves alone: the object's own fields, the input field
and the browser history. -/
theorem displayPosts_frame (posts : List Post) (q : String) (u : Bool)
    (s : DynamicSearch) :
    (displayPosts posts q u s).posts = s.posts ∧
      (displayPosts posts q u s).searchHistory = s.searchHistory ∧
      (displayPosts posts q u s).currentSearchIndex = s.currentSearchIndex ∧
      (displayPosts posts q u s).searchInput = s.searchInput ∧
      (displayPosts posts q u s).history = s.history := by
  unfold displayPosts
  split_ifs <;> simp [hideAllSections, showSearchInfo]

theorem filterAndDisplayPosts_frame (h : Host) (q : String) (u : Bool)
    (s : DynamicSearch) :
    (filterAndDisplayPosts h q u s).posts = s.posts ∧
      (filterAndDisplayPosts h q u s).searchHistory = s.searchHistory ∧
      (filterAndDisplayPosts h q u s).currentSearchIndex = s.currentSearchIndex ∧
      (filterAndDisplayPosts h q u s).searchInput = s.searchInput ∧
      (filterAndDisplayPosts h q u s).history = s.history := by
  unfold filterAndDisplayPosts showAllPosts
  split_ifs
  · exact displayPosts_frame _ _ _ _
  · exact displayPosts_frame _ _ _ _

theorem shownPosts_showAllPosts (s : DynamicSearch) :
    shownPosts (showAllPosts s) = s.posts := by
  simp [showAllPosts, displayPosts, shownPosts, hideAllSections, createPostElement,
    Function.comp_def]

/-- A submission of a term that is not blank: the four steps of
`performSearch` after the early return. -/
theorem performSearch_of_ne (h : Host) (s : DynamicSearch)
    (hq : trim s.searchInput ≠ "") :
    performSearch h s =
      updateBackButton (filterAndDisplayPosts h (trim s.searchInput) true
        (addToSearchHistory (trim s.searchInput)
          { s with history := (s.history.pushState (some (trim s.searchInput))
              ("?search=" ++ h.encodeURIComponent (trim s.searchInput))) })) := by
  simp [performSearch, hq]

theorem addToSearchHistory_getLast (q : String) (s : DynamicSearch) :
    (addToSearchHistory q s).searchHistory.getLast? = some q := by
  unfold addToSearchHistory
  split_ifs with hne
  · simp
  · simpa using hne

theorem addToSearchHistory_frame (q : String) (s : DynamicSearch) :
    (addToSearchHistory q s).posts = s.posts ∧
      (addToSearchHistory q s).searchInput = s.searchInput ∧
      (addToSearchHistory q s).history = s.history := by
  unfold addToSearchHistory
  split_ifs <;> simp

/-- The fields of the state after a submission of a term that is not blank. -/
theorem performSearch_fields (h : Host) (s : DynamicSearch)
    (hq : trim s.searchInput ≠ "") :
    (performSearch h s).searchInput = s.searchInput ∧
      (performSearch h s).searchHistory =
        (addToSearchHistory (trim s.searchInput) s).searchHistory ∧
      (performSearch h s).currentSearchIndex =
        (addToSearchHistory (trim s.searchInput) s).currentSearchIndex ∧
      (performSearch h s).history =
        s.history.pushState (some (trim s.searchInput))
          ("?search=" ++ h.encodeURIComponent (trim s.searchInput)) := by
  rw [performSearch_of_ne h s hq]
  obtain ⟨_, f2, f3, f4, f5⟩ := filterAndDisplayPosts_frame h (trim s.searchInput) true
    (addToSearchHistory (trim s.searchInput)
      { s with history := (s.history.pushState (some (trim s.searchInput))
          ("?search=" ++ h.encodeURIComponent (trim s.searchInput))) })
  obtain ⟨_, a2, a3⟩ := addToSearchHistory_frame (trim s.searchInput)
    { s with history := (s.history.pushState (some (trim s.searchInput))
        ("?search=" ++ h.encodeURIComponent (trim s.searchInput))) }
  refine ⟨?_, ?_, ?_, ?_⟩
  · simp only [updateBackButton, f4, a2]
  · simp only [updateBackButton, f2]
    unfold addToSearchHistory
    split_ifs <;> rfl
  · simp only [updateBackButton, f3]
    unfold addToSearchHistory
    split_ifs <;> rfl
  · simp only [updateBackButton, f5, a3]

/-! ## Lemmas on Number values -/

theorem bitsBound_spec (fuel k n : Nat) (h : n < 2 ^ 2 ^ (k + fuel)) :
    n < 2 ^ 2 ^ bitsBound fuel k n := by
  induction fuel generalizing k with
  | zero => simpa [bitsBound] using h
  | succ fuel ih =>
    unfold bitsBound
    split_ifs with hlt
    · exact hlt
    · apply ih
      have : k + 1 + fuel = k + (fuel + 1) := by omega
      rw [this]
      exact h

theorem binaryLogBelow_spec (k n : Nat) (hn : 0 < n) (h : n < 2 ^ 2 ^ k) :
    2 ^ binaryLogBelow k n ≤ n ∧ n < 2 ^ (binaryLogBelow k n + 1) := by
  induction k generalizing n with
  | zero =>
    simp only [pow_zero, pow_one] at h
    have : n = 1 := by omega
    subst this
    simp [binaryLogBelow]
  | succ k ih =>
    unfold binaryLogBelow
    split_ifs with hlt
    · exact ih n hn hlt
    · have hpos : 0 < 2 ^ 2 ^ k := Nat.pow_pos (by decide)
      have hle : 2 ^ 2 ^ k ≤ n := Nat.le_of_not_lt hlt
      have hsq : 2 ^ 2 ^ (k + 1) = 2 ^ 2 ^ k * 2 ^ 2 ^ k := by
        rw [pow_succ, pow_mul, pow_two]
      have hm0 : 0 < n / 2 ^ 2 ^ k := Nat.div_pos hle hpos
      have hm1 : n / 2 ^ 2 ^ k < 2 ^ 2 ^ k := by
        rw [Nat.div_lt_iff_lt_mul hpos]
        rw [hsq] at h
        exact h
      obtain ⟨h1, h2⟩ := ih (n / 2 ^ 2 ^ k) hm0 hm1
      constructor
      · rw [pow_add]
        calc 2 ^ 2 ^ k * 2 ^ binaryLogBelow k (n / 2 ^ 2 ^ k)
            ≤ 2 ^ 2 ^ k * (n / 2 ^ 2 ^ k) := Nat.mul_le_mul_left _ h1
          _ ≤ n := Nat.mul_div_le n _
      · have hlt2 : n < (n / 2 ^ 2 ^ k + 1) * 2 ^ 2 ^ k := by
          rw [← Nat.div_lt_iff_lt_mul hpos]
          exact Nat.lt_succ_self _
        have hle2 : (n / 2 ^ 2 ^ k + 1) * 2 ^ 2 ^ k ≤
            2 ^ (binaryLogBelow k (n / 2 ^ 2 ^ k) + 1) * 2 ^ 2 ^ k :=
          Nat.mul_le_mul_right _ h2
        have heq : 2 ^ (2 ^ k + binaryLogBelow k (n / 2 ^ 2 ^ k) + 1) =
            2 ^ (binaryLogBelow k (n / 2 ^ 2 ^ k) + 1) * 2 ^ 2 ^ k := by
          rw [← pow_add]
          congr 1
          omega
        rw [heq]
        exact lt_of_lt_of_le hlt2 hle2

/-- The binary logarithm of a positive number brackets it between two powers
of 2. -/
theorem binaryLog_spec (n : Nat) (hn : 0 < n) :
    2 ^ binaryLog n ≤ n ∧ n < 2 ^ (binaryLog n + 1) := by
  unfold binaryLog
  apply binaryLogBelow_spec _ _ hn
  apply bitsBound_spec
  rw [Nat.zero_add]
  calc n < 2 ^ n := Nat.lt_two_pow n
    _ ≤ 2 ^ 2 ^ n := Nat.pow_le_pow_right (by decide) (le_of_lt (Nat.lt_two_pow n))

theorem binaryLog_zero : binaryLog 0 = 0 := by decide

theorem roundHalfEven_le (a b m : Nat) (hb : 0 < b) (h : a ≤ m * b) :
    roundHalfEven a b ≤ m := by
  have hq : a / b ≤ m := by
    calc a / b ≤ m * b / b := Nat.div_le_div_right h
      _ = m := Nat.mul_div_cancel _ hb
  unfold roundHalfEven
  simp only
  rcases Nat.lt_or_ge (a / b) m with hlt | hge
  · split_ifs <;> omega
  · have hqm : a / b = m := le_antisymm hq hge
    have hr : a % b = 0 := by
      have hdm := Nat.div_add_mod a b
      rw [hqm] at hdm
      have : b * m = m * b := Nat.mul_comm _ _
      omega
    rw [hr, if_pos (by omega)]
    exact hq

theorem le_roundHalfEven (a b m : Nat) (hb : 0 < b) (h : m * b ≤ a) :
    m ≤ roundHalfEven a b := by
  have hq : m ≤ a / b := (Nat.le_div_iff_mul_le hb).2 h
  unfold roundHalfEven
  simp only
  split_ifs <;> omega

/-- Below the half way point to `m + 1` the rounding gives `m` at most. -/
theorem roundHalfEven_le_of_lt_half (a b m : Nat) (hb : 0 < b)
    (h : 2 * a < (2 * m + 1) * b) : roundHalfEven a b ≤ m := by
  have hdm := Nat.div_add_mod a b
  have hmod := Nat.mod_lt a hb
  have hq : a / b ≤ m := by
    by_contra hcon
    have h1 : m + 1 ≤ a / b := by omega
    have h2 : (m + 1) * b ≤ b * (a / b) := by
      rw [Nat.mul_comm b]
      exact Nat.mul_le_mul_right _ h1
    have h3 : (2 * m + 1) * b ≤ 2 * ((m + 1) * b) := by
      have : (2 * m + 1) * b ≤ (2 * (m + 1)) * b := Nat.mul_le_mul_right _ (by omega)
      calc (2 * m + 1) * b ≤ (2 * (m + 1)) * b := this
        _ = 2 * ((m + 1) * b) := Nat.mul_assoc _ _ _
    omega
  unfold roundHalfEven
  simp only
  rcases Nat.lt_or_ge (a / b) m with hlt | hge
  · split_ifs <;> omega
  · have hqm : a / b = m := le_antisymm hq hge
    rw [hqm] at hdm
    have hexp : (2 * m + 1) * b = 2 * (b * m) + b := by ring
    rw [if_pos (by omega)]
    exact hq

/-- When the grid at `a / b` is coarser than `2 ^ i`, `a / b` is beyond every
Number value `c * 2 ^ i`. -/
theorem grid_coarse (a b c i : Nat) (hc : c < 2 ^ 53)
    (hsh : ¬ binaryLog (a / b) - 52 ≤ i) :
    2 ^ (52 + (binaryLog (a / b) - 52)) ≤ a / b ∧
      c * 2 ^ i < 2 ^ (52 + (binaryLog (a / b) - 52)) := by
  have hpos : 0 < a / b := by
    rcases Nat.eq_zero_or_pos (a / b) with h0 | h0
    · rw [h0, binaryLog_zero] at hsh
      omega
    · exact h0
  have hspec := (binaryLog_spec (a / b) hpos).1
  have hexp : 52 + (binaryLog (a / b) - 52) = binaryLog (a / b) := by omega
  rw [hexp]
  refine ⟨hspec, ?_⟩
  have h1 : c * 2 ^ i < 2 ^ 53 * 2 ^ i :=
    Nat.mul_lt_mul_of_pos_right hc (Nat.pow_pos (by decide))
  have h2 : 2 ^ 53 * 2 ^ i = 2 ^ (53 + i) := (pow_add 2 53 i).symm
  have h3 : 2 ^ (53 + i) ≤ 2 ^ binaryLog (a / b) :=
    Nat.pow_le_pow_right (by decide) (by omega)
  omega

/-- Rounding never passes a Number value from below: a real at most the
value `c * 2 ^ i` rounds to at most that value. -/
theorem roundUnits_le (a b c i : Nat) (hb : 0 < b) (hc : c < 2 ^ 53)
    (h : a ≤ c * 2 ^ i * b) : roundUnits a b ≤ c * 2 ^ i := by
  unfold roundUnits
  simp only
  by_cases hsh : binaryLog (a / b) - 52 ≤ i
  · generalize binaryLog (a / b) - 52 = sh at hsh
    have hpow : 2 ^ i = 2 ^ (i - sh) * 2 ^ sh := by
      rw [← pow_add]
      congr 1
      omega
    have hB : 0 < b * 2 ^ sh := Nat.mul_pos hb (Nat.pow_pos (by decide))
    have hle : a ≤ c * 2 ^ (i - sh) * (b * 2 ^ sh) := by
      have : c * 2 ^ (i - sh) * (b * 2 ^ sh) = c * 2 ^ i * b := by
        rw [hpow]
        ring
      rw [this]
      exact h
    have hr := roundHalfEven_le a (b * 2 ^ sh) (c * 2 ^ (i - sh)) hB hle
    calc roundHalfEven a (b * 2 ^ sh) * 2 ^ sh
        ≤ c * 2 ^ (i - sh) * 2 ^ sh := Nat.mul_le_mul_right _ hr
      _ = c * 2 ^ i := by rw [hpow]; ring
  · obtain ⟨h1, h2⟩ := grid_coarse a b c i hc hsh
    have h3 : a / b ≤ c * 2 ^ i := by
      calc a / b ≤ c * 2 ^ i * b / b := Nat.div_le_div_right h
        _ = c * 2 ^ i := Nat.mul_div_cancel _ hb
    omega

/-- Rounding never passes a Number value from above: a real at least the
value `c * 2 ^ i` rounds to at least that value. -/
theorem le_roundUnits (a b c i : Nat) (hb : 0 < b) (hc : c < 2 ^ 53)
    (h : c * 2 ^ i * b ≤ a) : c * 2 ^ i ≤ roundUnits a b := by
  unfold roundUnits
  simp only
  by_cases hsh : binaryLog (a / b) - 52 ≤ i
  · generalize binaryLog (a / b) - 52 = sh at hsh
    have hpow : 2 ^ i = 2 ^ (i - sh) * 2 ^ sh := by
      rw [← pow_add]
      congr 1
      omega
    have hB : 0 < b * 2 ^ sh := Nat.mul_pos hb (Nat.pow_pos (by decide))
    have hle : c * 2 ^ (i - sh) * (b * 2 ^ sh) ≤ a := by
      have : c * 2 ^ (i - sh) * (b * 2 ^ sh) = c * 2 ^ i * b := by
        rw [hpow]
        ring
      rw [this]
      exact h
    have hr := le_roundHalfEven a (b * 2 ^ sh) (c * 2 ^ (i - sh)) hB hle
    calc c * 2 ^ i = c * 2 ^ (i - sh) * 2 ^ sh := by rw [hpow]; ring
      _ ≤ roundHalfEven a (b * 2 ^ sh) * 2 ^ sh := Nat.mul_le_mul_right _ hr
  · obtain ⟨h1, h2⟩ := grid_coarse a b c i hc hsh
    generalize binaryLog (a / b) - 52 = sh at h1 h2
    have hB : 0 < b * 2 ^ sh := Nat.mul_pos hb (Nat.pow_pos (by decide))
    have hle : 2 ^ 52 * (b * 2 ^ sh) ≤ a := by
      have h4 : 2 ^ (52 + sh) * b ≤ a / b * b := Nat.mul_le_mul_right _ h1
      have h5 : a / b * b ≤ a := Nat.div_mul_le_self a b
      have h6 : 2 ^ 52 * (b * 2 ^ sh) = 2 ^ (52 + sh) * b := by
        rw [pow_add]
        ring
      omega
    have hr := le_roundHalfEven a (b * 2 ^ sh) (2 ^ 52) hB hle
    have h7 : 2 ^ 52 * 2 ^ sh ≤ roundHalfEven a (b * 2 ^ sh) * 2 ^ sh :=
      Nat.mul_le_mul_right _ hr
    have h8 : 2 ^ 52 * 2 ^ sh = 2 ^ (52 + sh) := (pow_add 2 52 sh).symm
    omega

/-- A Number value rounds to itself. -/
theorem roundUnits_exact (c i : Nat) (hc : c < 2 ^ 53) :
    roundUnits (c * 2 ^ i) 1 = c * 2 ^ i :=
  le_antisymm (roundUnits_le _ 1 c i (by decide) hc (by omega))
    (le_roundUnits _ 1 c i (by decide) hc (by omega))

/-- Rounding of a real that is not negative, for the signed rounding. -/
theorem roundSigned_of_nonneg (a : Nat) (b : Nat) :
    roundSigned (a : Int) b = (roundUnits a b : Int) := by
  unfold roundSigned
  rw [if_neg (by omega)]
  simp

set_option exponentiation.threshold 5000 in
theorem one_pos : 0 < JSNumber.one :=
  Nat.two_pow_pos 1074

theorem roundUnits_zero (b : Nat) (hb : 0 < b) : roundUnits 0 b = 0 :=
  Nat.le_zero.1 (by simpa using roundUnits_le 0 b 0 0 hb (by decide) (by simp))

theorem roundSigned_nonpos (a : Int) (b : Nat) (hb : 0 < b) (h : a ≤ 0) :
    roundSigned a b ≤ 0 := by
  unfold roundSigned
  split_ifs with hneg
  · omega
  · have h0 : a = 0 := by omega
    subst h0
    simp [roundUnits_zero b hb]

theorem roundSigned_nonneg (a : Int) (b : Nat) (h : 0 ≤ a) :
    roundSigned a b = (roundUnits a.toNat b : Int) := by
  obtain ⟨m, rfl⟩ := Int.eq_ofNat_of_zero_le h
  rw [roundSigned_of_nonneg]
  simp

/-- The signed rounding never passes a Number value that is not negative
from below. -/
theorem roundSigned_le (a : Int) (b c i : Nat) (hb : 0 < b) (hc : c < 2 ^ 53)
    (h : a ≤ ((c * 2 ^ i * b : Nat) : Int)) :
    roundSigned a b ≤ ((c * 2 ^ i : Nat) : Int) := by
  rcases lt_or_le a 0 with hneg | hpos
  · have := roundSigned_nonpos a b hb (le_of_lt hneg)
    omega
  · obtain ⟨m, rfl⟩ := Int.eq_ofNat_of_zero_le hpos
    rw [roundSigned_of_nonneg]
    have hm : m ≤ c * 2 ^ i * b := by exact_mod_cast h
    exact_mod_cast roundUnits_le m b c i hb hc hm

/-- The signed rounding never passes a Number value that is not negative
from above. -/
theorem le_roundSigned (a : Int) (b c i : Nat) (hb : 0 < b) (hc : c < 2 ^ 53)
    (h : ((c * 2 ^ i * b : Nat) : Int) ≤ a) :
    ((c * 2 ^ i : Nat) : Int) ≤ roundSigned a b := by
  have hpos : 0 ≤ a := le_trans (Int.ofNat_nonneg _) h
  obtain ⟨m, rfl⟩ := Int.eq_ofNat_of_zero_le hpos
  rw [roundSigned_of_nonneg]
  have hm : c * 2 ^ i * b ≤ m := by exact_mod_cast h
  exact_mod_cast le_roundUnits m b c i hb hc hm

/-- The Number value of a whole number from 0 to `2 ^ 53` is that number. -/
theorem ofInt_units (n : Nat) (hn : n < 2 ^ 53) :
    (JSNumber.ofInt n).units = ((n * JSNumber.one : Nat) : Int) := by
  unfold JSNumber.ofInt JSNumber.ofFraction
  simp only
  have hcast : ((n : Int) * (JSNumber.one : Int)) = ((n * JSNumber.one : Nat) : Int) := by
    push_cast
    rfl
  rw [hcast, roundSigned_of_nonneg]
  exact_mod_cast roundUnits_exact n 1074 hn

theorem ofInt_units_le (n : Int) (c : Nat) (hc : c < 2 ^ 53) (h : n ≤ c) :
    (JSNumber.ofInt n).units ≤ ((c * JSNumber.one : Nat) : Int) := by
  unfold JSNumber.ofInt JSNumber.ofFraction
  simp only
  apply roundSigned_le _ 1 c 1074 (by decide) hc
  have h1 : n * (JSNumber.one : Int) ≤ (c : Int) * (JSNumber.one : Int) :=
    Int.mul_le_mul_of_nonneg_right h (Int.ofNat_nonneg _)
  have h2 : ((c * 2 ^ 1074 * 1 : Nat) : Int) = (c : Int) * (JSNumber.one : Int) := by
    show ((c * JSNumber.one * 1 : Nat) : Int) = (c : Int) * (JSNumber.one : Int)
    rw [Nat.mul_one, Nat.cast_mul]
  rw [h2]
  exact h1

theorem le_ofInt_units (n : Int) (c : Nat) (hc : c < 2 ^ 53) (h : (c : Int) ≤ n) :
    ((c * JSNumber.one : Nat) : Int) ≤ (JSNumber.ofInt n).units := by
  unfold JSNumber.ofInt JSNumber.ofFraction
  simp only
  apply le_roundSigned _ 1 c 1074 (by decide) hc
  have h1 : (c : Int) * (JSNumber.one : Int) ≤ n * (JSNumber.one : Int) :=
    Int.mul_le_mul_of_nonneg_right h (Int.ofNat_nonneg _)
  have h2 : ((c * 2 ^ 1074 * 1 : Nat) : Int) = (c : Int) * (JSNumber.one : Int) := by
    show ((c * JSNumber.one * 1 : Nat) : Int) = (c : Int) * (JSNumber.one : Int)
    rw [Nat.mul_one, Nat.cast_mul]
  rw [h2]
  exact h1

/-- The comparison `n < c` of a whole number, made on its Number value. -/
theorem ltInt_ofInt (n : Int) (c : Nat) (hc0 : 0 < c) (hc : c < 2 ^ 53) :
    (JSNumber.ofInt n).ltInt c = decide (n < c) := by
  have hone : (0 : Int) < (JSNumber.one : Int) := by exact_mod_cast one_pos
  unfold JSNumber.ltInt
  by_cases hlt : n < c
  · have h1 := ofInt_units_le n (c - 1) (by omega) (by omega)
    have h2 : (((c - 1) * JSNumber.one : Nat) : Int) < (c : Int) * (JSNumber.one : Int) := by
      have : ((c - 1 : Nat) : Int) < (c : Int) := by omega
      push_cast
      exact Int.mul_lt_mul_of_pos_right this hone
    simp only [hlt, decide_True, decide_eq_true_eq]
    omega
  · have h1 := le_ofInt_units n c hc (by omega)
    simp only [hlt, decide_False, decide_eq_false_iff_not, not_lt]
    push_cast at h1
    exact h1

/-- The comparison `n > c` of a whole number, made on its Number value. -/
theorem gtInt_ofInt (n : Int) (c : Nat) (hc : c + 1 < 2 ^ 53) :
    (JSNumber.ofInt n).gtInt c = decide ((c : Int) < n) := by
  have hone : (0 : Int) < (JSNumber.one : Int) := by exact_mod_cast one_pos
  unfold JSNumber.gtInt
  by_cases hlt : (c : Int) < n
  · have h1 := le_ofInt_units n (c + 1) hc (by omega)
    have h2 : (c : Int) * (JSNumber.one : Int) < (((c + 1) * JSNumber.one : Nat) : Int) := by
      have : (c : Int) < ((c + 1 : Nat) : Int) := by omega
      push_cast
      push_cast at this
      exact Int.mul_lt_mul_of_pos_right this hone
    simp only [hlt, decide_True, decide_eq_true_eq]
    omega
  · have h1 := ofInt_units_le n c (by omega) (by omega)
    simp only [hlt, decide_False, decide_eq_false_iff_not, not_lt]
    push_cast at h1
    exact h1

/-- The comparison `n <= c` of a whole number, made on its Number value. -/
theorem leInt_ofInt (n : Int) (c : Nat) (hc : c + 1 < 2 ^ 53) :
    (JSNumber.ofInt n).leInt c = decide (n ≤ c) := by
  have hgt := gtInt_ofInt n c hc
  unfold JSNumber.gtInt at hgt
  unfold JSNumber.leInt
  by_cases hle : n ≤ c
  · have hn : ¬ (c : Int) < n := by omega
    simp only [hn, decide_False, decide_eq_false_iff_not, not_lt] at hgt
    simp only [hle, decide_True, decide_eq_true_eq]
    exact hgt
  · have hn : (c : Int) < n := by omega
    simp only [hn, decide_True, decide_eq_true_eq] at hgt
    simp only [hle, decide_False, decide_eq_false_iff_not, not_le]
    exact hgt

theorem NumericLiteral.den_pos (literal : NumericLiteral) : 0 < literal.den := by
  cases literal with
  | infinity negative => exact Nat.one_pos
  | decimal negative digits exponent => exact Nat.pow_pos (by decide)

set_option exponentiation.threshold 5000 in
/-- A literal that denotes at most the whole number `c` converts to a Number
value that compares `<= c`: rounding does not pass `c`. -/
theorem leInt_of_atMost (literal : NumericLiteral) (c : Nat) (hc : c < 2 ^ 53)
    (h : literal.atMost c) : literal.toNumber.leInt c = true := by
  have hone : (0 : Int) ≤ (JSNumber.one : Int) := Int.ofNat_nonneg _
  have hrhs : (0 : Int) ≤ (c : Int) * (JSNumber.one : Int) :=
    Int.mul_nonneg (Int.ofNat_nonneg _) hone
  unfold JSNumber.leInt
  simp only [decide_eq_true_eq]
  cases literal with
  | infinity negative =>
    cases negative with
    | true =>
      simp only [NumericLiteral.toNumber, JSNumber.infinity, if_true]
      have : -(((2 ^ 2098 : Nat) : Int)) ≤ 0 := neg_nonpos.mpr (Int.ofNat_nonneg _)
      exact le_trans this hrhs
    | false =>
      exfalso
      rcases h with h | h
      · simp [NumericLiteral.negative] at h
      · simp only [NumericLiteral.num, NumericLiteral.den, Nat.mul_one] at h
        have h1 : 2 ^ 53 ≤ 2 ^ 1024 := Nat.pow_le_pow_right (by decide) (by decide)
        omega
  | decimal negative digits exponent =>
    have hden := NumericLiteral.den_pos (.decimal negative digits exponent)
    cases negative with
    | true =>
      simp only [NumericLiteral.toNumber, JSNumber.ofFraction, if_true]
      have hneg : -(((NumericLiteral.decimal true digits exponent).num : Int)) *
          (JSNumber.one : Int) ≤ 0 := by
        have : (0 : Int) ≤ ((NumericLiteral.decimal true digits exponent).num : Int) *
            (JSNumber.one : Int) := Int.mul_nonneg (Int.ofNat_nonneg _) hone
        rw [neg_mul]
        exact neg_nonpos.mpr this
      exact le_trans (roundSigned_nonpos _ _ hden hneg) hrhs
    | false =>
      rcases h with h | h
      · simp [NumericLiteral.negative] at h
      · simp only [NumericLiteral.toNumber, JSNumber.ofFraction, Bool.false_eq_true, if_false]
        have hle := roundSigned_le
          (((NumericLiteral.decimal false digits exponent).num : Int) * (JSNumber.one : Int))
          (NumericLiteral.decimal false digits exponent).den c 1074 hden hc (by
            have h1 : (NumericLiteral.decimal false digits exponent).num * JSNumber.one ≤
                c * (NumericLiteral.decimal false digits exponent).den * JSNumber.one :=
              Nat.mul_le_mul_right _ h
            have h2 : c * (NumericLiteral.decimal false digits exponent).den * JSNumber.one =
                c * 2 ^ 1074 * (NumericLiteral.decimal false digits exponent).den := by
              show c * (NumericLiteral.decimal false digits exponent).den * JSNumber.one =
                c * JSNumber.one * (NumericLiteral.decimal false digits exponent).den
              ring
            rw [h2] at h1
            exact_mod_cast h1)
        have h3 : ((c * 2 ^ 1074 : Nat) : Int) = (c : Int) * (JSNumber.one : Int) := by
          show ((c * JSNumber.one : Nat) : Int) = (c : Int) * (JSNumber.one : Int)
          exact Nat.cast_mul _ _
        rw [h3] at hle
        exact hle

theorem binaryLog_eq (n k : Nat) (h1 : 2 ^ k ≤ n) (h2 : n < 2 ^ (k + 1)) :
    binaryLog n = k := by
  have hn : 0 < n := lt_of_lt_of_le (Nat.pow_pos (by decide)) h1
  obtain ⟨s1, s2⟩ := binaryLog_spec n hn
  rcases Nat.lt_trichotomy (binaryLog n) k with hlt | heq | hgt
  · have : 2 ^ (binaryLog n + 1) ≤ 2 ^ k := Nat.pow_le_pow_right (by decide) hlt
    omega
  · exact heq
  · have : 2 ^ (k + 1) ≤ 2 ^ binaryLog n := Nat.pow_le_pow_right (by decide) hgt
    omega

set_option exponentiation.threshold 5000 in
/-- A Number value below 1 is at most `1 - 2 ^ -53`. -/
theorem draw_le (n : Nat) (hvalue : JSNumber.isValue ⟨(n : Int)⟩ = true)
    (hlt : n < JSNumber.one) : n ≤ 2 ^ 1074 - 2 ^ 1021 := by
  unfold JSNumber.one at hlt
  rcases Nat.lt_or_ge n (2 ^ 1073) with hsmall | hbig
  · omega
  · have hlog : binaryLog n = 1073 := binaryLog_eq n 1073 hbig hlt
    unfold JSNumber.isValue at hvalue
    simp only [Int.natAbs_ofNat, hlog, beq_iff_eq] at hvalue
    omega

set_option exponentiation.threshold 5000 in
/-- The product of a draw below 1 and 3000, rounded: it lies between the
whole part of the real product and the next whole number, and below 3000. -/
theorem product_bounds (n : Nat) (hvalue : JSNumber.isValue ⟨(n : Int)⟩ = true)
    (hlt : n < JSNumber.one) :
    n * 3000 / JSNumber.one * JSNumber.one ≤
        roundUnits (n * (3000 * JSNumber.one)) JSNumber.one ∧
      roundUnits (n * (3000 * JSNumber.one)) JSNumber.one ≤
        (n * 3000 / JSNumber.one + 1) * JSNumber.one ∧
      roundUnits (n * (3000 * JSNumber.one)) JSNumber.one < 3000 * JSNumber.one := by
  have hdraw := draw_le n hvalue hlt
  have hone := one_pos
  have hdiv : n * 3000 / JSNumber.one < 3000 := by
    rw [Nat.div_lt_iff_lt_mul hone]
    omega
  have hmul : n * (3000 * JSNumber.one) = n * 3000 * JSNumber.one := by ring
  refine ⟨?_, ?_, ?_⟩
  · apply le_roundUnits _ _ (n * 3000 / JSNumber.one) 1074 hone (by omega)
    show n * 3000 / JSNumber.one * JSNumber.one * JSNumber.one ≤ n * (3000 * JSNumber.one)
    rw [hmul]
    exact Nat.mul_le_mul_right _ (Nat.div_mul_le_self _ _)
  · apply roundUnits_le _ _ (n * 3000 / JSNumber.one + 1) 1074 hone (by omega)
    show n * (3000 * JSNumber.one) ≤ (n * 3000 / JSNumber.one + 1) * JSNumber.one * JSNumber.one
    rw [hmul]
    apply Nat.mul_le_mul_right
    exact le_of_lt ((Nat.div_lt_iff_lt_mul hone).1 (Nat.lt_succ_self _))
  · rcases Nat.lt_or_ge (n * 3000) (2 ^ 1085) with hsmall | hbig
    · have h1 := roundUnits_le (n * (3000 * JSNumber.one)) JSNumber.one 1 1085 hone
        (by decide) (by
          rw [hmul, Nat.one_mul]
          exact Nat.mul_le_mul_right _ (le_of_lt hsmall))
      unfold JSNumber.one
      unfold JSNumber.one at h1
      omega
    · have hquot : n * (3000 * JSNumber.one) / JSNumber.one = n * 3000 := by
        rw [hmul]
        exact Nat.mul_div_cancel _ hone
      have hlog : binaryLog (n * 3000) = 1085 := by
        apply binaryLog_eq _ _ hbig
        unfold JSNumber.one at hlt
        omega
      have hround : roundUnits (n * (3000 * JSNumber.one)) JSNumber.one =
          roundHalfEven (n * (3000 * JSNumber.one)) (JSNumber.one * 2 ^ 1033) * 2 ^ 1033 := by
        unfold roundUnits
        simp only [hquot, hlog]
      rw [hround]
      have hhalf := roundHalfEven_le_of_lt_half (n * (3000 * JSNumber.one))
        (JSNumber.one * 2 ^ 1033) (3000 * 2 ^ 41 - 1)
        (Nat.mul_pos hone (Nat.pow_pos (by decide))) (by
          unfold JSNumber.one
          omega)
      unfold JSNumber.one at hhalf ⊢
      omega

theorem floor_of_nat (u : Nat) : JSNumber.floor ⟨(u : Int)⟩ = ((u / JSNumber.one : Nat) : Int) := by
  unfold JSNumber.floor
  simp only
  norm_cast

theorem mul_units_of_nat (u v : Nat) :
    (JSNumber.mul ⟨(u : Int)⟩ ⟨(v : Int)⟩).units =
      (roundUnits (u * v) JSNumber.one : Int) := by
  unfold JSNumber.mul
  simp only
  rw [← Nat.cast_mul, roundSigned_of_nonneg]

theorem add_units_of_nat (u v : Nat) :
    (JSNumber.add ⟨(u : Int)⟩ ⟨(v : Int)⟩).units = (roundUnits (u + v) 1 : Int) := by
  unfold JSNumber.add
  simp only
  rw [← Nat.cast_add, roundSigned_of_nonneg]

theorem ofInt_nat (n : Nat) (hn : n < 2 ^ 53) :
    JSNumber.ofInt (n : Int) = ⟨((n * JSNumber.one : Nat) : Int)⟩ := by
  have h := ofInt_units n hn
  cases hx : JSNumber.ofInt (n : Int) with
  | mk units =>
    rw [hx] at h
    simp only at h
    rw [h]

theorem sub_units_of_nat (u v : Nat) (h : v ≤ u) :
    (JSNumber.sub ⟨(u : Int)⟩ ⟨(v : Int)⟩).units = (roundUnits (u - v) 1 : Int) := by
  unfold JSNumber.sub
  simp only
  rw [← Nat.cast_sub h, roundSigned_of_nonneg]

/-- The Number value `start + random * (end - start)` for whole numbers
`start ≤ end` below `2 ^ 53` and a draw `random` from 0 to 1: it lies between
`start` and `end`. -/
theorem add_mul_sub_bounds (S N n : Nat) (hSN : S ≤ N) (hN : N < 2 ^ 53)
    (hn : n ≤ JSNumber.one) :
    ∃ t : Nat,
      (JSNumber.add (JSNumber.ofInt (S : Int))
        (JSNumber.mul ⟨(n : Int)⟩
          (JSNumber.sub (JSNumber.ofInt (N : Int)) (JSNumber.ofInt (S : Int))))).units =
        (t : Int) ∧
      S * JSNumber.one ≤ t ∧ t ≤ N * JSNumber.one := by
  have hone := one_pos
  have hS : S < 2 ^ 53 := lt_of_le_of_lt hSN hN
  rw [ofInt_nat S hS, ofInt_nat N hN]
  have hdiff : JSNumber.sub ⟨((N * JSNumber.one : Nat) : Int)⟩
      ⟨((S * JSNumber.one : Nat) : Int)⟩ = ⟨(((N - S) * JSNumber.one : Nat) : Int)⟩ := by
    have h := sub_units_of_nat (N * JSNumber.one) (S * JSNumber.one)
      (Nat.mul_le_mul_right _ hSN)
    have hexact := roundUnits_exact (N - S) 1074 (by omega)
    have hsame : N * JSNumber.one - S * JSNumber.one = (N - S) * 2 ^ 1074 := by
      show N * JSNumber.one - S * JSNumber.one = (N - S) * JSNumber.one
      rw [Nat.sub_mul]
    rw [hsame, hexact] at h
    cases hx : JSNumber.sub ⟨((N * JSNumber.one : Nat) : Int)⟩
        ⟨((S * JSNumber.one : Nat) : Int)⟩ with
    | mk units =>
      rw [hx] at h
      simp only at h
      rw [h]
      rfl
  rw [hdiff]
  have hprod := mul_units_of_nat n ((N - S) * JSNumber.one)
  generalize hp : roundUnits (n * ((N - S) * JSNumber.one)) JSNumber.one = p at hprod
  have hple : p ≤ (N - S) * JSNumber.one := by
    rw [← hp]
    apply roundUnits_le _ _ (N - S) 1074 hone (by omega)
    show n * ((N - S) * JSNumber.one) ≤ (N - S) * JSNumber.one * JSNumber.one
    rw [Nat.mul_comm n]
    exact Nat.mul_le_mul_left _ hn
  have hmul : JSNumber.mul ⟨(n : Int)⟩ ⟨(((N - S) * JSNumber.one : Nat) : Int)⟩ =
      ⟨(p : Int)⟩ := by
    cases hx : JSNumber.mul ⟨(n : Int)⟩ ⟨(((N - S) * JSNumber.one : Nat) : Int)⟩ with
    | mk units =>
      rw [hx] at hprod
      simp only at hprod
      rw [hprod]
  rw [hmul, add_units_of_nat]
  refine ⟨roundUnits (S * JSNumber.one + p) 1, rfl, ?_, ?_⟩
  · apply le_roundUnits _ _ S 1074 (by decide) hS
    show S * JSNumber.one * 1 ≤ S * JSNumber.one + p
    omega
  · apply roundUnits_le _ _ N 1074 (by decide) hN
    show S * JSNumber.one + p ≤ N * JSNumber.one * 1
    have : (N - S) * JSNumber.one = N * JSNumber.one - S * JSNumber.one := Nat.sub_mul _ _ _
    have hle : S * JSNumber.one ≤ N * JSNumber.one := Nat.mul_le_mul_right _ hSN
    omega

/-! ## Lemmas on objects and `buildUrl` -/

theorem JSObject.get_of_mem (o : JSObject) (hkeys : o.keys.Nodup)
    (e : String × JSValue) (he : e ∈ o) : o.get e.1 = e.2 := by
  induction o with
  | nil => cases he
  | cons x rest ih =>
    obtain ⟨k, v⟩ := x
    simp only [JSObject.keys, List.map_cons, List.nodup_cons, List.mem_map, not_exists,
      not_and] at hkeys
    rcases List.mem_cons.1 he with rfl | hmem
    · simp [JSObject.get, List.lookup]
    · have hne : e.1 ≠ k := fun hk => hkeys.1 e hmem hk
      have := ih hkeys.2 hmem
      simp only [JSObject.get, List.lookup] at this ⊢
      have hbeq : (e.1 == k) = false := by simpa using hne
      rw [hbeq]
      exact this

theorem foldl_append_entries (o : JSObject) (l : List (String × JSValue)) (url : URL)
    (hl : ∀ e ∈ l, o.get e.1 = e.2) :
    (l.map Prod.fst).foldl (fun (url : URL) key =>
        if o.get key ≠ .null ∧ o.get key ≠ .undefined ∧ o.get key ≠ .str "" then
          url.append key (o.get key)
        else url) url =
      { url with searchParams :=
          url.searchParams ++ (l.filter fun e => e.2.isGiven).map queryEntry } := by
  induction l generalizing url with
  | nil => simp
  | cons x rest ih =>
    have hx : o.get x.1 = x.2 := hl x (List.mem_cons_self _ _)
    have hrest : ∀ e ∈ rest, o.get e.1 = e.2 := fun e he => hl e (List.mem_cons_of_mem _ he)
    simp only [List.map_cons, List.foldl_cons]
    rw [ih _ hrest, hx]
    by_cases hg : x.2 ≠ .null ∧ x.2 ≠ .undefined ∧ x.2 ≠ .str ""
    · have hgb : x.2.isGiven = true := by simpa [JSValue.isGiven] using hg
      rw [if_pos hg]
      simp [List.filter_cons, hgb, URL.append, queryEntry]
    · have hgb : x.2.isGiven = false := by simpa [JSValue.isGiven] using hg
      rw [if_neg hg]
      simp [List.filter_cons, hgb]

theorem JSObject.keys_set (o : JSObject) (key : String) (value : JSValue) :
    (o.set key value).keys = if key ∈ o.keys then o.keys else o.keys ++ [key] := by
  induction o with
  | nil => simp [JSObject.set, JSObject.keys]
  | cons x rest ih =>
    obtain ⟨k, v⟩ := x
    by_cases hk : k = key
    · subst hk
      simp [JSObject.set, JSObject.keys]
    · have hk2 : ¬ key = k := fun h => hk h.symm
      simp only [JSObject.keys] at ih
      simp only [JSObject.set, if_neg hk, JSObject.keys, List.map_cons, ih, List.mem_cons,
        hk2, false_or]
      split_ifs <;> simp

theorem JSObject.nodup_set (o : JSObject) (key : String) (value : JSValue)
    (hkeys : o.keys.Nodup) : (o.set key value).keys.Nodup := by
  rw [JSObject.keys_set]
  split_ifs with hmem
  · exact hkeys
  · exact List.Nodup.append hkeys (List.nodup_singleton _) (by simpa using hmem)

theorem JSObject.get_set_self (o : JSObject) (key : String) (value : JSValue) :
    (o.set key value).get key = value := by
  induction o with
  | nil => simp [JSObject.set, JSObject.get, List.lookup]
  | cons x rest ih =>
    obtain ⟨k, v⟩ := x
    by_cases hk : k = key
    · simp [JSObject.set, hk, JSObject.get, List.lookup]
    · have hbeq : (key == k) = false := by simpa using fun h : key = k => hk h.symm
      simp only [JSObject.get] at ih
      simp only [JSObject.set, if_neg hk, JSObject.get, List.lookup, hbeq]
      exact ih

theorem JSObject.get_set_other (o : JSObject) (key other : String) (value : JSValue)
    (hne : other ≠ key) : (o.set key value).get other = o.get other := by
  induction o with
  | nil =>
    have hbeq : (other == key) = false := by simpa using hne
    simp [JSObject.set, JSObject.get, List.lookup, hbeq]
  | cons x rest ih =>
    obtain ⟨k, v⟩ := x
    simp only [JSObject.get] at ih
    by_cases hk : k = key
    · subst hk
      have hbeq : (other == k) = false := by simpa using hne
      simp [JSObject.set, JSObject.get, List.lookup, hbeq]
    · simp only [JSObject.set, if_neg hk, JSObject.get, List.lookup]
      cases hok : other == k
      · simpa using ih
      · rfl

theorem JSObject.set_perm (o : JSObject) (key : String) (value : JSValue)
    (hkeys : o.keys.Nodup) :
    (o.set key value).Perm ((key, value) :: o.filter fun e => e.1 != key) := by
  induction o with
  | nil => simp [JSObject.set]
  | cons x rest ih =>
    obtain ⟨k, v⟩ := x
    simp only [JSObject.keys, List.map_cons, List.nodup_cons, List.mem_map, not_exists,
      not_and] at hkeys
    by_cases hk : k = key
    · subst hk
      have hfil : (rest.filter fun e => e.1 != k) = rest := by
        apply List.filter_eq_self.2
        intro e he
        simpa using hkeys.1 e he
      simp [JSObject.set, List.filter_cons, hfil]
    · have hbne : (k != key) = true := by simpa using hk
      simp only [JSObject.set, if_neg hk, List.filter_cons, hbne, if_true]
      exact ((ih hkeys.2).cons (k, v)).trans (List.Perm.swap _ _ _)

theorem getApiKey_ne_empty (st : Storage) : getApiKey st ≠ "" := by
  unfold getApiKey
  split
  · split_ifs with hk
    · simpa using hk
    · decide
  · decide

/-- The query that `buildUrl` produces and the object it leaves behind. -/
theorem buildUrl_eq (st : Storage) (baseUrl : URL) (params : JSObject)
    (hkeys : params.keys.Nodup) :
    buildUrl st baseUrl params =
      ({ baseUrl with searchParams := baseUrl.searchParams ++
            ((params.set "api_key" (.str (getApiKey st))).filter
              fun e => e.2.isGiven).map queryEntry },
       params.set "api_key" (.str (getApiKey st))) := by
  have hnd := JSObject.nodup_set params "api_key" (.str (getApiKey st)) hkeys
  unfold buildUrl
  simp only [JSObject.keys]
  rw [foldl_append_entries _ _ _ (fun e he => JSObject.get_of_mem _ hnd e he)]

/-! ## Lemmas on calendar dates -/

theorem yearStart_eq (y : Int) : yearStart y = 365 * y + y / 4 - y / 100 + y / 400 := by
  unfold yearStart
  omega

theorem yearStart_step (y : Int) :
    yearStart y + 365 ≤ yearStart (y + 1) ∧ yearStart (y + 1) ≤ yearStart y + 366 := by
  rw [yearStart_eq, yearStart_eq]
  omega

theorem monthStart_step (n : Int) : monthStart n + 28 ≤ monthStart (n + 1) := by
  unfold monthStart
  have h := yearStart_step (n / 12)
  by_cases h11 : n % 12 = 11
  · have e1 : (n + 1) / 12 = n / 12 + 1 := by omega
    have e2 : (n + 1) % 12 = 0 := by omega
    rw [e1, e2, h11]
    omega
  · have e1 : (n + 1) / 12 = n / 12 := by omega
    have e2 : (n + 1) % 12 = n % 12 + 1 := by omega
    rw [e1, e2]
    omega

theorem monthStart_mono (n m : Int) (h : n ≤ m) : monthStart n ≤ monthStart m := by
  refine Int.le_induction (P := fun m => monthStart n ≤ monthStart m) (le_refl _) ?_ m h
  intro k _ ih
  have := monthStart_step k
  omega

/-- The day number of a date, from the start of its month. -/
theorem epochDay_eq (d : CivilDate) (h1 : 1 ≤ d.month) (h2 : d.month ≤ 12) :
    d.epochDay = monthStart (monthIndex d) + d.day - 1 - 719468 := by
  obtain ⟨y, m, dd⟩ := d
  simp only [CivilDate.epochDay, monthStart, monthIndex, yearStart] at *
  have hy : (if m ≤ 2 then (y : Int) - 1 else y) = (12 * (y : Int) + m - 3) / 12 := by
    split_ifs <;> omega
  have hm : ((m : Int) + 9) % 12 = (12 * (y : Int) + m - 3) % 12 := by omega
  rw [hy, hm]
  ring

/-- The days of a month end before the next month starts. -/
theorem monthStart_length (d : CivilDate) (hv : d.valid) :
    monthStart (monthIndex d) + d.day ≤ monthStart (monthIndex d + 1) := by
  obtain ⟨y, m, dd⟩ := d
  obtain ⟨h1, h2, h3, h4⟩ := hv
  simp only [monthIndex, monthStart] at *
  simp only [daysInMonth, isLeapYear] at h4
  have e1 : (12 * (y : Int) + (m : Int) - 3) / 12 = if m ≤ 2 then (y : Int) - 1 else y := by
    split_ifs <;> omega
  have e2 : (12 * (y : Int) + (m : Int) - 3) % 12 =
      if m ≤ 2 then (m : Int) + 9 else m - 3 := by
    split_ifs <;> omega
  have e3 : (12 * (y : Int) + (m : Int) - 3 + 1) / 12 =
      if m ≤ 1 then (y : Int) - 1 else y := by
    split_ifs <;> omega
  have e4 : (12 * (y : Int) + (m : Int) - 3 + 1) % 12 =
      if m ≤ 1 then (m : Int) + 10 else if m = 2 then 0 else m - 2 := by
    split_ifs <;> omega
  rw [e1, e2, e3, e4]
  have hcases : m = 1 ∨ m = 2 ∨ m = 3 ∨ m = 4 ∨ m = 5 ∨ m = 6 ∨ m = 7 ∨ m = 8 ∨ m = 9 ∨
      m = 10 ∨ m = 11 ∨ m = 12 := by omega
  rcases hcases with rfl | rfl | rfl | rfl | rfl | rfl | rfl | rfl | rfl | rfl | rfl | rfl
  all_goals
    simp at h4
    simp [yearStart_eq]
    try omega
  · split_ifs at h4 <;> omega

/-- Calendar order is the order of day numbers: an earlier date has a smaller
day number. -/
theorem epochDay_lt_of_before (a b : CivilDate) (ha : a.valid) (hb : b.valid)
    (hab : a.before b) : a.epochDay < b.epochDay := by
  rw [epochDay_eq a ha.1 ha.2.1, epochDay_eq b hb.1 hb.2.1]
  have hlen := monthStart_length a ha
  obtain ⟨ha1, ha2, ha3, _⟩ := ha
  obtain ⟨hb1, hb2, hb3, _⟩ := hb
  by_cases hN : monthIndex a = monthIndex b
  · have hd : a.day < b.day := by
      unfold monthIndex at hN
      unfold CivilDate.before at hab
      omega
    rw [hN]
    omega
  · have hlt : monthIndex a + 1 ≤ monthIndex b := by
      unfold monthIndex at hN ⊢
      unfold CivilDate.before at hab
      omega
    have := monthStart_mono _ _ hlt
    omega

theorem firstAPOD_epochDay : firstAPOD.epochDay = 9297 := by decide

theorem firstAPOD_valid : firstAPOD.valid := by
  unfold CivilDate.valid
  decide

/-- The date checks of `getAPOD` by day number, at an instant not before the
first picture. -/
theorem getAPODRequest_by_day (st : Storage) (now : Int) (dateInput : Option CivilDate)
    (d : CivilDate) (hnow : firstAPOD.getTime ≤ now) :
    getAPODRequest st now (some d) none = getAPODRequest st now dateInput (some d) ∧
      (d.epochDay < firstAPOD.epochDay →
        getAPODRequest st now dateInput (some d) =
          .error "APOD comenzó el 16 de junio de 1995") ∧
      (todayDay now < d.epochDay →
        getAPODRequest st now dateInput (some d) =
          .error "No se puede seleccionar una fecha futura") ∧
      (d.epochDay = firstAPOD.epochDay ∨ d.epochDay = todayDay now →
        getAPODRequest st now dateInput (some d) =
          .ok (buildUrl st BASE_URLS.APOD
            [("date", .str d.toISO), ("hd", .bool true)]).1) := by
  have hf : firstAPOD.getTime = 9297 * 86400000 := by decide
  rw [hf] at hnow
  have hrun : ∀ di : Option CivilDate, getAPODRequest st now di (some d) =
      if d.epochDay * 86400000 > now then
        .error "No se puede seleccionar una fecha futura"
      else if d.epochDay * 86400000 < 9297 * 86400000 then
        .error "APOD comenzó el 16 de junio de 1995"
      else .ok (buildUrl st BASE_URLS.APOD
        [("date", .str d.toISO), ("hd", .bool true)]).1 := by
    intro di
    simp only [getAPODRequest, Option.orElse, CivilDate.getTime, msPerDay,
      firstAPOD_epochDay]
  have hin : getAPODRequest st now (some d) none = getAPODRequest st now dateInput (some d) := by
    rw [hrun dateInput]
    simp only [getAPODRequest, Option.orElse, CivilDate.getTime, msPerDay,
      firstAPOD_epochDay]
  refine ⟨hin, ?_, ?_, ?_⟩
  · intro hlt
    rw [firstAPOD_epochDay] at hlt
    rw [hrun, if_neg (by omega), if_pos (by omega)]
  · intro hgt
    unfold todayDay msPerDay at hgt
    rw [hrun, if_pos (by omega)]
  · intro heq
    rw [firstAPOD_epochDay] at heq
    unfold todayDay msPerDay at heq
    rw [hrun, if_neg (by omega), if_neg (by omega)]

/-- What `filterAndDisplayPosts` displays for a term that is not empty: the
posts in which the term occurs. -/
theorem filterAndDisplayPosts_filter (h : Host) (q : String) (updateInfo : Bool)
    (s : DynamicSearch) (hq : q ≠ "") :
    shownPosts (filterAndDisplayPosts h q updateInfo s) =
      s.posts.filter fun p => decide (TermOccurs h q p) := by
  have hfil : s.posts.filter (matchesQuery h q) =
      s.posts.filter fun p => decide (TermOccurs h q p) := by
    apply List.filter_congr
    intro p _
    by_cases hp : TermOccurs h q p
    · simp [hp, (matchesQuery_iff h q p).2 hp]
    · have : matchesQuery h q p = false := by
        cases hm : matchesQuery h q p
        · rfl
        · exact absurd ((matchesQuery_iff h q p).1 hm) hp
      simp [hp, this]
  have hrun : filterAndDisplayPosts h q updateInfo s =
      displayPosts (s.posts.filter fun p => decide (TermOccurs h q p)) q updateInfo s := by
    simp [filterAndDisplayPosts, hq, hfil]
  rw [hrun, shownPosts_displayPosts _ _ _ _ hq]

/-! ## Claims on the search widget -/

/-- C1: for every post list and every non-empty term `q`,
`filterAndDisplayPosts(q)` calls `displayPosts` with exactly the posts, in
their original order, in which the term occurs (lowercased title, lowercased
body or decimal id against the lowercased term), and these are the posts shown
afterwards. -/
theorem filterAndDisplayPosts_exact (h : Host) (q : String) (updateInfo : Bool)
    (s : DynamicSearch) (hq : q ≠ "") :
    filterAndDisplayPosts h q updateInfo s =
        displayPosts (s.posts.filter fun p => decide (TermOccurs h q p)) q updateInfo s ∧
      shownPosts (filterAndDisplayPosts h q updateInfo s) =
        s.posts.filter fun p => decide (TermOccurs h q p) := by
  have hfil : s.posts.filter (matchesQuery h q) =
      s.posts.filter fun p => decide (TermOccurs h q p) := by
    apply List.filter_congr
    intro p _
    by_cases hp : TermOccurs h q p
    · simp [hp, (matchesQuery_iff h q p).2 hp]
    · have : matchesQuery h q p = false := by
        cases hm : matchesQuery h q p
        · rfl
        · exact absurd ((matchesQuery_iff h q p).1 hm) hp
      simp [hp, this]
  have hrun : filterAndDisplayPosts h q updateInfo s =
      displayPosts (s.posts.filter fun p => decide (TermOccurs h q p)) q updateInfo s := by
    simp [filterAndDisplayPosts, hq, hfil]
  exact ⟨hrun, by rw [hrun, shownPosts_displayPosts _ _ _ _ hq]⟩

/-- Witness of C1: the term `EST` on the sample list. -/
theorem filterAndDisplayPosts_exact_witness :
    "EST" ≠ "" ∧
      shownPosts (filterAndDisplayPosts asciiHost "EST" true sampleSearch) =
        sampleSearch.posts.filter fun p => decide (TermOccurs asciiHost "EST" p) :=
  ⟨by decide, (filterAndDisplayPosts_exact asciiHost "EST" true sampleSearch (by decide)).2⟩

/-- C9: when the input field is empty or holds only white space,
`performSearch` shows the full post list, leaves the browser history as it was
(no `pushState`) and leaves the internal search history unchanged. -/
theorem performSearch_blank (h : Host) (s : DynamicSearch)
    (hblank : ∀ c ∈ s.searchInput.data, isWhiteSpace c = true) :
    performSearch h s = showAllPosts s ∧
      shownPosts (performSearch h s) = s.posts ∧
      (performSearch h s).history = s.history ∧
      (performSearch h s).searchHistory = s.searchHistory ∧
      (performSearch h s).currentSearchIndex = s.currentSearchIndex := by
  have hq : trim s.searchInput = "" := (trim_eq_empty_iff _).2 hblank
  have hrun : performSearch h s = showAllPosts s := by
    simp [performSearch, hq]
  obtain ⟨_, f2, f3, _, f5⟩ := displayPosts_frame s.posts "" false s
  rw [hrun]
  exact ⟨rfl, shownPosts_showAllPosts s, f5, f2, f3⟩

/-- Witness of C9: a field holding a space, a tab and a space. -/
theorem performSearch_blank_witness :
    (∀ c ∈ (" \t " : String).data, isWhiteSpace c = true) ∧
      shownPosts (performSearch asciiHost { sampleSearch with searchInput := " \t " }) =
        samplePosts ∧
      (performSearch asciiHost { sampleSearch with searchInput := " \t " }).history =
        sampleSearch.history :=
  ⟨by decide,
   (performSearch_blank asciiHost { sampleSearch with searchInput := " \t " }
      (by decide)).2.1,
   (performSearch_blank asciiHost { sampleSearch with searchInput := " \t " }
      (by decide)).2.2.1⟩

/-- C10, as stated, fails: after the term `aut` is submitted twice in a row on
the sample list, two history states carrying `aut` have been pushed on top of
the initial entry, so the session history has three entries and not two. -/
theorem performSearch_twice_pushes_two :
    (search asciiHost "aut" (search asciiHost "aut" sampleSearch)).history =
        { back := [⟨some "aut", "?search=aut"⟩, ⟨none, ""⟩],
          current := ⟨some "aut", "?search=aut"⟩, forward := [] } ∧
      (search asciiHost "aut" (search asciiHost "aut" sampleSearch)).history.length ≠
        sampleSearch.history.length + 1 := by
  decide

/-- C10, amended: when a term that is not blank is submitted twice in a row,
the second `performSearch` leaves the internal search history and
`currentSearchIndex` as the first one left them, with the term as last entry
(no consecutive duplicate), whereas each of the two submissions pushes one
browser history state carrying the term. -/
theorem performSearch_twice (h : Host) (s : DynamicSearch)
    (hq : trim s.searchInput ≠ "") :
    (performSearch h (performSearch h s)).searchHistory =
        (performSearch h s).searchHistory ∧
      (performSearch h (performSearch h s)).currentSearchIndex =
        (performSearch h s).currentSearchIndex ∧
      (performSearch h s).searchHistory.getLast? = some (trim s.searchInput) ∧
      (performSearch h s).history =
        s.history.pushState (some (trim s.searchInput))
          ("?search=" ++ h.encodeURIComponent (trim s.searchInput)) ∧
      (performSearch h (performSearch h s)).history =
        (performSearch h s).history.pushState (some (trim s.searchInput))
          ("?search=" ++ h.encodeURIComponent (trim s.searchInput)) := by
  obtain ⟨hin, hsh, hidx, hhist⟩ := performSearch_fields h s hq
  have hq2 : trim (performSearch h s).searchInput ≠ "" := by rw [hin]; exact hq
  obtain ⟨_, hsh2, hidx2, hhist2⟩ := performSearch_fields h (performSearch h s) hq2
  rw [hin] at hsh2 hidx2 hhist2
  have hlast : (performSearch h s).searchHistory.getLast? = some (trim s.searchInput) := by
    rw [hsh]; exact addToSearchHistory_getLast _ _
  have hsame : addToSearchHistory (trim s.searchInput) (performSearch h s) =
      performSearch h s := by
    unfold addToSearchHistory
    rw [if_neg]
    simp [hlast]
  refine ⟨?_, ?_, hlast, hhist, hhist2⟩
  · rw [hsh2, hsame]
  · rw [hidx2, hsame]

/-- Witness of C10 (amended): the term `aut` on the sample list. -/
theorem performSearch_twice_witness :
    trim "aut" ≠ "" ∧
      (performSearch asciiHost
          (performSearch asciiHost { sampleSearch with searchInput := "aut" })).searchHistory =
        (performSearch asciiHost { sampleSearch with searchInput := "aut" }).searchHistory :=
  ⟨by decide,
   (performSearch_twice asciiHost { sampleSearch with searchInput := "aut" } (by decide)).1⟩

/-! ## Claims on `NASAConfig` -/

/-- C2: for every params object (distinct keys), the query of
`buildUrl(base, params)` is the query of the base followed by, in some order,
one `api_key` entry holding `getApiKey()` and the entries of `params` other
than `api_key` whose value is not `null`, not `undefined` and not the empty
string; for `{a: 1, b: null, c: ""}` it is `a=1` and the api key, without `b`
and `c`. -/
theorem buildUrl_query (st : Storage) (baseUrl : URL) (params : JSObject)
    (hkeys : params.keys.Nodup) :
    ((buildUrl st baseUrl params).1.searchParams).Perm
        (baseUrl.searchParams ++ ("api_key", getApiKey st) ::
          (params.filter fun e => e.1 != "api_key" &&
            decide (e.2 ≠ .null ∧ e.2 ≠ .undefined ∧ e.2 ≠ .str "")).map
              fun e => (e.1, e.2.toJSString)) ∧
      (buildUrl st baseUrl params).1.base = baseUrl.base ∧
      (buildUrl st baseUrl [("a", .num 1), ("b", .null), ("c", .str "")]).1.searchParams =
        baseUrl.searchParams ++ [("a", "1"), ("api_key", getApiKey st)] := by
  have hkey : (JSValue.str (getApiKey st)).isGiven = true := by
    simpa [JSValue.isGiven] using getApiKey_ne_empty st
  refine ⟨?_, ?_, ?_⟩
  · rw [buildUrl_eq st baseUrl params hkeys]
    apply List.Perm.append_left
    have h1 := ((JSObject.set_perm params "api_key" (.str (getApiKey st)) hkeys).filter
      fun e => e.2.isGiven).map queryEntry
    have h2 : (((("api_key", JSValue.str (getApiKey st)) ::
          params.filter fun e => e.1 != "api_key").filter
            fun e => e.2.isGiven).map queryEntry) =
        ("api_key", getApiKey st) ::
          (params.filter fun e => e.1 != "api_key" &&
            decide (e.2 ≠ .null ∧ e.2 ≠ .undefined ∧ e.2 ≠ .str "")).map
              fun e => (e.1, e.2.toJSString) := by
      rw [List.filter_cons, if_pos hkey, List.filter_filter]
      simp only [List.map_cons, queryEntry, JSValue.toJSString, List.cons.injEq, true_and]
      congr 1
      apply List.filter_congr
      intro e _
      simp [JSValue.isGiven, Bool.and_comm]
    rw [← h2]
    exact h1
  · rw [buildUrl_eq st baseUrl params hkeys]
  · rw [buildUrl_eq st baseUrl _ (by decide)]
    simp [JSObject.set, List.filter_cons, JSValue.isGiven, queryEntry, JSValue.toJSString,
      getApiKey_ne_empty st]
    rfl

/-- Witness of C2: an object with a caller-supplied `api_key` and an empty
value, on the picture-of-day base. -/
theorem buildUrl_query_witness :
    (JSObject.keys [("date", .str "2024-01-01"), ("api_key", .str "mine"),
        ("thumbs", .str "")]).Nodup ∧
      ((buildUrl Storage.empty BASE_URLS.APOD
          [("date", .str "2024-01-01"), ("api_key", .str "mine"),
            ("thumbs", .str "")]).1.searchParams).Perm
        (BASE_URLS.APOD.searchParams ++ ("api_key", getApiKey Storage.empty) ::
          (List.filter (fun e => e.1 != "api_key" &&
              decide (e.2 ≠ .null ∧ e.2 ≠ .undefined ∧ e.2 ≠ .str ""))
            [("date", JSValue.str "2024-01-01"), ("api_key", .str "mine"),
              ("thumbs", .str "")]).map fun e => (e.1, e.2.toJSString)) :=
  ⟨by decide,
   (buildUrl_query Storage.empty BASE_URLS.APOD
      [("date", .str "2024-01-01"), ("api_key", .str "mine"), ("thumbs", .str "")]
      (by decide)).1⟩

/-- C3, as stated, fails: after `buildUrl(base, {a: 1})` the caller's object is
`{a: 1, api_key: ...}`, with one key more than before the call. -/
theorem buildUrl_mutates_params :
    (buildUrl Storage.empty BASE_URLS.APOD [("a", .num 1)]).2 =
        [("a", .num 1), ("api_key", .str DEFAULT_API_KEY)] ∧
      (buildUrl Storage.empty BASE_URLS.APOD [("a", .num 1)]).2 ≠ [("a", .num 1)] := by
  decide

/-- C3, amended: the only effect of `buildUrl` on the caller's params object is
the assignment of `api_key`: afterwards `api_key` holds `getApiKey()`, every
other key reads as before, and the keys are those of before with `api_key`
added last when it was missing. The function returns no storage: it only reads
the persisted key. -/
theorem buildUrl_params_frame (st : Storage) (baseUrl : URL) (params : JSObject) :
    (buildUrl st baseUrl params).2.get "api_key" = .str (getApiKey st) ∧
      (∀ key, key ≠ "api_key" →
        (buildUrl st baseUrl params).2.get key = params.get key) ∧
      (buildUrl st baseUrl params).2.keys =
        if "api_key" ∈ params.keys then params.keys else params.keys ++ ["api_key"] := by
  have h2 : (buildUrl st baseUrl params).2 = params.set "api_key" (.str (getApiKey st)) := rfl
  rw [h2]
  exact ⟨JSObject.get_set_self _ _ _,
    fun key hne => JSObject.get_set_other _ _ _ _ hne,
    JSObject.keys_set _ _ _⟩

/-- C6: for every key string, if the key is empty or all white space,
`setApiKey` leaves the storage as it was and shows the error notification;
otherwise it stores the trimmed key and shows the success notification, and
`getApiKey()` then returns the trimmed key. The function is total: it raises
nothing. -/
theorem setApiKey_spec (apiKey : String) (env : ConfigEnv) :
    ((∀ c ∈ apiKey.data, isWhiteSpace c = true) →
        (setApiKey apiKey env).storage = env.storage ∧
        (setApiKey apiKey env).notifications =
          env.notifications ++ [⟨"Por favor ingresa una API Key válida", "error"⟩]) ∧
      ((¬ ∀ c ∈ apiKey.data, isWhiteSpace c = true) →
        (setApiKey apiKey env).storage =
          env.storage.setItem "nasa_api_key" (trim apiKey) ∧
        (setApiKey apiKey env).storage.getItem "nasa_api_key" = some (trim apiKey) ∧
        getApiKey (setApiKey apiKey env).storage = trim apiKey ∧
        (setApiKey apiKey env).notifications =
          env.notifications ++ [⟨"API Key guardada correctamente", "success"⟩]) := by
  constructor
  · intro hblank
    have ht : trim apiKey = "" := (trim_eq_empty_iff _).2 hblank
    simp [setApiKey, ht, showNotification]
  · intro hnot
    have ht : trim apiKey ≠ "" := fun h => hnot ((trim_eq_empty_iff _).1 h)
    have hne : apiKey ≠ "" := by
      intro h
      apply hnot
      rw [h]
      intro c hc
      cases hc
    simp [setApiKey, ht, hne, showNotification, getApiKey, Storage.setItem, Storage.getItem]

/-- Witness of C6: a key of blanks is refused and a padded key is stored
trimmed. -/
theorem setApiKey_spec_witness :
    ((∀ c ∈ (" \t" : String).data, isWhiteSpace c = true) ∧
        (setApiKey " \t" ⟨Storage.empty, []⟩).storage = Storage.empty) ∧
      ((¬ ∀ c ∈ (" k1 " : String).data, isWhiteSpace c = true) ∧
        getApiKey (setApiKey " k1 " ⟨Storage.empty, []⟩).storage = trim " k1 ") :=
  ⟨⟨by decide, ((setApiKey_spec " \t" ⟨Storage.empty, []⟩).1 (by decide)).1⟩,
   ⟨by decide, ((setApiKey_spec " k1 " ⟨Storage.empty, []⟩).2 (by decide)).2.2.1⟩⟩

/-- C8, as stated, fails: a caller who gives the width `0` and the empty
format gets the default width `1024` and the default format `image/jpeg`. -/
theorem buildWmsUrl_falsy_option :
    (buildWmsUrl "MODIS_Terra_Aerosol" "2024-01-01"
        [("width", .num 0), ("format", .str "")]).get "WIDTH" = some "1024" ∧
      (buildWmsUrl "MODIS_Terra_Aerosol" "2024-01-01"
        [("width", .num 0), ("format", .str "")]).get "FORMAT" = some "image/jpeg" := by
  decide

/-- C8, amended: for every layer, date and options, `buildWmsUrl` returns a URL
on the WMS base endpoint whose query has `SERVICE=WMS`, `VERSION=1.3.0`,
`REQUEST=GetMap`, `LAYERS=layer` and `TIME=date`, has no `api_key`, and whose
`WIDTH`, `HEIGHT`, `BBOX` and `FORMAT` are the caller's option when that option
is truthy (not missing, `null`, `0`, `false` or the empty string) and the
defaults `1024`, `512`, `-180,-90,180,90` and `image/jpeg` otherwise. -/
theorem buildWmsUrl_spec (layer date : String) (options : JSObject) :
    (buildWmsUrl layer date options).base = BASE_URLS.WMS_BASE.base ∧
      (buildWmsUrl layer date options).get "SERVICE" = some "WMS" ∧
      (buildWmsUrl layer date options).get "VERSION" = some "1.3.0" ∧
      (buildWmsUrl layer date options).get "REQUEST" = some "GetMap" ∧
      (buildWmsUrl layer date options).get "LAYERS" = some layer ∧
      (buildWmsUrl layer date options).get "TIME" = some date ∧
      (buildWmsUrl layer date options).get "api_key" = none ∧
      (buildWmsUrl layer date options).get "WIDTH" =
        some (optionOrDefault options "width" "1024") ∧
      (buildWmsUrl layer date options).get "HEIGHT" =
        some (optionOrDefault options "height" "512") ∧
      (buildWmsUrl layer date options).get "BBOX" =
        some (optionOrDefault options "bbox" "-180,-90,180,90") ∧
      (buildWmsUrl layer date options).get "FORMAT" =
        some (optionOrDefault options "format" "image/jpeg") ∧
      (buildWmsUrl layer date options).searchParams.map Prod.fst =
        ["SERVICE", "VERSION", "REQUEST", "FORMAT", "TRANSPARENT", "LAYERS", "CRS",
          "STYLES", "WIDTH", "HEIGHT", "BBOX", "TIME"] := by
  have hw : ∀ (v d : JSValue), (v.or d).toJSString =
      if v.truthy then v.toJSString else d.toJSString := by
    intro v d
    unfold JSValue.or
    split_ifs <;> rfl
  have h1024 : (JSValue.num DEFAULTS.WMS_WIDTH).toJSString = "1024" := by decide
  have h512 : (JSValue.num DEFAULTS.WMS_HEIGHT).toJSString = "512" := by decide
  have hstr : ∀ t : String, (JSValue.str t).toJSString = t := fun _ => rfl
  unfold buildWmsUrl optionOrDefault
  generalize options.get "format" = fmt
  generalize options.get "width" = w
  generalize options.get "height" = ht
  generalize options.get "bbox" = bbox
  simp [JSObject.keys, JSObject.get, List.lookup, URL.append, URL.get,
    BASE_URLS.WMS_BASE, hw, h1024, h512, hstr, DEFAULTS.WMS_IMAGE_FORMAT]

/-! ## Claims on the validation of queries -/

/-- A rover-photo query with a non-zero integer argument is refused exactly
when the argument is below 1 or above 4000. -/
theorem getMarsPhotosRequest_argument (st : Storage) (solInput cameraSelect : String)
    (n : Int) (hn : n ≠ 0) :
    (∃ msg, getMarsPhotosRequest st solInput cameraSelect (.num n) = .error msg) ↔
      (n < 1 ∨ n > 4000) := by
  have hor : (JSValue.num n).or (.str solInput) = .num n := by
    simp [JSValue.or, JSValue.truthy, hn]
  have hlt : (JSNumber.ofInt n).ltInt 1 = decide (n < 1) := by
    simpa using ltInt_ofInt n 1 (by decide) (by decide)
  have hgt : (JSNumber.ofInt n).gtInt 4000 = decide (4000 < n) := by
    simpa using gtInt_ofInt n 4000 (by decide)
  unfold getMarsPhotosRequest
  simp only [hor, JSValue.truthy, JSValue.ltNum, JSValue.gtNum, JSValue.toNumber, hlt, hgt]
  by_cases h1 : n < 1
  · simp [h1]
  · by_cases h2 : n > 4000
    · simp [h1, h2, hn]
    · simp [h1, h2, hn]

/-- A rover-photo query without argument, on a sol field whose text converts to
the whole number `n`, is refused exactly when `n` is below 1 or above 4000. -/
theorem getMarsPhotosRequest_input (st : Storage) (solInput cameraSelect : String)
    (n : Int) (hs : solInput ≠ "")
    (hnum : stringToNumber solInput = some (JSNumber.ofInt n)) :
    (∃ msg, getMarsPhotosRequest st solInput cameraSelect .null = .error msg) ↔
      (n < 1 ∨ n > 4000) := by
  have hor : JSValue.null.or (.str solInput) = .str solInput := by
    simp [JSValue.or, JSValue.truthy]
  have hlt : (JSNumber.ofInt n).ltInt 1 = decide (n < 1) := by
    simpa using ltInt_ofInt n 1 (by decide) (by decide)
  have hgt : (JSNumber.ofInt n).gtInt 4000 = decide (4000 < n) := by
    simpa using gtInt_ofInt n 4000 (by decide)
  unfold getMarsPhotosRequest
  simp only [hor, JSValue.truthy, JSValue.ltNum, JSValue.gtNum, JSValue.toNumber, hnum,
    hlt, hgt]
  by_cases h1 : n < 1
  · simp [h1]
  · by_cases h2 : n > 4000
    · simp [h1, h2, hs]
    · simp [h1, h2, hs]

set_option exponentiation.threshold 5000 in
set_option maxRecDepth 100000 in
/-- C4 at its failing input: `getMarsPhotos(0)` while the sol field holds `5`
is not refused; the argument `0` is dropped by `sol || this.solInput.value`
and the request for sol 5 is issued. -/
theorem getMarsPhotos_zero_argument :
    getMarsPhotosRequest Storage.empty "5" "" (.num 0) =
      .ok ⟨"https://api.nasa.gov/mars-photos/api/v1/rovers/curiosity/photos",
        [("sol", "5"), ("page", "1"), ("api_key", DEFAULT_API_KEY)]⟩ := by
  decide

/-- C5: at an instant `now` not before 1995-06-16T00:00Z, with `today` the
calendar date of the UTC day of `now`, a picture-of-day query for a calendar
date `d`, given as argument or through the date field, is refused with a
message (no request) when `d` is before 1995-06-16 or after `today`, and
reaches the request when `d` is 1995-06-16 or `today`. -/
theorem getAPOD_date_check (st : Storage) (now : Int) (dateInput : Option CivilDate)
    (d today : CivilDate) (hd : d.valid) (htoday : today.valid)
    (hclock : today.epochDay = todayDay now) (hnow : firstAPOD.getTime ≤ now) :
    getAPODRequest st now (some d) none = getAPODRequest st now dateInput (some d) ∧
      (d.before firstAPOD →
        getAPODRequest st now dateInput (some d) =
          .error "APOD comenzó el 16 de junio de 1995") ∧
      (today.before d →
        getAPODRequest st now dateInput (some d) =
          .error "No se puede seleccionar una fecha futura") ∧
      (d = firstAPOD ∨ d = today →
        getAPODRequest st now dateInput (some d) =
          .ok (buildUrl st BASE_URLS.APOD
            [("date", .str d.toISO), ("hd", .bool true)]).1) := by
  obtain ⟨hin, hbefore, hafter, hon⟩ := getAPODRequest_by_day st now dateInput d hnow
  refine ⟨hin, ?_, ?_, ?_⟩
  · intro hb
    exact hbefore (epochDay_lt_of_before d firstAPOD hd firstAPOD_valid hb)
  · intro ha
    apply hafter
    rw [← hclock]
    exact epochDay_lt_of_before today d htoday hd ha
  · intro h
    apply hon
    rcases h with rfl | rfl
    · exact Or.inl rfl
    · exact Or.inr hclock

/-- Witness of C5: on 2026-11-06 at 12:00:00.123 UTC, the day itself is
accepted through the date field. -/
theorem getAPOD_date_check_witness :
    (⟨2026, 11, 6⟩ : CivilDate).valid ∧
      (⟨2026, 11, 6⟩ : CivilDate).epochDay = todayDay 1793966400123 ∧
      firstAPOD.getTime ≤ 1793966400123 ∧
      getAPODRequest Storage.empty 1793966400123 (some ⟨2026, 11, 6⟩) none =
        .ok ⟨"https://api.nasa.gov/planetary/apod",
          [("date", "2026-11-06"), ("hd", "true"), ("api_key", DEFAULT_API_KEY)]⟩ :=
  ⟨by unfold CivilDate.valid; decide, by decide, by decide,
   ((getAPOD_date_check Storage.empty 1793966400123 (some ⟨2026, 11, 6⟩) ⟨2026, 11, 6⟩
      ⟨2026, 11, 6⟩ (by unfold CivilDate.valid; decide) (by unfold CivilDate.valid; decide)
      (by decide) (by decide)).1).trans
    (((getAPOD_date_check Storage.empty 1793966400123 (some ⟨2026, 11, 6⟩) ⟨2026, 11, 6⟩
      ⟨2026, 11, 6⟩ (by unfold CivilDate.valid; decide) (by unfold CivilDate.valid; decide)
      (by decide) (by decide)).2.2.2 (Or.inr rfl)).trans (by decide))⟩

/-! ## Claims on the persisted values -/

theorem handleModuleSwitch_frame (moduleId : String) (app : NASAApiExplorer) :
    (handleModuleSwitch moduleId app).currentModule = app.currentModule ∧
      (handleModuleSwitch moduleId app).storage = app.storage ∧
      (handleModuleSwitch moduleId app).modules = app.modules ∧
      (handleModuleSwitch moduleId app).navButtons = app.navButtons ∧
      (handleModuleSwitch moduleId app).notifications = app.notifications := by
  unfold handleModuleSwitch
  split_ifs <;> simp

theorem switchModule_currentModule (moduleId : String) (app : NASAApiExplorer) :
    (switchModule moduleId app).currentModule = moduleId ∧
      (switchModule moduleId app).storage.getItem "nasa_current_module" = some moduleId := by
  unfold switchModule
  constructor
  · exact (handleModuleSwitch_frame moduleId _).1
  · simp [Storage.setItem, Storage.getItem]

/-- C7, as stated, fails: with the empty string stored under both keys, a key
and a module name are stored, yet `getApiKey()` returns the default key and
`loadInitialModule` activates `apod`, not the stored values. -/
theorem empty_stored_value_is_default :
    ((Storage.empty.setItem "nasa_api_key" "").getItem "nasa_api_key" = some "" ∧
        getApiKey (Storage.empty.setItem "nasa_api_key" "") ≠ "") ∧
      ((Storage.empty.setItem "nasa_current_module" "").getItem "nasa_current_module" =
          some "" ∧
        (loadInitialModule
          (NASAApiExplorer.init (Storage.empty.setItem "nasa_current_module" ""))).currentModule ≠
          "") := by
  decide

/-- The method `switchModule` on an id whose selector parses runs to its end
and makes the id the active module name. -/
theorem switchModuleAny_currentModule (css : String → SelectorOutcome) (moduleId : String)
    (app : NASAApiExplorer)
    (h : selectorSafe moduleId = true ∨ css moduleId ≠ .syntaxError) :
    ∃ app', switchModuleAny css moduleId app = .ok app' ∧ app'.currentModule = moduleId := by
  unfold switchModuleAny
  by_cases hsafe : selectorSafe moduleId = true
  · rw [if_pos hsafe]
    exact ⟨_, rfl, (switchModule_currentModule moduleId app).1⟩
  · rw [if_neg hsafe]
    have hcss : css moduleId ≠ .syntaxError := by
      rcases h with h | h
      · exact absurd h hsafe
      · exact h
    unfold switchModuleUnsafe
    cases hout : css moduleId with
    | syntaxError => exact absurd hout hcss
    | noElement => exact ⟨_, rfl, (handleModuleSwitch_frame moduleId _).1⟩
    | navButton index => exact ⟨_, rfl, (handleModuleSwitch_frame moduleId _).1⟩
    | modulePanel index => exact ⟨_, rfl, (handleModuleSwitch_frame moduleId _).1⟩
    | otherElement => exact ⟨_, rfl, (handleModuleSwitch_frame moduleId _).1⟩

/-- C7, amended: for every storage state, `getApiKey()` returns the stored key
when a non-empty one is stored, and `DEFAULT_API_KEY` when none or the empty
string is stored; `loadInitialModule` calls `switchModule` with the stored
module name when a non-empty one is stored, and with `apod` when none or the
empty string is stored, and the name it calls with becomes `currentModule`
whenever the selector that `switchModule` builds from the name parses, as it
does for every name of letters, digits, `-` and `_`. A stored empty string is
treated like an absent value, and neither absence is an error. -/
theorem stored_or_default (css : String → SelectorOutcome) (app : NASAApiExplorer) :
    (∀ key, app.storage.getItem "nasa_api_key" = some key → key ≠ "" →
        getApiKey app.storage = key) ∧
      (app.storage.getItem "nasa_api_key" = none ∨
          app.storage.getItem "nasa_api_key" = some "" →
        getApiKey app.storage = DEFAULT_API_KEY) ∧
      (∀ name, app.storage.getItem "nasa_current_module" = some name → name ≠ "" →
        loadInitialModuleAny css app = switchModuleAny css name app ∧
          (selectorSafe name = true ∨ css name ≠ .syntaxError →
            ∃ app', loadInitialModuleAny css app = .ok app' ∧ app'.currentModule = name) ∧
          (selectorSafe name = true →
            loadInitialModuleAny css app = .ok (loadInitialModule app) ∧
              loadInitialModule app = switchModule name app ∧
              (loadInitialModule app).currentModule = name)) ∧
      (app.storage.getItem "nasa_current_module" = none ∨
          app.storage.getItem "nasa_current_module" = some "" →
        loadInitialModuleAny css app = .ok (loadInitialModule app) ∧
          loadInitialModule app = switchModule "apod" app ∧
          (loadInitialModule app).currentModule = "apod") := by
  refine ⟨?_, ?_, ?_, ?_⟩
  · intro key hk hne
    simp [getApiKey, hk, hne]
  · intro hk
    rcases hk with hk | hk <;> simp [getApiKey, hk]
  · intro name hk hne
    have hany : loadInitialModuleAny css app = switchModuleAny css name app := by
      simp [loadInitialModuleAny, hk, hne]
    have hrun : loadInitialModule app = switchModule name app := by
      simp [loadInitialModule, hk, hne]
    refine ⟨hany, ?_, ?_⟩
    · intro h
      rw [hany]
      exact switchModuleAny_currentModule css name app h
    · intro hsafe
      refine ⟨?_, hrun, by rw [hrun]; exact (switchModule_currentModule name app).1⟩
      rw [hany, hrun]
      simp [switchModuleAny, hsafe]
  · intro hk
    have hany : loadInitialModuleAny css app = switchModuleAny css "apod" app := by
      rcases hk with hk | hk <;> simp [loadInitialModuleAny, hk]
    have hrun : loadInitialModule app = switchModule "apod" app := by
      rcases hk with hk | hk <;> simp [loadInitialModule, hk]
    refine ⟨?_, hrun, by rw [hrun]; exact (switchModule_currentModule "apod" app).1⟩
    rw [hany, hrun]
    have hsafe : selectorSafe "apod" = true := by decide
    simp [switchModuleAny, hsafe]

/-- Witness of C7 (amended): the module `mars` stored and no key stored; the
empty string stored as the module. -/
theorem stored_or_default_witness :
    (Storage.empty.setItem "nasa_current_module" "mars").getItem "nasa_current_module" =
        some "mars" ∧
      (Storage.empty.setItem "nasa_current_module" "mars").getItem "nasa_api_key" = none ∧
      (loadInitialModule (NASAApiExplorer.init
          (Storage.empty.setItem "nasa_current_module" "mars"))).currentModule = "mars" ∧
      getApiKey (Storage.empty.setItem "nasa_current_module" "mars") = DEFAULT_API_KEY ∧
      (Storage.empty.setItem "nasa_current_module" "").getItem "nasa_current_module" =
        some "" ∧
      (loadInitialModule (NASAApiExplorer.init
          (Storage.empty.setItem "nasa_current_module" ""))).currentModule = "apod" :=
  ⟨by decide, by decide,
   ((stored_or_default (fun _ => .noElement) (NASAApiExplorer.init
      (Storage.empty.setItem "nasa_current_module" "mars"))).2.2.1 "mars"
        (by decide) (by decide)).2.2 (by decide) |>.2.2,
   (stored_or_default (fun _ => .noElement) (NASAApiExplorer.init
      (Storage.empty.setItem "nasa_current_module" "mars"))).2.1 (Or.inl (by decide)),
   by decide,
   ((stored_or_default (fun _ => .noElement) (NASAApiExplorer.init
      (Storage.empty.setItem "nasa_current_module" ""))).2.2.2
        (Or.inr (by decide))).2.2⟩

/-! ## Claims on back navigation -/

theorem performSearch_posts (h : Host) (s : DynamicSearch) :
    (performSearch h s).posts = s.posts := by
  by_cases hq : trim s.searchInput = ""
  · have hrun : performSearch h s = showAllPosts s := by simp [performSearch, hq]
    rw [hrun]
    exact (displayPosts_frame s.posts "" false s).1
  · rw [performSearch_of_ne h s hq]
    simp only [updateBackButton]
    rw [(filterAndDisplayPosts_frame h _ true _).1, (addToSearchHistory_frame _ _).1]

/-- The state after `history.back()` on a history whose entry behind is
`entry`. -/
theorem historyBack_of_cons (h : Host) (s : DynamicSearch) (entry : HistoryEntry)
    (rest : List HistoryEntry) (hback : s.history.back = entry :: rest) :
    historyBack h s =
      onPopState h entry.state
        { s with history :=
            { back := rest, current := entry,
              forward := s.history.current :: s.history.forward } } := by
  unfold historyBack
  rw [hback]

theorem shownPosts_updateBackButton (s : DynamicSearch) :
    shownPosts (updateBackButton s) = shownPosts s := rfl

/-- What the `popstate` listener restores for a state object carrying a term
that is not empty. -/
theorem onPopState_some (h : Host) (q : String) (s : DynamicSearch) (hq : q ≠ "") :
    (onPopState h (some q) s).searchInput = q ∧
      shownPosts (onPopState h (some q) s) =
        s.posts.filter (fun p => decide (TermOccurs h q p)) ∧
      (onPopState h (some q) s).history = s.history := by
  have hex := filterAndDisplayPosts_filter h q false { s with searchInput := q } hq
  have hfr := filterAndDisplayPosts_frame h q false { s with searchInput := q }
  refine ⟨?_, ?_, ?_⟩
  · simp only [onPopState, updateBackButton]
    exact hfr.2.2.2.1
  · simp only [onPopState, shownPosts_updateBackButton]
    exact hex
  · simp only [onPopState, updateBackButton]
    exact hfr.2.2.2.2

/-- What the `popstate` listener restores for a `null` state. -/
theorem onPopState_none (h : Host) (s : DynamicSearch) :
    (onPopState h none s).searchInput = "" ∧
      shownPosts (onPopState h none s) = s.posts ∧
      (onPopState h none s).history = s.history := by
  have hfr := displayPosts_frame s.posts "" false { s with searchInput := "" }
  refine ⟨?_, ?_, ?_⟩
  · simp only [onPopState, updateBackButton, showAllPosts]
    exact hfr.2.2.2.1
  · simp only [onPopState, shownPosts_updateBackButton]
    exact shownPosts_showAllPosts { s with searchInput := "" }
  · simp only [onPopState, updateBackButton, showAllPosts]
    exact hfr.2.2.2.2

/-- C11: with the browser history as a stack of states, after a search for a
term `q1` (the trimmed text `t1`) followed by a search for a second term,
`history.back()` puts `q1` in the input field and shows exactly the filter
result for `q1`; after a single search from the initial page (an entry with a
`null` state), `history.back()` empties the input field and shows the full post
list, on the initial entry. -/
theorem historyBack_restores (h : Host) (s : DynamicSearch) (t1 t2 : String)
    (h1 : trim t1 ≠ "") (h2 : trim t2 ≠ "") :
    ((historyBack h (search h t2 (search h t1 s))).searchInput = trim t1 ∧
        shownPosts (historyBack h (search h t2 (search h t1 s))) =
          s.posts.filter (fun p => decide (TermOccurs h (trim t1) p)) ∧
        (historyBack h (search h t2 (search h t1 s))).history.current.state =
          some (trim t1)) ∧
      (s.history.current.state = none →
        (historyBack h (search h t1 s)).searchInput = "" ∧
          shownPosts (historyBack h (search h t1 s)) = s.posts ∧
          (historyBack h (search h t1 s)).history.current = s.history.current) := by
  have hq1 : trim ({ s with searchInput := t1 } : DynamicSearch).searchInput ≠ "" := h1
  obtain ⟨_, _, _, hhist1⟩ := performSearch_fields h { s with searchInput := t1 } hq1
  have hposts1 : (search h t1 s).posts = s.posts := performSearch_posts h _
  have hhist1' : (search h t1 s).history =
      s.history.pushState (some (trim t1)) ("?search=" ++ h.encodeURIComponent (trim t1)) :=
    hhist1
  constructor
  · have hq2 : trim ({ search h t1 s with searchInput := t2 } : DynamicSearch).searchInput ≠ "" :=
      h2
    obtain ⟨_, _, _, hhist2⟩ := performSearch_fields h { search h t1 s with searchInput := t2 } hq2
    have hposts2 : (search h t2 (search h t1 s)).posts = s.posts := by
      rw [← hposts1]
      exact performSearch_posts h _
    have hback : (search h t2 (search h t1 s)).history.back =
        ⟨some (trim t1), "?search=" ++ h.encodeURIComponent (trim t1)⟩ ::
          (s.history.current :: s.history.back) := by
      have : (search h t2 (search h t1 s)).history =
          (search h t1 s).history.pushState (some (trim t2))
            ("?search=" ++ h.encodeURIComponent (trim t2)) := hhist2
      rw [this, hhist1']
      rfl
    rw [historyBack_of_cons h _ _ _ hback]
    obtain ⟨p1, p2, p3⟩ := onPopState_some h (trim t1)
      { search h t2 (search h t1 s) with history :=
          { back := s.history.current :: s.history.back,
            current := ⟨some (trim t1), "?search=" ++ h.encodeURIComponent (trim t1)⟩,
            forward := (search h t2 (search h t1 s)).history.current ::
              (search h t2 (search h t1 s)).history.forward } } h1
    refine ⟨p1, ?_, ?_⟩
    · rw [p2]
      show (search h t2 (search h t1 s)).posts.filter _ = _
      rw [hposts2]
    · rw [p3]
  · intro hinit
    have hback : (search h t1 s).history.back = s.history.current :: s.history.back := by
      rw [hhist1']
      rfl
    rw [historyBack_of_cons h _ _ _ hback, hinit]
    obtain ⟨p1, p2, p3⟩ := onPopState_none h
      { search h t1 s with history :=
          { back := s.history.back, current := s.history.current,
            forward := (search h t1 s).history.current ::
              (search h t1 s).history.forward } }
    refine ⟨p1, ?_, ?_⟩
    · rw [p2]
      exact hposts1
    · rw [p3]

/-- Witness of C11: the terms `aut` and `est` on the sample list, whose first
entry is the initial page. -/
theorem historyBack_restores_witness :
    trim " aut" ≠ "" ∧ trim "est" ≠ "" ∧ sampleSearch.history.current.state = none ∧
      (historyBack asciiHost (search asciiHost "est" (search asciiHost " aut" sampleSearch))).searchInput =
        trim " aut" ∧
      shownPosts (historyBack asciiHost (search asciiHost " aut" sampleSearch)) =
        sampleSearch.posts :=
  ⟨by decide, by decide, by decide,
   (historyBack_restores asciiHost sampleSearch " aut" "est" (by decide) (by decide)).1.1,
   ((historyBack_restores asciiHost sampleSearch " aut" "est" (by decide) (by decide)).2
      (by decide)).2.1⟩

/-! ## Lemmas on the coordinator -/

theorem notify_frame (message type : String) (app : NASAApiExplorer) :
    (app.notify message type).storage = app.storage ∧
      (app.notify message type).currentModule = app.currentModule ∧
      (app.notify message type).modules = app.modules ∧
      (app.notify message type).navButtons = app.navButtons ∧
      (app.notify message type).calls = app.calls ∧
      (app.notify message type).notifications = app.notifications ++ [⟨message, type⟩] :=
  ⟨rfl, rfl, rfl, rfl, rfl, rfl⟩

theorem getApiKey_congr (st st' : Storage)
    (h : st'.getItem "nasa_api_key" = st.getItem "nasa_api_key") :
    getApiKey st' = getApiKey st := by
  unfold getApiKey
  rw [h]

theorem switchModule_apiKey (moduleId : String) (app : NASAApiExplorer) :
    (switchModule moduleId app).storage.getItem "nasa_api_key" =
      app.storage.getItem "nasa_api_key" := by
  unfold switchModule
  simp only [Storage.getItem, Storage.setItem]
  rw [if_neg (by decide)]
  exact congrFun (handleModuleSwitch_frame moduleId _).2.1 _

theorem switchModuleUnsafe_apiKey (outcome : SelectorOutcome) (moduleId : String)
    (app app' : NASAApiExplorer)
    (h : switchModuleUnsafe outcome moduleId app = .ok app' ∨
      switchModuleUnsafe outcome moduleId app = .error app') :
    app'.storage.getItem "nasa_api_key" = app.storage.getItem "nasa_api_key" := by
  unfold switchModuleUnsafe at h
  cases outcome <;> simp only [Except.ok.injEq, Except.error.injEq, false_or, or_false,
      reduceCtorEq] at h <;> subst h
  · rfl
  all_goals
    simp only [Storage.getItem, Storage.setItem]
    rw [if_neg (by decide)]
    exact congrFun (handleModuleSwitch_frame moduleId _).2.1 _

theorem switchModuleAny_apiKey (css : String → SelectorOutcome) (moduleId : String)
    (app app' : NASAApiExplorer)
    (h : switchModuleAny css moduleId app = .ok app' ∨
      switchModuleAny css moduleId app = .error app') :
    app'.storage.getItem "nasa_api_key" = app.storage.getItem "nasa_api_key" := by
  unfold switchModuleAny at h
  split_ifs at h
  · simp only [Except.ok.injEq, reduceCtorEq, or_false] at h
    subst h
    exact switchModule_apiKey moduleId app
  · exact switchModuleUnsafe_apiKey _ _ _ _ h

theorem JSObject.get_of_not_mem (o : JSObject) (key : String) (h : key ∉ o.keys) :
    o.get key = .undefined := by
  induction o with
  | nil => rfl
  | cons x rest ih =>
    obtain ⟨k, v⟩ := x
    simp only [JSObject.keys, List.map_cons, List.mem_cons, not_or] at h
    have hbeq : (key == k) = false := by simpa using h.1
    simp only [JSObject.get, List.lookup, hbeq]
    exact ih h.2

/-- The key step leaves the page alone when the `apiKey` field is missing or
falsy. -/
theorem importApiKey_of_falsy (config : JSObject) (app : NASAApiExplorer)
    (hkey : (config.get "apiKey").truthy = false) :
    importApiKey config app = .ok app := by
  simp [importApiKey, hkey]

/-- The key step never touches the active module name. -/
theorem importApiKey_currentModule (config : JSObject) (app app' : NASAApiExplorer)
    (h : importApiKey config app = .ok app' ∨ importApiKey config app = .error app') :
    app'.currentModule = app.currentModule := by
  unfold importApiKey at h
  split_ifs at h
  · split at h <;>
      simp only [Except.ok.injEq, Except.error.injEq, reduceCtorEq, or_false, false_or] at h <;>
      subst h <;> rfl
  · simp only [Except.ok.injEq, reduceCtorEq, or_false] at h
    subst h
    rfl

/-- The module step never touches the stored API key. -/
theorem importCurrentModule_apiKey (css : String → SelectorOutcome) (config : JSObject)
    (app app' : NASAApiExplorer)
    (h : importCurrentModule css config app = .ok app' ∨
      importCurrentModule css config app = .error app') :
    app'.storage.getItem "nasa_api_key" = app.storage.getItem "nasa_api_key" := by
  unfold importCurrentModule at h
  split_ifs at h
  · exact switchModuleAny_apiKey css _ app app' h
  · simp only [Except.ok.injEq, reduceCtorEq, or_false] at h
    subst h
    rfl

/-- The import of an object, by the outcomes of its two steps. -/
theorem importConfig_object (css : String → SelectorOutcome) (config : JSObject)
    (app : NASAApiExplorer) :
    (∃ app', importApiKey config app = .error app' ∧
        importConfig css (.object config) app =
          app'.notify "Error al importar configuración" "error") ∨
      (∃ app' app'', importApiKey config app = .ok app' ∧
        importCurrentModule css config app' = .error app'' ∧
        importConfig css (.object config) app =
          app''.notify "Error al importar configuración" "error") ∨
      (∃ app' app'', importApiKey config app = .ok app' ∧
        importCurrentModule css config app' = .ok app'' ∧
        importConfig css (.object config) app =
          app''.notify "Configuración importada correctamente" "success") := by
  cases hk : importApiKey config app with
  | error app' =>
    left
    exact ⟨app', rfl, by simp only [importConfig, hk]⟩
  | ok app' =>
    right
    cases hm : importCurrentModule css config app' with
    | error app'' =>
      left
      exact ⟨app', app'', rfl, hm, by simp only [importConfig, hk, hm]⟩
    | ok app'' =>
      right
      exact ⟨app', app'', rfl, hm, by simp only [importConfig, hk, hm]⟩

/-! ## Claims on the import of a configuration -/

/-- C12: for every imported file whose JSON content has no `apiKey` field (an
object without that key, or a value that is not an object, such as `null`),
`importConfig` leaves the stored API key as it was, whatever the module step
does; the handler is total, so nothing is thrown past it. -/
theorem importConfig_without_apiKey (css : String → SelectorOutcome)
    (parsed : ParsedConfig) (app : NASAApiExplorer)
    (hno : ∀ fields, parsed = .object fields → "apiKey" ∉ fields.keys) :
    (importConfig css parsed app).storage.getItem "nasa_api_key" =
        app.storage.getItem "nasa_api_key" ∧
      getApiKey (importConfig css parsed app).storage = getApiKey app.storage := by
  have hkey : (importConfig css parsed app).storage.getItem "nasa_api_key" =
      app.storage.getItem "nasa_api_key" := by
    cases parsed with
    | syntaxError => rfl
    | scalar value =>
      simp only [importConfig]
      split_ifs <;> rfl
    | object fields =>
      have hund : fields.get "apiKey" = .undefined :=
        JSObject.get_of_not_mem fields "apiKey" (hno fields rfl)
      have hstep := importApiKey_of_falsy fields app (by rw [hund]; rfl)
      rcases importConfig_object css fields app with
        ⟨app', hk, _⟩ | ⟨app', app'', hk, hm, hrun⟩ | ⟨app', app'', hk, hm, hrun⟩
      · rw [hstep] at hk
        cases hk
      · rw [hstep] at hk
        cases hk
        rw [hrun]
        exact importCurrentModule_apiKey css fields app app'' (Or.inr hm)
      · rw [hstep] at hk
        cases hk
        rw [hrun]
        exact importCurrentModule_apiKey css fields app app'' (Or.inl hm)
  exact ⟨hkey, getApiKey_congr _ _ hkey⟩

/-- Witness of C12: a file holding only a module name, and the file `null`. -/
theorem importConfig_without_apiKey_witness :
    (∀ fields, ParsedConfig.object [("currentModule", .str "mars")] = .object fields →
        "apiKey" ∉ fields.keys) ∧
      getApiKey (importConfig (fun _ => .syntaxError)
          (.object [("currentModule", .str "mars")])
          (NASAApiExplorer.init (Storage.empty.setItem "nasa_api_key" "k1"))).storage =
        getApiKey (Storage.empty.setItem "nasa_api_key" "k1") ∧
      getApiKey (importConfig (fun _ => .syntaxError) (.scalar .null)
          (NASAApiExplorer.init (Storage.empty.setItem "nasa_api_key" "k1"))).storage =
        getApiKey (Storage.empty.setItem "nasa_api_key" "k1") :=
  ⟨by intro fields h; cases h; decide,
   (importConfig_without_apiKey (fun _ => .syntaxError)
      (.object [("currentModule", .str "mars")])
      (NASAApiExplorer.init (Storage.empty.setItem "nasa_api_key" "k1"))
      (by intro fields h; cases h; decide)).2,
   (importConfig_without_apiKey (fun _ => .syntaxError) (.scalar .null)
      (NASAApiExplorer.init (Storage.empty.setItem "nasa_api_key" "k1"))
      (by intro fields h; cases h)).2⟩

/-- C13: for a file whose content is not valid JSON, `importConfig` shows the
generic error notification and changes nothing else: the storage (with the
persisted API key), the active module name and the panels are as before. The
handler is total, so nothing is thrown past it. -/
theorem importConfig_invalid_json (css : String → SelectorOutcome)
    (app : NASAApiExplorer) :
    (importConfig css .syntaxError app).notifications =
        app.notifications ++ [⟨"Error al importar configuración", "error"⟩] ∧
      (importConfig css .syntaxError app).storage = app.storage ∧
      getApiKey (importConfig css .syntaxError app).storage = getApiKey app.storage ∧
      (importConfig css .syntaxError app).currentModule = app.currentModule ∧
      (importConfig css .syntaxError app).modules = app.modules ∧
      (importConfig css .syntaxError app).navButtons = app.navButtons :=
  ⟨rfl, rfl, rfl, rfl, rfl, rfl⟩

/-! ## Claims on module switching -/

theorem activateFirst_names (name : String) (l : List (String × Bool)) :
    (activateFirst name l).map Prod.fst = l.map Prod.fst := by
  induction l with
  | nil => rfl
  | cons x rest ih =>
    obtain ⟨n, a⟩ := x
    unfold activateFirst
    split_ifs
    · rfl
    · simp [ih]

theorem filter_active_deactivated (l : List (String × Bool)) :
    (l.map fun m => (m.1, false)).filter (fun m => m.2) = [] := by
  induction l with
  | nil => rfl
  | cons x rest ih => simp [List.filter_cons, ih]

/-- After all elements are deactivated and the first one called `name` is
activated, that element is the only active one. -/
theorem filter_active_activateFirst (name : String) (l : List (String × Bool))
    (hmem : name ∈ l.map Prod.fst) :
    (activateFirst name (l.map fun m => (m.1, false))).filter (fun m => m.2) =
      [(name, true)] := by
  induction l with
  | nil => simp at hmem
  | cons x rest ih =>
    obtain ⟨n, a⟩ := x
    by_cases hn : n = name
    · subst hn
      simp only [List.map_cons, activateFirst, if_true, List.filter_cons]
      simp [filter_active_deactivated]
    · have hrest : name ∈ rest.map Prod.fst := by
        simp only [List.map_cons, List.mem_cons] at hmem
        rcases hmem with h | h
        · exact absurd h.symm hn
        · exact h
      simp only [List.map_cons, activateFirst, if_neg hn, List.filter_cons]
      simpa using ih hrest

theorem switchModule_page (moduleId : String) (app : NASAApiExplorer) :
    (switchModule moduleId app).modules =
        activateFirst (moduleId ++ "-module") (app.modules.map fun m => (m.1, false)) ∧
      (switchModule moduleId app).navButtons =
        activateFirst moduleId (app.navButtons.map fun b => (b.1, false)) := by
  unfold switchModule
  exact ⟨(handleModuleSwitch_frame moduleId _).2.2.1,
    (handleModuleSwitch_frame moduleId _).2.2.2.1⟩

/-- C14: on a page that has the panel and the navigation button of each of the
four modules, for every module name among the four and whatever was active
before, after `switchModule(name)` the only active panel is the named one, the
only active navigation button is the named one, `currentModule` is the name and
the persisted current-module value is the name. -/
theorem switchModule_activates (name : String) (app : NASAApiExplorer)
    (hname : name ∈ moduleNames)
    (hpage : ∀ n ∈ moduleNames,
      n ++ "-module" ∈ app.modules.map Prod.fst ∧ n ∈ app.navButtons.map Prod.fst) :
    (switchModule name app).modules.filter (fun m => m.2) = [(name ++ "-module", true)] ∧
      (switchModule name app).modules.map Prod.fst = app.modules.map Prod.fst ∧
      (switchModule name app).navButtons.filter (fun b => b.2) = [(name, true)] ∧
      (switchModule name app).navButtons.map Prod.fst = app.navButtons.map Prod.fst ∧
      (switchModule name app).currentModule = name ∧
      (switchModule name app).storage.getItem "nasa_current_module" = some name := by
  obtain ⟨hpanel, hbutton⟩ := hpage name hname
  obtain ⟨hm, hb⟩ := switchModule_page name app
  obtain ⟨hcur, hst⟩ := switchModule_currentModule name app
  refine ⟨?_, ?_, ?_, ?_, hcur, hst⟩
  · rw [hm]
    exact filter_active_activateFirst _ _ hpanel
  · rw [hm, activateFirst_names]
    simp [Function.comp_def]
  · rw [hb]
    exact filter_active_activateFirst _ _ hbutton
  · rw [hb, activateFirst_names]
    simp [Function.comp_def]

/-- Witness of C14: a switch to `mars` on a page where `apod` and `wms` are
both active. -/
theorem switchModule_activates_witness :
    "mars" ∈ moduleNames ∧
      (switchModule "mars"
          { NASAApiExplorer.init Storage.empty with
            modules := [("apod-module", true), ("wms-module", true),
              ("mars-module", false), ("tech-module", false)] }).modules.filter
        (fun m => m.2) = [("mars" ++ "-module", true)] :=
  ⟨by decide,
   (switchModule_activates "mars"
      { NASAApiExplorer.init Storage.empty with
        modules := [("apod-module", true), ("wms-module", true),
          ("mars-module", false), ("tech-module", false)] }
      (by decide) (by decide)).1⟩

theorem keydownTarget_mem (e : KeyboardEvent) (moduleId : String)
    (h : keydownTarget e = some moduleId) : moduleId ∈ moduleNames := by
  unfold keydownTarget at h
  split_ifs at h <;> simp only [Option.some.injEq, reduceCtorEq] at h <;> subst h <;> decide

theorem selectorSafe_of_mem (name : String) (h : name ∈ moduleNames) :
    selectorSafe name = true := by
  simp only [moduleNames, List.mem_cons, List.mem_singleton, List.not_mem_nil, or_false] at h
  rcases h with rfl | rfl | rfl | rfl <;> decide

/-- C15, as stated, fails: importing `{"currentModule": "foo"}`, or starting
with `foo` stored as the current module, makes `foo` the active module name. -/
theorem currentModule_not_validated :
    "foo" ∉ moduleNames ∧
      (importConfig (fun _ => .noElement) (.object [("currentModule", .str "foo")])
        (NASAApiExplorer.init Storage.empty)).currentModule = "foo" ∧
      (loadInitialModule (NASAApiExplorer.init
        (Storage.empty.setItem "nasa_current_module" "foo"))).currentModule = "foo" := by
  decide

/-- The module step of an import, on a file whose `currentModule` is a
non-empty string: the call of `switchModule` with it. -/
theorem importCurrentModule_of_name (css : String → SelectorOutcome) (fields : JSObject)
    (name : String) (app : NASAApiExplorer)
    (hname : fields.get "currentModule" = .str name) (hne : name ≠ "") :
    importCurrentModule css fields app = switchModuleAny css name app := by
  unfold importCurrentModule
  rw [hname]
  simp [JSValue.truthy, hne, JSValue.toJSString]

/-- The key step of an import runs to its end when `apiKey` is falsy or a
string, and throws on every other value. -/
theorem importApiKey_outcome (fields : JSObject) (app : NASAApiExplorer) :
    ((fields.get "apiKey").truthy = false ∨ (∃ key, fields.get "apiKey" = .str key) →
        ∃ app', importApiKey fields app = .ok app') ∧
      ((fields.get "apiKey").truthy = true → (∀ key, fields.get "apiKey" ≠ .str key) →
        importApiKey fields app = .error app) := by
  constructor
  · intro h
    by_cases ht : (fields.get "apiKey").truthy = true
    · rcases h with h | ⟨key, h⟩
      · rw [h] at ht
        exact absurd ht (by decide)
      · unfold importApiKey
        rw [if_pos ht, h]
        exact ⟨_, rfl⟩
    · unfold importApiKey
      rw [if_neg ht]
      exact ⟨_, rfl⟩
  · intro ht hstr
    unfold importApiKey
    rw [if_pos ht]
    cases hv : fields.get "apiKey" with
    | str key => exact absurd hv (hstr key)
    | undefined => rfl
    | null => rfl
    | bool b => rfl
    | num n => rfl

/-- The method `switchModule` on an id whose selector does not parse throws
and leaves the active module name as it was. -/
theorem switchModuleAny_syntaxError (css : String → SelectorOutcome) (moduleId : String)
    (app : NASAApiExplorer) (hsafe : selectorSafe moduleId = false)
    (hcss : css moduleId = .syntaxError) :
    ∃ app', switchModuleAny css moduleId app = .error app' ∧
      app'.currentModule = app.currentModule := by
  unfold switchModuleAny
  rw [hsafe]
  simp only [Bool.false_eq_true, if_false]
  unfold switchModuleUnsafe
  rw [hcss]
  exact ⟨_, rfl, rfl⟩

/-- C15, amended: the active module name is one of the four names at the start
and stays so under `switchModule` from a keyboard shortcut or from a navigation
button of a page whose buttons carry the four names; `loadInitialModule` and
`importConfig` apply the stored or imported name without validating it, so they
keep the property when that name is one of the four, or is missing or falsy.
A stored non-empty name of letters, digits, `-` and `_` becomes the active
name; an imported non-empty name whose selector parses becomes the active name
when the `apiKey` of the file is falsy or a string; and the active name is
left as it was when the `apiKey` of the file is a truthy value other than a
string, for which `setApiKey` throws, or when the selector of the imported
name does not parse, for which `switchModule` throws. -/
theorem currentModule_invariant (app : NASAApiExplorer)
    (hinv : app.currentModule ∈ moduleNames) :
    (∀ st, (NASAApiExplorer.init st).currentModule ∈ moduleNames) ∧
      (∀ e, (onKeydown e app).currentModule ∈ moduleNames) ∧
      (∀ index, (∀ b ∈ app.navButtons, b.1 ∈ moduleNames) →
        (navClick index app).currentModule ∈ moduleNames) ∧
      ((app.storage.getItem "nasa_current_module" = none ∨
          app.storage.getItem "nasa_current_module" = some "" ∨
          ∃ name ∈ moduleNames, app.storage.getItem "nasa_current_module" = some name) →
        (loadInitialModule app).currentModule ∈ moduleNames) ∧
      (∀ css parsed,
        (∀ fields, parsed = .object fields → (fields.get "currentModule").truthy = true →
          ∃ name ∈ moduleNames, fields.get "currentModule" = .str name) →
        (importConfig css parsed app).currentModule ∈ moduleNames) ∧
      (∀ name, app.storage.getItem "nasa_current_module" = some name → name ≠ "" →
        selectorSafe name = true → (loadInitialModule app).currentModule = name) ∧
      (∀ css fields name, fields.get "currentModule" = .str name → name ≠ "" →
        (selectorSafe name = true ∨ css name ≠ .syntaxError) →
        ((fields.get "apiKey").truthy = false ∨ ∃ key, fields.get "apiKey" = .str key) →
        (importConfig css (.object fields) app).currentModule = name) ∧
      (∀ css fields, (fields.get "apiKey").truthy = true →
        (∀ key, fields.get "apiKey" ≠ .str key) →
        (importConfig css (.object fields) app).currentModule = app.currentModule) ∧
      (∀ css fields name, fields.get "currentModule" = .str name → name ≠ "" →
        selectorSafe name = false → css name = .syntaxError →
        (importConfig css (.object fields) app).currentModule = app.currentModule) := by
  refine ⟨?_, ?_, ?_, ?_, ?_, ?_, ?_, ?_, ?_⟩
  · intro st
    show "apod" ∈ moduleNames
    decide
  · intro e
    unfold onKeydown
    cases ht : keydownTarget e with
    | none => exact hinv
    | some moduleId =>
      simp only
      rw [(switchModule_currentModule moduleId app).1]
      exact keydownTarget_mem e moduleId ht
  · intro index hbuttons
    unfold navClick
    cases hb : app.navButtons.get? index with
    | none => exact hinv
    | some button =>
      simp only
      rw [(switchModule_currentModule button.1 app).1]
      exact hbuttons button (List.get?_mem hb)
  · intro hstored
    have hcases : loadInitialModule app = switchModule "apod" app ∨
        ∃ name ∈ moduleNames, loadInitialModule app = switchModule name app := by
      rcases hstored with h | h | ⟨name, hmem, h⟩
      · left
        simp [loadInitialModule, h]
      · left
        simp [loadInitialModule, h]
      · right
        refine ⟨name, hmem, ?_⟩
        have hne : name ≠ "" := by
          intro h0
          rw [h0] at hmem
          revert hmem
          decide
        simp [loadInitialModule, h, hne]
    rcases hcases with h | ⟨name, hmem, h⟩
    · rw [h, (switchModule_currentModule "apod" app).1]
      decide
    · rw [h, (switchModule_currentModule name app).1]
      exact hmem
  · intro css parsed hfield
    cases parsed with
    | syntaxError => exact hinv
    | scalar value =>
      simp only [importConfig]
      split_ifs <;> exact hinv
    | object fields =>
      have hmodule : ∀ app' app'' : NASAApiExplorer, app'.currentModule ∈ moduleNames →
          (importCurrentModule css fields app' = .ok app'' ∨
            importCurrentModule css fields app' = .error app'') →
          app''.currentModule ∈ moduleNames := by
        intro app' app'' hinv' hm
        unfold importCurrentModule at hm
        by_cases hmod : (fields.get "currentModule").truthy = true
        · obtain ⟨name, hmem, hstr⟩ := hfield fields rfl hmod
          rw [if_pos hmod, hstr] at hm
          simp only [JSValue.toJSString, switchModuleAny, selectorSafe_of_mem name hmem,
            if_true, Except.ok.injEq, reduceCtorEq, or_false] at hm
          subst hm
          rw [(switchModule_currentModule name app').1]
          exact hmem
        · rw [if_neg hmod] at hm
          simp only [Except.ok.injEq, reduceCtorEq, or_false] at hm
          subst hm
          exact hinv'
      rcases importConfig_object css fields app with
        ⟨app', hk, hrun⟩ | ⟨app', app'', hk, hm, hrun⟩ | ⟨app', app'', hk, hm, hrun⟩
      · rw [hrun, (notify_frame _ _ _).2.1,
          importApiKey_currentModule fields app app' (Or.inr hk)]
        exact hinv
      · rw [hrun, (notify_frame _ _ _).2.1]
        apply hmodule app' app'' _ (Or.inr hm)
        rw [importApiKey_currentModule fields app app' (Or.inl hk)]
        exact hinv
      · rw [hrun, (notify_frame _ _ _).2.1]
        apply hmodule app' app'' _ (Or.inl hm)
        rw [importApiKey_currentModule fields app app' (Or.inl hk)]
        exact hinv
  · intro name hk hne _
    have hrun : loadInitialModule app = switchModule name app := by
      simp [loadInitialModule, hk, hne]
    rw [hrun]
    exact (switchModule_currentModule name app).1
  · intro css fields name hname hne hsel hkey
    obtain ⟨app₁, hk₁⟩ := (importApiKey_outcome fields app).1 hkey
    rcases importConfig_object css fields app with
      ⟨app', hk, hrun⟩ | ⟨app', app'', hk, hm, hrun⟩ | ⟨app', app'', hk, hm, hrun⟩
    · rw [hk₁] at hk
      cases hk
    · rw [importCurrentModule_of_name css fields name app' hname hne] at hm
      obtain ⟨a, ha, _⟩ := switchModuleAny_currentModule css name app' hsel
      rw [ha] at hm
      cases hm
    · rw [importCurrentModule_of_name css fields name app' hname hne] at hm
      obtain ⟨a, ha, hcur⟩ := switchModuleAny_currentModule css name app' hsel
      rw [ha] at hm
      cases hm
      rw [hrun, (notify_frame _ _ _).2.1]
      exact hcur
  · intro css fields htruthy hstr
    have hk₁ := (importApiKey_outcome fields app).2 htruthy hstr
    rcases importConfig_object css fields app with
      ⟨app', hk, hrun⟩ | ⟨app', app'', hk, hm, hrun⟩ | ⟨app', app'', hk, hm, hrun⟩
    · rw [hrun, (notify_frame _ _ _).2.1]
      exact importApiKey_currentModule fields app app' (Or.inr hk)
    · rw [hk₁] at hk
      cases hk
    · rw [hk₁] at hk
      cases hk
  · intro css fields name hname hne hsafe hcss
    rcases importConfig_object css fields app with
      ⟨app', hk, hrun⟩ | ⟨app', app'', hk, hm, hrun⟩ | ⟨app', app'', hk, hm, hrun⟩
    · rw [hrun, (notify_frame _ _ _).2.1]
      exact importApiKey_currentModule fields app app' (Or.inr hk)
    · rw [importCurrentModule_of_name css fields name app' hname hne] at hm
      obtain ⟨a, ha, hcur⟩ := switchModuleAny_syntaxError css name app' hsafe hcss
      rw [ha] at hm
      cases hm
      rw [hrun, (notify_frame _ _ _).2.1, hcur]
      exact importApiKey_currentModule fields app app' (Or.inl hk)
    · rw [importCurrentModule_of_name css fields name app' hname hne] at hm
      obtain ⟨a, ha, _⟩ := switchModuleAny_syntaxError css name app' hsafe hcss
      rw [ha] at hm
      cases hm

/-- Witness of C15 (amended): from the start page, the shortcut Alt+3 and an
imported file `{"currentModule": "tech"}` keep the name among the four; the
imported file `{"apiKey": "k", "currentModule": "foo"}` makes `foo` the active
name, and the imported file `{"apiKey": 123, "currentModule": "foo"}` leaves
the active name `apod`. -/
theorem currentModule_invariant_witness :
    (NASAApiExplorer.init Storage.empty).currentModule ∈ moduleNames ∧
      (onKeydown ⟨true, false, false, false, "3"⟩
        (NASAApiExplorer.init Storage.empty)).currentModule ∈ moduleNames ∧
      (importConfig (fun _ => .noElement) (.object [("currentModule", .str "tech")])
        (NASAApiExplorer.init Storage.empty)).currentModule ∈ moduleNames ∧
      (importConfig (fun _ => .noElement)
        (.object [("apiKey", .str "k"), ("currentModule", .str "foo")])
        (NASAApiExplorer.init Storage.empty)).currentModule = "foo" ∧
      (importConfig (fun _ => .noElement)
        (.object [("apiKey", .num 123), ("currentModule", .str "foo")])
        (NASAApiExplorer.init Storage.empty)).currentModule = "apod" :=
  ⟨by decide,
   (currentModule_invariant (NASAApiExplorer.init Storage.empty) (by decide)).2.1
      ⟨true, false, false, false, "3"⟩,
   (currentModule_invariant (NASAApiExplorer.init Storage.empty) (by decide)).2.2.2.2.1
      (fun _ => .noElement) (.object [("currentModule", .str "tech")])
      (by
        intro fields h _
        cases h
        exact ⟨"tech", by decide, rfl⟩),
   (currentModule_invariant (NASAApiExplorer.init Storage.empty)
      (by decide)).2.2.2.2.2.2.1
      (fun _ => .noElement) [("apiKey", .str "k"), ("currentModule", .str "foo")] "foo"
      (by decide) (by decide) (Or.inl (by decide)) (Or.inr ⟨"k", by decide⟩),
   (currentModule_invariant (NASAApiExplorer.init Storage.empty)
      (by decide)).2.2.2.2.2.2.2.1
      (fun _ => .noElement) [("apiKey", .num 123), ("currentModule", .str "foo")]
      (by decide) (fun key h => JSValue.noConfusion h)⟩

/-! ## Claims on key validation and shortcuts -/

/-- C16, as stated, fails: a probe answered with status 204 yields the success
notification, not the inconclusive one. -/
theorem validateApiKey_status_204 :
    (validateApiKey (α := Unit) (fun _ => .ok ⟨204, "No Content", .ok ()⟩) "k"
        (NASAApiExplorer.init Storage.empty)).notifications =
      [⟨"API Key válida y funcionando correctamente", "success"⟩] := by
  decide

/-- C16, amended: for every status of the response to the probe request of
`validateApiKey`, a status from 200 to 299 yields the success notification (and
the call that loads today's picture when the current module is `apod`), 403
yields the invalid-key notification, 429 the valid-but-rate-limited one, and
every other status the inconclusive one; the storage is never written. -/
theorem validateApiKey_by_status {α : Type} (fetch : Fetch α) (apiKey : String)
    (app : NASAApiExplorer) (response : Response α)
    (hfetch : fetch (buildUrl app.storage BASE_URLS.APOD [("count", .num 1)]).1 =
      .ok response) :
    (200 ≤ response.status ∧ response.status ≤ 299 →
        (validateApiKey fetch apiKey app).notifications = app.notifications ++
            [⟨"API Key válida y funcionando correctamente", "success"⟩] ∧
          (validateApiKey fetch apiKey app).calls =
            if app.currentModule = "apod" then app.calls ++ [.loadTodaysAPOD]
            else app.calls) ∧
      (response.status = 403 →
        (validateApiKey fetch apiKey app).notifications = app.notifications ++
            [⟨"API Key inválida. Verifica que sea correcta.", "error"⟩] ∧
          (validateApiKey fetch apiKey app).calls = app.calls) ∧
      (response.status = 429 →
        (validateApiKey fetch apiKey app).notifications = app.notifications ++
            [⟨"API Key válida pero límite de peticiones excedido", "warning"⟩] ∧
          (validateApiKey fetch apiKey app).calls = app.calls) ∧
      (¬ (200 ≤ response.status ∧ response.status ≤ 299) → response.status ≠ 403 →
        response.status ≠ 429 →
        (validateApiKey fetch apiKey app).notifications = app.notifications ++
            [⟨"No se pudo validar la API Key", "warning"⟩] ∧
          (validateApiKey fetch apiKey app).calls = app.calls) ∧
      (validateApiKey fetch apiKey app).storage = app.storage ∧
      (validateApiKey fetch apiKey app).currentModule = app.currentModule := by
  have hrun : validateApiKey fetch apiKey app =
      if response.ok then
        if app.currentModule = "apod" then
          { app.notify "API Key válida y funcionando correctamente" "success" with
            calls := app.calls ++ [.loadTodaysAPOD] }
        else app.notify "API Key válida y funcionando correctamente" "success"
      else if response.status = 403 then
        app.notify "API Key inválida. Verifica que sea correcta." "error"
      else if response.status = 429 then
        app.notify "API Key válida pero límite de peticiones excedido" "warning"
      else
        app.notify "No se pudo validar la API Key" "warning" := by
    simp only [validateApiKey, hfetch]
    rfl
  have hok : response.ok = true ↔ 200 ≤ response.status ∧ response.status ≤ 299 := by
    simp [Response.ok]
  refine ⟨?_, ?_, ?_, ?_, ?_, ?_⟩
  · intro hrange
    rw [hrun, if_pos (hok.2 hrange)]
    split_ifs <;> exact ⟨rfl, rfl⟩
  · intro h403
    have hnot : ¬ response.ok = true := by
      rw [hok]
      omega
    rw [hrun, if_neg hnot, if_pos h403]
    exact ⟨rfl, rfl⟩
  · intro h429
    have hnot : ¬ response.ok = true := by
      rw [hok]
      omega
    rw [hrun, if_neg hnot, if_neg (by omega), if_pos h429]
    exact ⟨rfl, rfl⟩
  · intro hrange h403 h429
    rw [hrun, if_neg (fun h => hrange (hok.1 h)), if_neg h403, if_neg h429]
    exact ⟨rfl, rfl⟩
  · rw [hrun]
    split_ifs <;> rfl
  · rw [hrun]
    split_ifs <;> rfl

/-- Witness of C16 (amended): a probe answered with status 403. -/
theorem validateApiKey_by_status_witness :
    (fun _ => Except.ok ⟨403, "Forbidden", .ok ()⟩ : Fetch Unit)
        (buildUrl (NASAApiExplorer.init Storage.empty).storage BASE_URLS.APOD
          [("count", .num 1)]).1 = .ok ⟨403, "Forbidden", .ok ()⟩ ∧
      (validateApiKey (fun _ => Except.ok ⟨403, "Forbidden", .ok ()⟩ : Fetch Unit) "k"
          (NASAApiExplorer.init Storage.empty)).notifications =
        (NASAApiExplorer.init Storage.empty).notifications ++
          [⟨"API Key inválida. Verifica que sea correcta.", "error"⟩] :=
  ⟨rfl,
   ((validateApiKey_by_status (fun _ => Except.ok ⟨403, "Forbidden", .ok ()⟩ : Fetch Unit)
      "k" (NASAApiExplorer.init Storage.empty) ⟨403, "Forbidden", .ok ()⟩ rfl).2.1 rfl).1⟩

/-- The shortcut listener switches exactly on Alt without Ctrl and Shift and a
key from `1` to `4`, to the module of that key; the Meta key is not read. -/
theorem keydownTarget_eq_some_iff (e : KeyboardEvent) (moduleId : String) :
    keydownTarget e = some moduleId ↔
      e.altKey = true ∧ e.ctrlKey = false ∧ e.shiftKey = false ∧
        ((e.key = "1" ∧ moduleId = "apod") ∨ (e.key = "2" ∧ moduleId = "wms") ∨
          (e.key = "3" ∧ moduleId = "mars") ∨ (e.key = "4" ∧ moduleId = "tech")) := by
  unfold keydownTarget
  by_cases hmods : (e.altKey && !e.ctrlKey && !e.shiftKey) = true
  · have hm : e.altKey = true ∧ e.ctrlKey = false ∧ e.shiftKey = false := by
      simpa [and_assoc] using hmods
    rw [if_pos hmods]
    by_cases h1 : e.key = "1"
    · simp [h1, hm, eq_comm]
    · by_cases h2 : e.key = "2"
      · simp [h2, hm, eq_comm]
      · by_cases h3 : e.key = "3"
        · simp [h3, hm, eq_comm]
        · by_cases h4 : e.key = "4"
          · simp [h4, hm, eq_comm]
          · simp [h1, h2, h3, h4]
  · rw [if_neg hmods]
    have hm : ¬ (e.altKey = true ∧ e.ctrlKey = false ∧ e.shiftKey = false) := by
      simpa [and_assoc] using hmods
    constructor
    · intro h
      cases h
    · intro h
      exact absurd ⟨h.1, h.2.1, h.2.2.1⟩ hm

/-- C17 at its failing input: a `keydown` of the key `1` with Alt and Meta both
held switches to `apod`; the listener tests `ctrlKey` and `shiftKey` but not
`metaKey`. -/
theorem onKeydown_with_meta :
    keydownTarget ⟨true, false, false, true, "1"⟩ = some "apod" ∧
      (onKeydown ⟨true, false, false, true, "1"⟩
        { NASAApiExplorer.init Storage.empty with currentModule := "tech" }).currentModule =
        "apod" := by
  decide

/-! ## Claims on the query responses -/

theorem isValidTech_iff (item : TechItem) : isValidTech item = true ↔ item.Showable := by
  obtain ⟨links, data, href⟩ := item
  unfold isValidTech TechItem.Showable
  cases links with
  | none => simp
  | some links =>
    cases data with
    | none => simp
    | some records =>
      cases records with
      | nil => simp
      | cons first rest =>
        cases hd : first.description with
        | none => simp [hd]
        | some description =>
          cases links <;> simp [hd]

theorem filter_isValidTech (items : List TechItem) :
    items.filter isValidTech = items.filter fun item => decide item.Showable := by
  apply List.filter_congr
  intro item _
  by_cases hs : item.Showable
  · simp [hs, (isValidTech_iff item).2 hs]
  · have : isValidTech item = false := by
      cases hv : isValidTech item
      · rfl
      · exact absurd ((isValidTech_iff item).1 hv) hs
    simp [hs, this]

/-- The tech-image search on a response with status 2xx and a parsed body, by
the valid items of the body. -/
theorem searchTechnologies_of_body (fetch : Fetch TechData) (query limit : Option String)
    (m : TechTransferModule) (response : Response TechData) (data : TechData)
    (hquery : orString query (trim m.searchInput) ≠ "")
    (hfetch : fetch (techSearchUrl (orString query (trim m.searchInput))
      (orString limit m.limitSelect)) = .ok response)
    (hok : response.ok = true) (hbody : response.body = .ok data) :
    (((responseItems data).filter isValidTech = [] ∧
        ∃ message, searchTechnologies fetch query limit m =
          { m with loadingHidden := true, results := .error message }) ∨
      ((responseItems data).filter isValidTech ≠ [] ∧
        searchTechnologies fetch query limit m =
          { m with loadingHidden := true,
                   results := .technologies (orString query (trim m.searchInput))
                     ((responseItems data).filter isValidTech),
                   currentTech := (responseItems data).filter isValidTech })) := by
  have hq : (orString query (trim m.searchInput) == "") = false := by simpa using hquery
  obtain ⟨collection⟩ := data
  cases collection with
  | none =>
    left
    refine ⟨rfl, ?_⟩
    simp only [searchTechnologies, searchTechnologiesTry, TechTransferModule.showLoading,
      TechTransferModule.showError, if_true, hq, Bool.false_eq_true, if_false, hfetch, hok,
      Bool.not_true, hbody, Option.bind]
    exact ⟨_, rfl⟩
  | some collection =>
    obtain ⟨items⟩ := collection
    cases items with
    | none =>
      left
      refine ⟨rfl, ?_⟩
      simp only [searchTechnologies, searchTechnologiesTry, TechTransferModule.showLoading,
        TechTransferModule.showError, if_true, hq, Bool.false_eq_true, if_false, hfetch, hok,
        Bool.not_true, hbody, Option.bind]
      exact ⟨_, rfl⟩
    | some items =>
      cases items with
      | nil =>
        left
        refine ⟨rfl, ?_⟩
        simp only [searchTechnologies, searchTechnologiesTry, TechTransferModule.showLoading,
          TechTransferModule.showError, if_true, hq, Bool.false_eq_true, if_false, hfetch, hok,
          Bool.not_true, hbody, Option.bind]
        exact ⟨_, rfl⟩
      | cons item items =>
        have hitems : responseItems ⟨some ⟨some (item :: items)⟩⟩ = item :: items := rfl
        rw [hitems]
        by_cases hvalid : (item :: items).filter isValidTech = []
        · left
          refine ⟨hvalid, ?_⟩
          simp only [searchTechnologies, searchTechnologiesTry, TechTransferModule.showLoading,
            TechTransferModule.showError, if_true, hq, Bool.false_eq_true, if_false, hfetch,
            hok, Bool.not_true, hbody, Option.bind, hvalid, List.length_nil, beq_self_eq_true]
          exact ⟨_, rfl⟩
        · right
          refine ⟨hvalid, ?_⟩
          have hlen : (((item :: items).filter isValidTech).length == 0) = false := by
            simpa using hvalid
          simp only [searchTechnologies, searchTechnologiesTry, TechTransferModule.showLoading,
            TechTransferModule.showError, if_true, hq, Bool.false_eq_true, if_false, hfetch,
            hok, Bool.not_true, hbody, Option.bind, hlen, displayTechnologies]

/-- C18: for every search whose response has a 2xx status and a parsed body,
what is displayed is exactly the items of the response, in the order returned,
that have at least one link and a non-empty description in their first data
record, and the module shows the error card instead if and only if that list is
empty. -/
theorem searchTechnologies_display (fetch : Fetch TechData) (query limit : Option String)
    (m : TechTransferModule) (response : Response TechData) (data : TechData)
    (hquery : orString query (trim m.searchInput) ≠ "")
    (hfetch : fetch (techSearchUrl (orString query (trim m.searchInput))
      (orString limit m.limitSelect)) = .ok response)
    (hok : response.ok = true) (hbody : response.body = .ok data) :
    (((responseItems data).filter fun item => decide item.Showable) ≠ [] →
        (searchTechnologies fetch query limit m).results =
            .technologies (orString query (trim m.searchInput))
              ((responseItems data).filter fun item => decide item.Showable) ∧
          (searchTechnologies fetch query limit m).currentTech =
            (responseItems data).filter fun item => decide item.Showable) ∧
      ((∃ message, (searchTechnologies fetch query limit m).results = .error message) ↔
        ((responseItems data).filter fun item => decide item.Showable) = []) := by
  rw [← filter_isValidTech]
  rcases searchTechnologies_of_body fetch query limit m response data hquery hfetch hok hbody
    with ⟨hempty, message, hrun⟩ | ⟨hvalid, hrun⟩
  · refine ⟨fun h => absurd hempty h, ?_⟩
    constructor
    · intro _
      exact hempty
    · intro _
      exact ⟨message, by rw [hrun]⟩
  · refine ⟨fun _ => ⟨by rw [hrun], by rw [hrun]⟩, ?_⟩
    constructor
    · rintro ⟨message, hmsg⟩
      rw [hrun] at hmsg
      cases hmsg
    · intro h
      exact absurd h hvalid

/-- Witness of C18: the search for `space` answered with three valid items. -/
theorem searchTechnologies_display_witness :
    orString none (trim sampleTechModule.searchInput) ≠ "" ∧
      ((searchTechnologies (techNetwork 3) none none sampleTechModule).results =
          .technologies (orString none (trim sampleTechModule.searchInput))
            ((responseItems ⟨some ⟨some (List.replicate 3 sampleTechItem)⟩⟩).filter
              fun item => decide item.Showable)) :=
  ⟨by decide,
   ((searchTechnologies_display (techNetwork 3) none none sampleTechModule
      ⟨200, "OK", .ok ⟨some ⟨some (List.replicate 3 sampleTechItem)⟩⟩⟩
      ⟨some ⟨some (List.replicate 3 sampleTechItem)⟩⟩ (by decide) rfl (by decide) rfl).1
      (by decide)).1⟩

/-- C20 at its failing input: a successful search response with 21 valid items
puts 21 result cards on the page, one more than `MAX_TECH_RESULTS`; the
tech-image module never reads that cap. -/
theorem searchTechnologies_exceeds_cap :
    (searchTechnologies (techNetwork 21) none none sampleTechModule).results =
        .technologies "space" (List.replicate 21 sampleTechItem) ∧
      DEFAULTS.MAX_TECH_RESULTS < (List.replicate 21 sampleTechItem).length := by
  decide

/-- C19: for every rover-photo query that passes validation and whose response
has a 2xx status and a parsed body with photo list `P`: when `P` is missing or
empty the module shows the error card and keeps `currentPhotos`; otherwise
`currentPhotos`, which is what the grid displays, is the first `min(|P|, 50)`
photos of `P` in the order returned, so at most 50. -/
theorem getMarsPhotos_display (st : Storage) (fetch : Fetch MarsData) (sol : JSValue)
    (m : MarsRoverModule) (url : URL) (response : Response MarsData) (data : MarsData)
    (hrequest : getMarsPhotosRequest st m.solInput m.cameraSelect sol = .ok url)
    (hfetch : fetch url = .ok response)
    (hok : response.ok = true) (hbody : response.body = .ok data) :
    (data.photos = none ∨ data.photos = some [] →
        (∃ message, (getMarsPhotos st fetch sol m).results = .error message) ∧
          (getMarsPhotos st fetch sol m).currentPhotos = m.currentPhotos) ∧
      (∀ P, data.photos = some P → P ≠ [] →
        (getMarsPhotos st fetch sol m).currentPhotos = P.take 50 ∧
          (getMarsPhotos st fetch sol m).results =
            .photos (sol.or (.str m.solInput)).toJSString (P.take 50) ∧
          (getMarsPhotos st fetch sol m).currentPhotos.length = min P.length 50 ∧
          (getMarsPhotos st fetch sol m).currentPhotos.length ≤ 50) := by
  obtain ⟨photos⟩ := data
  constructor
  · intro hmissing
    have hrun : getMarsPhotos st fetch sol m =
        { m with loadingHidden := true,
                 results := .error ("No se encontraron fotos para el sol " ++
                   (sol.or (.str m.solInput)).toJSString ++
                   (if m.cameraSelect != "" then " con la cámara " ++ m.cameraSelect else "") ++
                   ". Intenta con otro sol o cámara.") } := by
      rcases hmissing with h | h <;> simp only at h <;> subst h <;>
        simp only [getMarsPhotos, getMarsPhotosTry, MarsRoverModule.showLoading,
          MarsRoverModule.showError, if_true, hrequest, hfetch, hok, Bool.not_true,
          Bool.false_eq_true, if_false, hbody]
    rw [hrun]
    exact ⟨⟨_, rfl⟩, rfl⟩
  · intro P hP hne
    simp only [Option.some.injEq] at hP
    subst hP
    cases P with
    | nil => exact absurd rfl hne
    | cons photo rest =>
      have hrun : getMarsPhotos st fetch sol m =
          { m with loadingHidden := true,
                   results := .photos (sol.or (.str m.solInput)).toJSString
                     ((photo :: rest).take 50),
                   currentPhotos := (photo :: rest).take 50 } := by
        simp only [getMarsPhotos, getMarsPhotosTry, MarsRoverModule.showLoading,
          MarsRoverModule.showError, if_true, hrequest, hfetch, hok, Bool.not_true,
          Bool.false_eq_true, if_false, hbody, displayMarsPhotos, DEFAULTS.MAX_MARS_PHOTOS]
      rw [hrun]
      refine ⟨rfl, rfl, ?_, ?_⟩
      · simp only [List.length_take]
        omega
      · simp only [List.length_take]
        omega

set_option exponentiation.threshold 5000 in
set_option maxRecDepth 100000 in
/-- Witness of C19: sol 1000 answered with 60 photos. -/
theorem getMarsPhotos_display_witness :
    getMarsPhotosRequest Storage.empty sampleMarsModule.solInput
        sampleMarsModule.cameraSelect .null =
        .ok ⟨"https://api.nasa.gov/mars-photos/api/v1/rovers/curiosity/photos",
          [("sol", "1000"), ("page", "1"), ("api_key", DEFAULT_API_KEY)]⟩ ∧
      (getMarsPhotos Storage.empty (marsNetwork 60) .null sampleMarsModule).currentPhotos.length ≤
        50 :=
  ⟨by decide,
   ((getMarsPhotos_display Storage.empty (marsNetwork 60) .null sampleMarsModule
      ⟨"https://api.nasa.gov/mars-photos/api/v1/rovers/curiosity/photos",
        [("sol", "1000"), ("page", "1"), ("api_key", DEFAULT_API_KEY)]⟩
      ⟨200, "OK", .ok ⟨some ((List.range 60).map fun i =>
        ⟨i, 1000, "MAST", "https://mars.nasa.gov/p.jpg", "2015-05-30", "Curiosity"⟩)⟩⟩
      ⟨some ((List.range 60).map fun i =>
        ⟨i, 1000, "MAST", "https://mars.nasa.gov/p.jpg", "2015-05-30", "Curiosity"⟩)⟩
      (by decide) rfl (by decide) rfl).2 _ rfl (by decide)).2.2.2⟩

/-! ## Claims on the helpers of `NASAConfig` and the map-tile address -/

/-- The length of what `truncateText` returns, and the text it leaves alone. -/
theorem truncateText_length (text : String) (n : Nat) :
    (text.length ≤ n → truncateText text n = text) ∧
      (n < text.length → (truncateText text n).length = n + 3) := by
  constructor
  · intro h
    simp [truncateText, h]
  · intro h
    have hne : text ≠ "" := by
      intro h0
      rw [h0] at h
      exact absurd h (Nat.not_lt_zero n)
    have hnot : ¬ text.length ≤ n := Nat.not_le.2 h
    have hcond : (text == "" || decide (text.length ≤ n)) = false := by
      simp [hne, hnot]
    have hlen : min n text.data.length = n := Nat.min_eq_left (Nat.le_of_lt h)
    unfold truncateText
    rw [hcond]
    simp only [Bool.false_eq_true, if_false, String.length_append]
    show (text.data.take n).length + 3 = n + 3
    rw [List.length_take, hlen]

/-- C24 at its failing input: `truncateText("abcdef", 3)` is `abc...`, a string
of 6 characters, more than the maximum length 3. -/
theorem truncateText_exceeds_length :
    truncateText "abcdef" 3 = "abc..." ∧ 3 < (truncateText "abcdef" 3).length := by
  decide

/-- The calls that `handleModuleSwitch('apod')` leaves: today's picture is
loaded exactly when the result area is empty and `getApiKey()` is the text
`DEMO_KEY`. -/
theorem handleModuleSwitch_apod_calls (app : NASAApiExplorer) :
    (handleModuleSwitch "apod" app).calls =
      if app.apodResults = "" ∧ getApiKey app.storage = "DEMO_KEY" then
        app.calls ++ [.loadTodaysAPOD]
      else app.calls := by
  unfold handleModuleSwitch
  by_cases h1 : app.apodResults = ""
  · by_cases h2 : getApiKey app.storage = "DEMO_KEY"
    · simp [h1, h2]
    · simp [h1, h2]
  · simp [h1]

/-- C25 at its failing input: with nothing stored by the user and an empty
result area, the switch to `apod` loads nothing, while with `DEMO_KEY` stored
it loads today's picture. -/
theorem switchModule_apod_without_key :
    (NASAApiExplorer.init Storage.empty).storage.getItem "nasa_api_key" = none ∧
      (NASAApiExplorer.init Storage.empty).apodResults = "" ∧
      (switchModule "apod" (NASAApiExplorer.init Storage.empty)).calls = [] ∧
      (switchModule "apod"
        (NASAApiExplorer.init (Storage.empty.setItem "nasa_api_key" "DEMO_KEY"))).calls =
        [.loadTodaysAPOD] := by
  decide

/-- C23, as stated, fails: for the same layer and date the address built by
`WMSModule.buildWMSUrl` differs from that of `nasaConfig.buildWmsUrl` with
default options in `TRANSPARENT` and in `BBOX`. -/
theorem buildWMSUrl_differs :
    (buildWMSUrl "MODIS_Terra_Aerosol" "2024-01-01").get "TRANSPARENT" = some "false" ∧
      (buildWmsUrl "MODIS_Terra_Aerosol" "2024-01-01" []).get "TRANSPARENT" = some "true" ∧
      (buildWMSUrl "MODIS_Terra_Aerosol" "2024-01-01").get "BBOX" =
        some "-90,-180,90,180" ∧
      (buildWmsUrl "MODIS_Terra_Aerosol" "2024-01-01" []).get "BBOX" =
        some "-180,-90,180,90" ∧
      buildWMSUrl "MODIS_Terra_Aerosol" "2024-01-01" ≠
        buildWmsUrl "MODIS_Terra_Aerosol" "2024-01-01" [] := by
  decide

/-- C23, amended: the map-tile module builds the address of its request itself;
for every layer and date that address has the base and the parameter names, in
the same order, of `nasaConfig.buildWmsUrl(layer, date)` with default options,
and the same value for every parameter other than `TRANSPARENT` (`false`
against `true`) and `BBOX` (`-90,-180,90,180` against `-180,-90,180,90`). -/
theorem buildWMSUrl_against_config (layer date : String) :
    (buildWMSUrl layer date).base = (buildWmsUrl layer date []).base ∧
      (buildWMSUrl layer date).searchParams.map Prod.fst =
        (buildWmsUrl layer date []).searchParams.map Prod.fst ∧
      (∀ key, key ≠ "TRANSPARENT" → key ≠ "BBOX" →
        (buildWMSUrl layer date).get key = (buildWmsUrl layer date []).get key) ∧
      (buildWMSUrl layer date).get "TRANSPARENT" = some "false" ∧
      (buildWmsUrl layer date []).get "TRANSPARENT" = some "true" ∧
      (buildWMSUrl layer date).get "BBOX" = some "-90,-180,90,180" ∧
      (buildWmsUrl layer date []).get "BBOX" = some "-180,-90,180,90" := by
  have hconfig : buildWmsUrl layer date [] =
      { base := BASE_URLS.WMS_BASE.base,
        searchParams :=
          [("SERVICE", "WMS"), ("VERSION", "1.3.0"), ("REQUEST", "GetMap"),
           ("FORMAT", "image/jpeg"), ("TRANSPARENT", "true"), ("LAYERS", layer),
           ("CRS", "EPSG:4326"), ("STYLES", ""), ("WIDTH", "1024"), ("HEIGHT", "512"),
           ("BBOX", "-180,-90,180,90"), ("TIME", date)] } := by
    have h1024 : (JSValue.num DEFAULTS.WMS_WIDTH).toJSString = "1024" := by decide
    have h512 : (JSValue.num DEFAULTS.WMS_HEIGHT).toJSString = "512" := by decide
    have hstr : ∀ t : String, (JSValue.str t).toJSString = t := fun _ => rfl
    have hor : ∀ d : JSValue, JSValue.undefined.or d = d := fun _ => rfl
    simp [buildWmsUrl, JSObject.keys, JSObject.get, List.lookup, URL.append,
      BASE_URLS.WMS_BASE, hor, h1024, h512, hstr, DEFAULTS.WMS_IMAGE_FORMAT]
  rw [hconfig]
  refine ⟨rfl, rfl, ?_, rfl, rfl, rfl, rfl⟩
  intro key h1 h2
  simp only [buildWMSUrl, URL.get, List.lookup]
  have hb1 : (key == "TRANSPARENT") = false := by simpa using h1
  have hb2 : (key == "BBOX") = false := by simpa using h2
  simp only [hb1, hb2]

/-! ## Claims on the internal search history -/

theorem HistoryInvariant_congr (s s' : DynamicSearch)
    (h1 : s'.searchHistory = s.searchHistory)
    (h2 : s'.currentSearchIndex = s.currentSearchIndex) (hinv : HistoryInvariant s) :
    HistoryInvariant s' := by
  unfold HistoryInvariant at *
  rw [h1, h2]
  exact hinv

theorem addToSearchHistory_invariant (q : String) (s : DynamicSearch)
    (hinv : HistoryInvariant s) : HistoryInvariant (addToSearchHistory q s) := by
  unfold addToSearchHistory
  split_ifs with hne
  · refine ⟨?_, rfl⟩
    show (s.searchHistory ++ [q]).Chain' (fun a b => a ≠ b)
    rw [List.chain'_append]
    refine ⟨hinv.1, List.chain'_singleton q, ?_⟩
    intro x hx y hy
    simp only [List.head?_cons, Option.mem_def, Option.some.injEq] at hy
    subst hy
    intro hxy
    subst hxy
    have hlast : s.searchHistory.getLast? = some x := hx
    simp [hlast] at hne
  · exact hinv

theorem performSearch_invariant (h : Host) (s : DynamicSearch)
    (hinv : HistoryInvariant s) : HistoryInvariant (performSearch h s) := by
  by_cases hq : trim s.searchInput = ""
  · have hrun : performSearch h s = showAllPosts s := by simp [performSearch, hq]
    rw [hrun]
    obtain ⟨_, f2, f3, _, _⟩ := displayPosts_frame s.posts "" false s
    exact HistoryInvariant_congr s _ f2 f3 hinv
  · obtain ⟨_, f2, f3, _⟩ := performSearch_fields h s hq
    exact HistoryInvariant_congr _ _ f2 f3 (addToSearchHistory_invariant _ s hinv)

/-- C27: the internal search history never holds two equal terms side by side
and `currentSearchIndex` is always `searchHistory.length - 1`: this holds after
the constructor (empty history, index -1), is kept by every call of
`addToSearchHistory`, and so holds after every sequence of calls and after
every sequence of searches. -/
theorem searchHistory_invariant (h : Host) (location : String) (s : DynamicSearch)
    (q : String) (terms : List String) (hinv : HistoryInvariant s) :
    HistoryInvariant (DynamicSearch.init location) ∧
      (DynamicSearch.init location).searchHistory = [] ∧
      (DynamicSearch.init location).currentSearchIndex = -1 ∧
      HistoryInvariant (addToSearchHistory q s) ∧
      HistoryInvariant (terms.foldl (fun s t => addToSearchHistory t s) s) ∧
      HistoryInvariant (terms.foldl (fun s t => search h t s) s) := by
  refine ⟨⟨List.chain'_nil, rfl⟩, rfl, rfl, addToSearchHistory_invariant q s hinv, ?_, ?_⟩
  · induction terms generalizing s with
    | nil => exact hinv
    | cons t rest ih => exact ih _ (addToSearchHistory_invariant t s hinv)
  · induction terms generalizing s with
    | nil => exact hinv
    | cons t rest ih =>
      apply ih
      apply performSearch_invariant
      exact HistoryInvariant_congr s _ rfl rfl hinv

/-- Witness of C27: the terms `aut`, `aut`, `est` searched from the sample
list. -/
theorem searchHistory_invariant_witness :
    HistoryInvariant sampleSearch ∧
      HistoryInvariant (["aut", "aut", "est"].foldl
        (fun s t => search asciiHost t s) sampleSearch) :=
  ⟨⟨List.chain'_nil, rfl⟩,
   (searchHistory_invariant asciiHost "" sampleSearch "aut" ["aut", "aut", "est"]
      ⟨List.chain'_nil, rfl⟩).2.2.2.2.2⟩

/-! ## Claims on the random queries -/

/-- The value of `getRandomSol` for a draw below 1, by the rounded product. -/
theorem getRandomSol_eq (n : Nat) (hvalue : JSNumber.isValue ⟨(n : Int)⟩ = true)
    (hlt : n < JSNumber.one) :
    getRandomSol ⟨(n : Int)⟩ =
      ((roundUnits (n * (3000 * JSNumber.one)) JSNumber.one / JSNumber.one : Nat) : Int) + 1 := by
  obtain ⟨_, _, hub⟩ := product_bounds n hvalue hlt
  have hone := one_pos
  have hf : roundUnits (n * (3000 * JSNumber.one)) JSNumber.one / JSNumber.one < 3000 :=
    (Nat.div_lt_iff_lt_mul hone).2 hub
  generalize hP : roundUnits (n * (3000 * JSNumber.one)) JSNumber.one / JSNumber.one = f at hf
  have h3000 : JSNumber.ofInt 3000 = ⟨((3000 * JSNumber.one : Nat) : Int)⟩ :=
    ofInt_nat 3000 (by decide)
  have h1 : JSNumber.ofInt 1 = ⟨((1 * JSNumber.one : Nat) : Int)⟩ := ofInt_nat 1 (by decide)
  have hprod : JSNumber.mul ⟨(n : Int)⟩ (JSNumber.ofInt 3000) =
      ⟨(roundUnits (n * (3000 * JSNumber.one)) JSNumber.one : Int)⟩ := by
    rw [h3000]
    have := mul_units_of_nat n (3000 * JSNumber.one)
    cases hx : JSNumber.mul ⟨(n : Int)⟩ ⟨((3000 * JSNumber.one : Nat) : Int)⟩ with
    | mk units =>
      rw [hx] at this
      simp only at this
      rw [this]
  have hfloor : (JSNumber.mul ⟨(n : Int)⟩ (JSNumber.ofInt 3000)).floor = (f : Int) := by
    rw [hprod, floor_of_nat, hP]
  have hfloored : JSNumber.ofInt (f : Int) = ⟨((f * JSNumber.one : Nat) : Int)⟩ :=
    ofInt_nat f (by omega)
  have hsum : (JSNumber.add ⟨((f * JSNumber.one : Nat) : Int)⟩
      ⟨((1 * JSNumber.one : Nat) : Int)⟩).units = (((f + 1) * JSNumber.one : Nat) : Int) := by
    rw [add_units_of_nat]
    have hexact := roundUnits_exact (f + 1) 1074 (by omega)
    have hsame : f * JSNumber.one + 1 * JSNumber.one = (f + 1) * 2 ^ 1074 := by
      show f * JSNumber.one + 1 * JSNumber.one = (f + 1) * JSNumber.one
      ring
    rw [hsame, hexact]
    rfl
  unfold getRandomSol
  simp only
  rw [hfloor, hfloored, h1]
  unfold JSNumber.floor
  rw [hsum]
  have : (((f + 1) * JSNumber.one : Nat) : Int) / (JSNumber.one : Int) = ((f + 1 : Nat) : Int) := by
    rw [Nat.cast_mul]
    exact Int.mul_ediv_cancel _ (by exact_mod_cast (Nat.pos_iff_ne_zero.1 hone))
  rw [this]
  push_cast
  rfl

/-- The value of `getRandomSol` for a draw below 1: one more than the floor of
the rounded product, which is the whole number `⌊3000 r⌋` of the real product
or the next one, and at most 2999. -/
theorem getRandomSol_bounds (random : JSNumber) (hvalue : random.isValue = true)
    (h0 : 0 ≤ random.units) (h1 : random.units < (JSNumber.one : Int)) :
    (getRandomSol random = exactRandomSol random ∨
        getRandomSol random = exactRandomSol random + 1) ∧
      getRandomSol random = (JSNumber.mul random (JSNumber.ofInt 3000)).floor + 1 ∧
      1 ≤ getRandomSol random ∧ getRandomSol random ≤ 3000 := by
  obtain ⟨units⟩ := random
  simp only at h0 h1
  obtain ⟨n, rfl⟩ := Int.eq_ofNat_of_zero_le h0
  have hlt : n < JSNumber.one := by exact_mod_cast h1
  have hone := one_pos
  obtain ⟨hlo, hhi, hub⟩ := product_bounds n hvalue hlt
  have heq := getRandomSol_eq n hvalue hlt
  have hprodfloor : (JSNumber.mul ⟨(n : Int)⟩ (JSNumber.ofInt 3000)).floor =
      ((roundUnits (n * (3000 * JSNumber.one)) JSNumber.one / JSNumber.one : Nat) : Int) := by
    have h3000 : JSNumber.ofInt 3000 = ⟨((3000 * JSNumber.one : Nat) : Int)⟩ :=
      ofInt_nat 3000 (by decide)
    rw [h3000]
    unfold JSNumber.floor
    rw [mul_units_of_nat, Int.natCast_div]
  have hexact : exactRandomSol ⟨(n : Int)⟩ = ((n * 3000 / JSNumber.one : Nat) : Int) + 1 := by
    unfold exactRandomSol
    simp only [Int.natCast_div, Nat.cast_mul, Nat.cast_ofNat]
  have hf1 : n * 3000 / JSNumber.one ≤
      roundUnits (n * (3000 * JSNumber.one)) JSNumber.one / JSNumber.one :=
    (Nat.le_div_iff_mul_le hone).2 hlo
  have hf2 : roundUnits (n * (3000 * JSNumber.one)) JSNumber.one / JSNumber.one ≤
      n * 3000 / JSNumber.one + 1 := by
    calc roundUnits (n * (3000 * JSNumber.one)) JSNumber.one / JSNumber.one
        ≤ (n * 3000 / JSNumber.one + 1) * JSNumber.one / JSNumber.one :=
          Nat.div_le_div_right hhi
      _ = n * 3000 / JSNumber.one + 1 := Nat.mul_div_cancel _ hone
  have hf3 : roundUnits (n * (3000 * JSNumber.one)) JSNumber.one / JSNumber.one < 3000 :=
    (Nat.div_lt_iff_lt_mul hone).2 hub
  rw [heq, hexact, hprodfloor]
  generalize roundUnits (n * (3000 * JSNumber.one)) JSNumber.one / JSNumber.one = f at *
  generalize n * 3000 / JSNumber.one = e at *
  refine ⟨?_, rfl, ?_, ?_⟩
  · omega
  · omega
  · omega

set_option exponentiation.threshold 5000 in
set_option maxRecDepth 100000 in
/-- C26, as stated, fails: for the draw 0.3333333333333333, the Number value
`6004799503160661 * 2 ^ -54`, the real `3000 r` is below 1000, so
`⌊3000 r⌋ + 1` is 1000, but the product of the two Number values rounds to
1000 and `getRandomSol` returns 1001. -/
theorem getRandomSol_rounds_up :
    JSNumber.isValue ⟨((6004799503160661 * 2 ^ 1020 : Nat) : Int)⟩ = true ∧
      (⟨((6004799503160661 * 2 ^ 1020 : Nat) : Int)⟩ : JSNumber).units <
        (JSNumber.one : Int) ∧
      exactRandomSol ⟨((6004799503160661 * 2 ^ 1020 : Nat) : Int)⟩ = 1000 ∧
      getRandomSol ⟨((6004799503160661 * 2 ^ 1020 : Nat) : Int)⟩ = 1001 := by
  decide

/-- C26, amended: for every draw `r`, a Number value with `0 ≤ r < 1`,
`getRandomSol` returns one more than the floor of the product `r * 3000` of
Number values, which is `⌊3000 r⌋ + 1` for the real product or one more; it
lies between 1 and 3000, so the rover-photo query called with it passes the
sol checks and reaches the request; `getRandomSolPhotos` is that query, with
the sol written into the field. -/
theorem getRandomSol_passes (st : Storage) (solInput cameraSelect : String)
    (random : JSNumber) (hvalue : random.isValue = true) (h0 : 0 ≤ random.units)
    (h1 : random.units < (JSNumber.one : Int)) :
    getRandomSol random = (JSNumber.mul random (JSNumber.ofInt 3000)).floor + 1 ∧
      (getRandomSol random = exactRandomSol random ∨
        getRandomSol random = exactRandomSol random + 1) ∧
      1 ≤ getRandomSol random ∧ getRandomSol random ≤ 3000 ∧
      (∃ url, getMarsPhotosRequest st solInput cameraSelect (.num (getRandomSol random)) =
        .ok url) ∧
      (∀ (fetch : Fetch MarsData) (m : MarsRoverModule),
        getRandomSolPhotos st fetch random m =
          getMarsPhotos st fetch (.num (getRandomSol random))
            { m with solInput := toString (getRandomSol random) }) := by
  obtain ⟨hexact, hfloor, hlo, hhi⟩ := getRandomSol_bounds random hvalue h0 h1
  refine ⟨hfloor, hexact, hlo, hhi, ?_, fun _ _ => rfl⟩
  have hiff := getMarsPhotosRequest_argument st solInput cameraSelect (getRandomSol random)
    (by omega)
  cases hreq : getMarsPhotosRequest st solInput cameraSelect
      (.num (getRandomSol random)) with
  | ok url => exact ⟨url, rfl⟩
  | error msg =>
    have := hiff.mp ⟨msg, hreq⟩
    omega

set_option exponentiation.threshold 5000 in
set_option maxRecDepth 100000 in
/-- Witness of C26: the draw 0.5 gives sol 1501. -/
theorem getRandomSol_passes_witness :
    JSNumber.isValue ⟨((2 ^ 1073 : Nat) : Int)⟩ = true ∧
      (0 : Int) ≤ (⟨((2 ^ 1073 : Nat) : Int)⟩ : JSNumber).units ∧
      (⟨((2 ^ 1073 : Nat) : Int)⟩ : JSNumber).units < (JSNumber.one : Int) ∧
      getRandomSol ⟨((2 ^ 1073 : Nat) : Int)⟩ = 1501 ∧
      1 ≤ getRandomSol ⟨((2 ^ 1073 : Nat) : Int)⟩ ∧
      getRandomSol ⟨((2 ^ 1073 : Nat) : Int)⟩ ≤ 3000 :=
  ⟨by decide, by decide, by decide, by decide,
   (getRandomSol_passes Storage.empty "" "" ⟨((2 ^ 1073 : Nat) : Int)⟩
      (by decide) (by decide) (by decide)).2.2.1,
   (getRandomSol_passes Storage.empty "" "" ⟨((2 ^ 1073 : Nat) : Int)⟩
      (by decide) (by decide) (by decide)).2.2.2.1⟩

theorem yoe_bounds (doe : Int) (h0 : 0 ≤ doe) (h1 : doe ≤ 146096) :
    0 ≤ (doe - doe / 1460 + doe / 36524 - doe / 146096) / 365 ∧
    (doe - doe / 1460 + doe / 36524 - doe / 146096) / 365 ≤ 399 := by
  omega

set_option maxRecDepth 100000 in
set_option maxHeartbeats 4000000 in
theorem doy_bounds (doe yoe : Int) (h0 : 0 ≤ doe) (h1 : doe ≤ 146096)
    (hy : yoe = (doe - doe / 1460 + doe / 36524 - doe / 146096) / 365) :
    0 ≤ doe - (365 * yoe + yoe / 4 - yoe / 100) ∧ doe - (365 * yoe + yoe / 4 - yoe / 100) ≤ 365 := by
  have hb := yoe_bounds doe h0 h1
  rw [← hy] at hb
  obtain ⟨hb0, hb1⟩ := hb
  interval_cases yoe <;> omega


theorem month_day_bounds (doy : Int) (h0 : 0 ≤ doy) (h1 : doy ≤ 365) :
    0 ≤ (5 * doy + 2) / 153 ∧ (5 * doy + 2) / 153 ≤ 11 ∧
      1 ≤ doy - (153 * ((5 * doy + 2) / 153) + 2) / 5 + 1 ∧
      doy - (153 * ((5 * doy + 2) / 153) + 2) / 5 + 1 ≤ 31 := by
  have hmp : 0 ≤ (5 * doy + 2) / 153 ∧ (5 * doy + 2) / 153 ≤ 11 := by omega
  obtain ⟨hm0, hm1⟩ := hmp
  generalize hmp : (5 * doy + 2) / 153 = mp at *
  interval_cases mp <;> omega

/-- The day number of the date of a day number is that day number, from
0000-03-01 on. -/
theorem epochDay_civilFromDays (z : Int) (hz : -719468 ≤ z) :
    (civilFromDays z).epochDay = z := by
  have hera : 0 ≤ (z + 719468) / 146097 := by omega
  have hdoe0 : 0 ≤ z + 719468 - (z + 719468) / 146097 * 146097 := by omega
  have hdoe1 : z + 719468 - (z + 719468) / 146097 * 146097 ≤ 146096 := by omega
  generalize hera' : (z + 719468) / 146097 = era at *
  generalize hdoe : z + 719468 - era * 146097 = doe at *
  have hyb := yoe_bounds doe hdoe0 hdoe1
  have hdb := doy_bounds doe _ hdoe0 hdoe1 rfl
  generalize hyoe : (doe - doe / 1460 + doe / 36524 - doe / 146096) / 365 = yoe at *
  generalize hdoy : doe - (365 * yoe + yoe / 4 - yoe / 100) = doy at *
  have hmd := month_day_bounds doy hdb.1 hdb.2
  generalize hmp : (5 * doy + 2) / 153 = mp at *
  generalize hd : doy - (153 * mp + 2) / 5 + 1 = d at *
  have hciv : civilFromDays z =
      ⟨(if (if mp < 10 then mp + 3 else mp - 9) ≤ 2 then yoe + era * 400 + 1
          else yoe + era * 400).toNat,
        (if mp < 10 then mp + 3 else mp - 9).toNat, d.toNat⟩ := by
    simp only [civilFromDays, hera', hdoe, hyoe, hdoy, hmp, hd]
  rw [hciv]
  simp only [CivilDate.epochDay]
  obtain ⟨hm0, hm1, hd0, hd1⟩ := hmd
  obtain ⟨hy0, hy1⟩ := hyb
  by_cases hlt : mp < 10
  · simp only [hlt, if_true]
    have e1 : ((mp + 3).toNat : Int) = mp + 3 := Int.toNat_of_nonneg (by omega)
    have e2 : ((yoe + era * 400).toNat : Int) = yoe + era * 400 := Int.toNat_of_nonneg (by omega)
    have e3 : ((d.toNat : Nat) : Int) = d := Int.toNat_of_nonneg (by omega)
    have hm3 : ¬ (mp + 3 ≤ 2) := by omega
    have hm3' : ¬ ((mp + 3).toNat ≤ 2) := by omega
    simp only [hm3, hm3', if_false, e1, e2, e3]
    have q1 : (yoe + era * 400) / 400 = era := by omega
    have q2 : (mp + 3 + 9) % 12 = mp := by omega
    have q3 : yoe + era * 400 - era * 400 = yoe := by ring
    rw [q1, q2, q3]
    clear hyoe hmp e1 e2 e3 hm3' hciv q1 q2 q3 hera' hera hdoe0 hdoe1 hy0 hy1
    omega
  · simp only [hlt, if_false]
    have e1 : ((mp - 9).toNat : Int) = mp - 9 := Int.toNat_of_nonneg (by omega)
    have e2 : ((yoe + era * 400 + 1).toNat : Int) = yoe + era * 400 + 1 :=
      Int.toNat_of_nonneg (by omega)
    have e3 : ((d.toNat : Nat) : Int) = d := Int.toNat_of_nonneg (by omega)
    have hm3 : mp - 9 ≤ 2 := by omega
    have hm3' : (mp - 9).toNat ≤ 2 := by omega
    simp only [hm3, hm3', if_true, e1, e2, e3]
    have q0 : yoe + era * 400 + 1 - 1 = yoe + era * 400 := by ring
    have q1 : (yoe + era * 400) / 400 = era := by omega
    have q2 : (mp - 9 + 9) % 12 = mp := by omega
    have q3 : yoe + era * 400 - era * 400 = yoe := by ring
    rw [q0, q1, q2, q3]
    clear hyoe hmp e1 e2 e3 hm3' hciv q0 q1 q2 q3 hera' hera hdoe0 hdoe1 hy0 hy1
    omega



set_option maxRecDepth 100000 in
set_option maxHeartbeats 4000000 in
/-- A year counted from March that has a day number 365 ends in a leap
February. -/
theorem leap_of_last_day (doe yoe : Int) (h0 : 0 ≤ doe) (h1 : doe ≤ 146096)
    (hy : yoe = (doe - doe / 1460 + doe / 36524 - doe / 146096) / 365)
    (hd : doe - (365 * yoe + yoe / 4 - yoe / 100) = 365) :
    (yoe + 1) % 4 = 0 ∧ ((yoe + 1) % 100 ≠ 0 ∨ yoe + 1 = 400) := by
  have hb := yoe_bounds doe h0 h1
  rw [← hy] at hb
  obtain ⟨hb0, hb1⟩ := hb
  interval_cases yoe <;> omega

theorem isLeapYear_of_mod (n : Nat) (h4 : n % 4 = 0) (h : n % 100 ≠ 0 ∨ n % 400 = 0) :
    isLeapYear n = true := by
  unfold isLeapYear
  rcases h with h | h
  · simp [h4, h]
  · simp [h4, h]

/-- The date of a day number is a day of the calendar, from 0000-03-01 on. -/
theorem civilFromDays_valid (z : Int) (hz : -719468 ≤ z) : (civilFromDays z).valid := by
  have hera : 0 ≤ (z + 719468) / 146097 := by omega
  have hdoe0 : 0 ≤ z + 719468 - (z + 719468) / 146097 * 146097 := by omega
  have hdoe1 : z + 719468 - (z + 719468) / 146097 * 146097 ≤ 146096 := by omega
  generalize hera' : (z + 719468) / 146097 = era at *
  generalize hdoe : z + 719468 - era * 146097 = doe at *
  have hyb := yoe_bounds doe hdoe0 hdoe1
  have hdb := doy_bounds doe _ hdoe0 hdoe1 rfl
  have hleap := leap_of_last_day doe _ hdoe0 hdoe1 rfl
  generalize hyoe : (doe - doe / 1460 + doe / 36524 - doe / 146096) / 365 = yoe at *
  generalize hdoy : doe - (365 * yoe + yoe / 4 - yoe / 100) = doy at *
  have hmd := month_day_bounds doy hdb.1 hdb.2
  generalize hmp : (5 * doy + 2) / 153 = mp at *
  generalize hd : doy - (153 * mp + 2) / 5 + 1 = d at *
  have hciv : civilFromDays z =
      ⟨(if (if mp < 10 then mp + 3 else mp - 9) ≤ 2 then yoe + era * 400 + 1
          else yoe + era * 400).toNat,
        (if mp < 10 then mp + 3 else mp - 9).toNat, d.toNat⟩ := by
    simp only [civilFromDays, hera', hdoe, hyoe, hdoy, hmp, hd]
  rw [hciv]
  obtain ⟨hm0, hm1, hd0, hd1⟩ := hmd
  obtain ⟨hy0, hy1⟩ := hyb
  unfold CivilDate.valid
  simp only
  have hdn : 1 ≤ d.toNat := by omega
  by_cases hlt : mp < 10
  · simp only [hlt, if_true]
    have hm3 : ¬ (mp + 3 ≤ 2) := by omega
    simp only [hm3, if_false]
    refine ⟨by omega, by omega, hdn, ?_⟩
    have hday : ∀ k : Nat, d ≤ k → d.toNat ≤ k := by
      intro k hk
      omega
    clear hciv hleap hyoe hdoe hera' hdoe0 hdoe1
    interval_cases mp <;> simp [daysInMonth] <;> omega
  · simp only [hlt, if_false]
    have hm3 : mp - 9 ≤ 2 := by omega
    simp only [hm3, if_true]
    refine ⟨by omega, by omega, hdn, ?_⟩
    have hcases : mp = 10 ∨ mp = 11 := by omega
    rcases hcases with rfl | rfl
    · simp [daysInMonth]
      omega
    · have h2 : ((11 : Int) - 9).toNat = 2 := by decide
      rw [h2]
      simp only [daysInMonth, if_true]
      by_cases hlast : doy = 365
      · obtain ⟨l4, l100⟩ := hleap hlast
        have hleapYear : isLeapYear (yoe + era * 400 + 1).toNat = true := by
          apply isLeapYear_of_mod
          · omega
          · rcases l100 with l | l
            · left
              omega
            · right
              omega
        rw [hleapYear]
        simp only [if_true]
        omega
      · have : d.toNat ≤ 28 := by omega
        split_ifs <;> omega

theorem getAPODRequest_of_range (st : Storage) (now : Int) (dateInput : Option CivilDate)
    (d : CivilDate) (h1 : d.getTime ≤ now) (h2 : firstAPOD.getTime ≤ d.getTime) :
    getAPODRequest st now dateInput (some d) =
      .ok (buildUrl st BASE_URLS.APOD [("date", .str d.toISO), ("hd", .bool true)]).1 := by
  simp only [getAPODRequest, Option.orElse]
  rw [if_neg (not_lt.mpr h1), if_neg (not_lt.mpr h2)]

set_option exponentiation.threshold 5000 in
set_option maxRecDepth 100000 in
/-- C29, as stated, fails in its description of the date: at the instant
1710504000000 and for the draw 9.523356030665206e-05, the Number value
`1756749114204995 * 2 ^ -64`, the real `start + r * (now - start)` lies in the
last millisecond of 1995-06-16, but the sum of Number values rounds to the
midnight that follows and `getRandomApodDate` returns 1995-06-17. -/
theorem getRandomApodDate_rounds_up :
    JSNumber.isValue ⟨((1756749114204995 * 2 ^ 1010 : Nat) : Int)⟩ = true ∧
      (⟨((1756749114204995 * 2 ^ 1010 : Nat) : Int)⟩ : JSNumber).units <
        (JSNumber.one : Int) ∧
      exactRandomApodDate 1710504000000 ⟨((1756749114204995 * 2 ^ 1010 : Nat) : Int)⟩ =
        ⟨1995, 6, 16⟩ ∧
      getRandomApodDate 1710504000000 ⟨((1756749114204995 * 2 ^ 1010 : Nat) : Int)⟩ =
        some ⟨1995, 6, 17⟩ := by
  decide

/-- The time of `getRandomApodDate` lies between the first picture and `now`,
and is a valid time. -/
theorem randomTime_bounds (now : Int) (random : JSNumber)
    (hnow : firstAPOD.getTime ≤ now) (hmax : now ≤ 8640000000000000)
    (h0 : 0 ≤ random.units) (h1 : random.units < (JSNumber.one : Int)) :
    timeClip (randomTime now random) = some (randomTime now random).truncate ∧
      firstAPOD.getTime ≤ (randomTime now random).truncate ∧
      (randomTime now random).truncate ≤ now := by
  have hf : firstAPOD.getTime = ((803260800000 : Nat) : Int) := by decide
  have hone := one_pos
  obtain ⟨units⟩ := random
  simp only at h0 h1
  obtain ⟨n, rfl⟩ := Int.eq_ofNat_of_zero_le h0
  have hn : n ≤ JSNumber.one := by
    have : n < JSNumber.one := by exact_mod_cast h1
    exact le_of_lt this
  rw [hf] at hnow
  obtain ⟨N, rfl⟩ := Int.eq_ofNat_of_zero_le (le_trans (Int.ofNat_nonneg _) hnow)
  have hSN : 803260800000 ≤ N := by exact_mod_cast hnow
  have hNmax : N ≤ 8640000000000000 := by exact_mod_cast hmax
  obtain ⟨t, ht, hlo, hhi⟩ := add_mul_sub_bounds 803260800000 N n hSN
    (lt_of_le_of_lt hNmax (by decide)) hn
  have hunits : (randomTime (N : Int) ⟨(n : Int)⟩).units = (t : Int) := by
    unfold randomTime
    rw [hf]
    exact ht
  have htrunc : (randomTime (N : Int) ⟨(n : Int)⟩).truncate = ((t / JSNumber.one : Nat) : Int) := by
    unfold JSNumber.truncate
    rw [hunits, if_neg (by omega), Int.natCast_div]
  have hq1 : 803260800000 ≤ t / JSNumber.one := (Nat.le_div_iff_mul_le hone).2 hlo
  have hq2 : t / JSNumber.one ≤ N := by
    calc t / JSNumber.one ≤ N * JSNumber.one / JSNumber.one := Nat.div_le_div_right hhi
      _ = N := Nat.mul_div_cancel _ hone
  refine ⟨?_, ?_, ?_⟩
  · unfold timeClip
    rw [hunits, Int.natAbs_ofNat, if_neg]
    have : N * JSNumber.one ≤ 8640000000000000 * JSNumber.one :=
      Nat.mul_le_mul_right _ hNmax
    omega
  · rw [htrunc, hf]
    exact_mod_cast hq1
  · rw [htrunc]
    exact_mod_cast hq2

/-- C29, amended: at every instant `now` from 1995-06-16T00:00Z on (a time
value, so at most 8.64e15) and for every draw `r` with `0 ≤ r < 1`,
`getRandomApodDate` returns a date: the UTC calendar day of the Number value
`start + r * (now - start)`, the sum and the product being those of Number
values. It is a day of the calendar, its midnight is not after `now` and not
before 1995-06-16, so `getAPOD` called with it reaches the request: no local
check rejects a random picture-of-day query, which is what `getRandomAPOD`
runs. -/
theorem getRandomApodDate_passes (st : Storage) (now : Int)
    (dateInput : Option CivilDate) (random : JSNumber)
    (hnow : firstAPOD.getTime ≤ now) (hmax : now ≤ 8640000000000000)
    (h0 : 0 ≤ random.units) (h1 : random.units < (JSNumber.one : Int)) :
    ∃ d : CivilDate,
      getRandomApodDate now random = some d ∧
      d = civilFromDays ((randomTime now random).truncate / msPerDay) ∧
      d.valid ∧
      d.getTime ≤ now ∧
      firstAPOD.getTime ≤ d.getTime ∧
      (∃ url, getAPODRequest st now dateInput (some d) = .ok url) ∧
      (∀ (fetch : Fetch ApodData) (m : APODModule),
        getRandomAPOD st now fetch random m =
            some (getAPOD st now fetch (some d) { m with dateInput := some d }) ∧
          apodFailure st now fetch (some d) { m with dateInput := some d } ≠
            some .validation) := by
  have hf : firstAPOD.getTime = 9297 * 86400000 := by decide
  obtain ⟨hclip, hlo, hhi⟩ := randomTime_bounds now random hnow hmax h0 h1
  generalize (randomTime now random).truncate = t at hclip hlo hhi
  have hdate : getRandomApodDate now random = some (civilFromDays (t / msPerDay)) := by
    unfold getRandomApodDate
    rw [hclip]
    rfl
  have hday : (civilFromDays (t / msPerDay)).epochDay = t / msPerDay := by
    apply epochDay_civilFromDays
    unfold msPerDay
    omega
  have hvalid : (civilFromDays (t / msPerDay)).valid := by
    apply civilFromDays_valid
    unfold msPerDay
    omega
  have h1' : (civilFromDays (t / msPerDay)).getTime ≤ now := by
    unfold CivilDate.getTime
    rw [hday]
    unfold msPerDay
    omega
  have h2' : firstAPOD.getTime ≤ (civilFromDays (t / msPerDay)).getTime := by
    unfold CivilDate.getTime
    rw [hday, firstAPOD_epochDay]
    unfold msPerDay
    omega
  have hreq := getAPODRequest_of_range st now dateInput _ h1' h2'
  refine ⟨civilFromDays (t / msPerDay), hdate, rfl, hvalid, h1', h2', ⟨_, hreq⟩, ?_⟩
  intro fetch m
  refine ⟨by unfold getRandomAPOD; rw [hdate]; rfl, ?_⟩
  unfold apodFailure
  simp only
  rw [getAPODRequest_of_range st now _ _ h1' h2']
  simp only
  cases fetch (buildUrl st BASE_URLS.APOD
      [("date", .str (civilFromDays (t / msPerDay)).toISO), ("hd", .bool true)]).1 with
  | error message => simp
  | ok response =>
    simp only
    cases response.ok with
    | false => simp
    | true =>
      simp only [if_true]
      cases response.body with
      | error message => simp
      | ok data => by_cases himg : data.media_type = some "image" <;> simp [himg]

set_option exponentiation.threshold 5000 in
set_option maxRecDepth 100000 in
/-- Witness of C29: the instant 1710504000000 (in March 2024) and the draw
9.523356030665206e-05, for which the date is 1995-06-17. -/
theorem getRandomApodDate_passes_witness :
    firstAPOD.getTime ≤ 1710504000000 ∧
      getRandomApodDate 1710504000000 ⟨((1756749114204995 * 2 ^ 1010 : Nat) : Int)⟩ =
        some ⟨1995, 6, 17⟩ ∧
      ∃ d : CivilDate,
        getRandomApodDate 1710504000000 ⟨((1756749114204995 * 2 ^ 1010 : Nat) : Int)⟩ =
          some d ∧ d.getTime ≤ 1710504000000 ∧ firstAPOD.getTime ≤ d.getTime :=
  ⟨by decide, by decide,
   (getRandomApodDate_passes Storage.empty 1710504000000 none
      ⟨((1756749114204995 * 2 ^ 1010 : Nat) : Int)⟩
      (by decide) (by decide) (by decide) (by decide)).imp
        fun _ h => ⟨h.1, h.2.2.2.1, h.2.2.2.2.1⟩⟩

/-! ## Claims on the export and import of the configuration -/

theorem mem_moduleNames_ne_empty (name : String) (h : name ∈ moduleNames) : name ≠ "" := by
  simp only [moduleNames, List.mem_cons, List.mem_singleton, List.not_mem_nil, or_false] at h
  rcases h with rfl | rfl | rfl | rfl <;> decide

theorem getApiKey_of_stored (st : Storage) (key : String) (hne : key ≠ "")
    (h : st.getItem "nasa_api_key" = some key) : getApiKey st = key := by
  unfold getApiKey
  rw [h]
  simp [hne]

/-- C28, as stated, fails: with the key ` k ` (a space on either side) in the
storage and `apod` active, `getApiKey()` is ` k ` at the export, and after
the import of the exported file into the same page it is `k`, since
`setApiKey` stores the trimmed key. -/
theorem importConfig_exportedFile_differs :
    (NASAApiExplorer.init (Storage.empty.setItem "nasa_api_key" " k ")).currentModule ∈
        moduleNames ∧
      getApiKey (NASAApiExplorer.init (Storage.empty.setItem "nasa_api_key" " k ")).storage =
        " k " ∧
      getApiKey (importConfig (fun _ => .noElement)
        (exportedFile "2024-01-01T00:00:00.000Z"
          (NASAApiExplorer.init (Storage.empty.setItem "nasa_api_key" " k ")))
        (exportConfig "2024-01-01T00:00:00.000Z"
          (NASAApiExplorer.init (Storage.empty.setItem "nasa_api_key" " k "))).2).storage =
        "k" := by
  decide

/-- C28, amended: for every state whose active module is one of the four
modules and whose `getApiKey()` has no white space at either end, importing
the file written by `exportConfig`, into the page after the export or into any
other page, leaves `getApiKey()` and the active module name equal to their
values at the export. -/
theorem importConfig_exportedFile (css : String → SelectorOutcome) (timestamp : String)
    (app target : NASAApiExplorer) (hmod : app.currentModule ∈ moduleNames)
    (hkey : trim (getApiKey app.storage) = getApiKey app.storage) :
    getApiKey (importConfig css (exportedFile timestamp app) target).storage =
        getApiKey app.storage ∧
      (importConfig css (exportedFile timestamp app) target).currentModule =
        app.currentModule ∧
      getApiKey (importConfig css (exportedFile timestamp app)
        (exportConfig timestamp app).2).storage = getApiKey app.storage ∧
      (importConfig css (exportedFile timestamp app)
        (exportConfig timestamp app).2).currentModule = app.currentModule := by
  have hne : getApiKey app.storage ≠ "" := getApiKey_ne_empty app.storage
  have hmne : app.currentModule ≠ "" := mem_moduleNames_ne_empty _ hmod
  have hsafe := selectorSafe_of_mem _ hmod
  have hall : ∀ target : NASAApiExplorer,
      getApiKey (importConfig css (exportedFile timestamp app) target).storage =
          getApiKey app.storage ∧
        (importConfig css (exportedFile timestamp app) target).currentModule =
          app.currentModule := by
    intro target
    have hk : JSObject.get (exportConfig timestamp app).1 "apiKey" =
        .str (getApiKey app.storage) := rfl
    have hm : JSObject.get (exportConfig timestamp app).1 "currentModule" =
        .str app.currentModule := rfl
    have hset : setApiKey (getApiKey app.storage) target.toConfigEnv =
        showNotification "API Key guardada correctamente" "success"
          { target.toConfigEnv with
            storage := target.storage.setItem "nasa_api_key" (getApiKey app.storage) } := by
      unfold setApiKey
      rw [hkey]
      simp [hne]
    have h1 : importApiKey (exportConfig timestamp app).1 target =
        .ok { target with
          toConfigEnv := setApiKey (getApiKey app.storage) target.toConfigEnv,
          apiKeyInput := getApiKey app.storage } := by
      unfold importApiKey
      rw [hk]
      simp [JSValue.truthy, hne]
    have h2 : ∀ a : NASAApiExplorer,
        importCurrentModule css (exportConfig timestamp app).1 a =
          .ok (switchModule app.currentModule a) := by
      intro a
      unfold importCurrentModule
      rw [hm]
      simp [JSValue.truthy, hmne, JSValue.toJSString, switchModuleAny, hsafe]
    have hrun : importConfig css (exportedFile timestamp app) target =
        (switchModule app.currentModule { target with
          toConfigEnv := setApiKey (getApiKey app.storage) target.toConfigEnv,
          apiKeyInput := getApiKey app.storage }).notify
            "Configuración importada correctamente" "success" := by
      simp only [importConfig, exportedFile, h1, h2]
    rw [hrun]
    constructor
    · apply getApiKey_of_stored _ _ hne
      rw [(notify_frame _ _ _).1, switchModule_apiKey, hset]
      simp [showNotification, Storage.getItem, Storage.setItem]
    · rw [(notify_frame _ _ _).2.1]
      exact (switchModule_currentModule _ _).1
  exact ⟨(hall target).1, (hall target).2, (hall _).1, (hall _).2⟩

/-- Witness of C28: the file exported by a page with the key `k1` and the
module `mars`, imported into a page with the key `other` and the module `apod`,
leaves the key `k1` and the module `mars` there. -/
theorem importConfig_exportedFile_witness :
    sampleExporter.currentModule ∈ moduleNames ∧
      trim (getApiKey sampleExporter.storage) = getApiKey sampleExporter.storage ∧
      getApiKey sampleExporter.storage = "k1" ∧
      sampleExporter.currentModule = "mars" ∧
      getApiKey sampleImporter.storage = "other" ∧
      sampleImporter.currentModule = "apod" ∧
      getApiKey (importConfig (fun _ => .noElement)
        (exportedFile "2024-01-01T00:00:00.000Z" sampleExporter) sampleImporter).storage =
        getApiKey sampleExporter.storage ∧
      (importConfig (fun _ => .noElement)
        (exportedFile "2024-01-01T00:00:00.000Z" sampleExporter) sampleImporter).currentModule =
        sampleExporter.currentModule :=
  ⟨by decide, by decide, by decide, by decide, by decide, by decide,
   (importConfig_exportedFile (fun _ => .noElement) "2024-01-01T00:00:00.000Z"
      sampleExporter sampleImporter (by decide) (by decide)).1,
   (importConfig_exportedFile (fun _ => .noElement) "2024-01-01T00:00:00.000Z"
      sampleExporter sampleImporter (by decide) (by decide)).2.1⟩

/-! ## Claims on the form with local storage -/

/-- A submission whose age compares `<= 18`, or whose fields fail the
constraints of the markup, only sets the validity message and reports it. -/
theorem onSubmit_rejected (constraints : FormFields → Bool) (p : FormPage)
    (h : (JSValue.str p.fields.edad).leNum 18 = true ∨ constraints p.fields = false) :
    onSubmit constraints p =
      { p with
        edadCustomValidity :=
          if (JSValue.str p.fields.edad).leNum 18 then "Debes tener más de 18 años." else "",
        validityReported := true } := by
  unfold onSubmit checkValidity
  rcases h with h | h
  · simp [h]
  · by_cases hle : (JSValue.str p.fields.edad).leNum 18 = true
    · simp [hle]
    · simp [hle, h]

/-- A submission that passes both checks stores the three values, shows the
alert and resets the fields. -/
theorem onSubmit_accepted (constraints : FormFields → Bool) (p : FormPage)
    (hage : (JSValue.str p.fields.edad).leNum 18 = false)
    (hvalid : constraints p.fields = true) :
    onSubmit constraints p =
      { p with
        edadCustomValidity := "",
        datosUsuario := some [("nombre", .str p.fields.nombre),
          ("correo", .str p.fields.correo), ("edad", .str p.fields.edad)],
        alerts := p.alerts ++ ["Datos guardados exitosamente"],
        fields := p.defaults } := by
  unfold onSubmit checkValidity
  simp [hage, hvalid]

set_option exponentiation.threshold 5000 in
set_option maxRecDepth 100000 in
/-- C30: for every submission whose age text is a numeric literal (the empty
text denotes 0), as every value of a number field is, the data are written,
and the alert shown, exactly when the Number value of the age does not compare
`<= 18` and the fields satisfy the constraints of the markup. The data are
written only if the age that the text denotes is greater than 18: an age of 18
or less is rejected, and a rejected submission leaves the stored data, the
alerts and the fields unchanged and reports the validity. When the data are
written, the stored object holds the submitted name, e-mail and age, the
button `mostrar` shows these three values, and the fields are reset. An empty
age is always rejected. -/
theorem onSubmit_age (constraints : FormFields → Bool) (p : FormPage)
    (literal : NumericLiteral)
    (hage : parseNumericLiteral p.fields.edad = some literal) :
    ((onSubmit constraints p).alerts = p.alerts ++ ["Datos guardados exitosamente"] ↔
        literal.toNumber.leInt 18 = false ∧ constraints p.fields = true) ∧
      ((onSubmit constraints p).alerts = p.alerts ++ ["Datos guardados exitosamente"] →
        ¬ literal.atMost 18) ∧
      (literal.atMost 18 ∨ constraints p.fields = false →
        (onSubmit constraints p).datosUsuario = p.datosUsuario ∧
          (onSubmit constraints p).alerts = p.alerts ∧
          (onSubmit constraints p).fields = p.fields ∧
          (onSubmit constraints p).validityReported = true) ∧
      ((onSubmit constraints p).alerts ≠ p.alerts ++ ["Datos guardados exitosamente"] →
        (onSubmit constraints p).datosUsuario = p.datosUsuario ∧
          (onSubmit constraints p).alerts = p.alerts ∧
          (onSubmit constraints p).fields = p.fields ∧
          (onSubmit constraints p).validityReported = true) ∧
      ((onSubmit constraints p).alerts = p.alerts ++ ["Datos guardados exitosamente"] →
        (onSubmit constraints p).datosUsuario =
            some [("nombre", .str p.fields.nombre), ("correo", .str p.fields.correo),
              ("edad", .str p.fields.edad)] ∧
          (onMostrar (onSubmit constraints p)).resultado =
            .datos p.fields.nombre p.fields.correo p.fields.edad ∧
          (onSubmit constraints p).fields = p.defaults) ∧
      (∀ q : FormPage, q.fields.edad = "" →
        (onSubmit constraints q).datosUsuario = q.datosUsuario ∧
          (onSubmit constraints q).alerts = q.alerts) := by
  have hle : (JSValue.str p.fields.edad).leNum 18 = literal.toNumber.leInt 18 := by
    simp [JSValue.leNum, JSValue.toNumber, stringToNumber, hage]
  have hmost : literal.atMost 18 → literal.toNumber.leInt 18 = true := by
    intro h
    simpa using leInt_of_atMost literal 18 (by decide) h
  have hcases : (literal.toNumber.leInt 18 = false ∧ constraints p.fields = true) ∨
      ((JSValue.str p.fields.edad).leNum 18 = true ∨ constraints p.fields = false) := by
    rw [hle]
    cases literal.toNumber.leInt 18 <;> cases constraints p.fields <;> simp
  have hnot : ∀ h : (JSValue.str p.fields.edad).leNum 18 = true ∨ constraints p.fields = false,
      (onSubmit constraints p).alerts ≠ p.alerts ++ ["Datos guardados exitosamente"] := by
    intro h halert
    rw [onSubmit_rejected constraints p h] at halert
    have hlen := congrArg List.length halert
    simp at hlen
  have hiff : (onSubmit constraints p).alerts = p.alerts ++ ["Datos guardados exitosamente"] ↔
      literal.toNumber.leInt 18 = false ∧ constraints p.fields = true := by
    constructor
    · intro halert
      rcases hcases with h | h
      · exact h
      · exact absurd halert (hnot h)
    · intro h
      rw [onSubmit_accepted constraints p (by rw [hle]; exact h.1) h.2]
  have hrejected : (JSValue.str p.fields.edad).leNum 18 = true ∨ constraints p.fields = false →
      (onSubmit constraints p).datosUsuario = p.datosUsuario ∧
        (onSubmit constraints p).alerts = p.alerts ∧
        (onSubmit constraints p).fields = p.fields ∧
        (onSubmit constraints p).validityReported = true := by
    intro h
    rw [onSubmit_rejected constraints p h]
    exact ⟨rfl, rfl, rfl, rfl⟩
  refine ⟨hiff, ?_, ?_, ?_, ?_, ?_⟩
  · intro halert hm
    have h1 := (hiff.1 halert).1
    rw [hmost hm] at h1
    exact absurd h1 (by decide)
  · intro h
    apply hrejected
    rcases h with h | h
    · left
      rw [hle]
      exact hmost h
    · exact Or.inr h
  · intro halert
    rcases hcases with h | h
    · exact absurd (hiff.2 h) halert
    · exact hrejected h
  · intro halert
    obtain ⟨h1, h2⟩ := hiff.1 halert
    rw [onSubmit_accepted constraints p (by rw [hle]; exact h1) h2]
    exact ⟨rfl, rfl, rfl⟩
  · intro q hq
    have hq' : (JSValue.str q.fields.edad).leNum 18 = true := by
      rw [hq]
      decide
    rw [onSubmit_rejected constraints q (Or.inl hq')]
    exact ⟨rfl, rfl⟩

set_option exponentiation.threshold 5000 in
set_option maxRecDepth 100000 in
/-- Witness of C30: the age text `18.5` is stored and read back, and the age
text `18.0` is rejected. -/
theorem onSubmit_age_witness :
    parseNumericLiteral "18.5" = some (.decimal false 185 (-1)) ∧
      (onMostrar (onSubmit (fun _ => true)
        { sampleForm with fields := ⟨"Ana", "ana@example.org", "18.5"⟩ })).resultado =
        .datos "Ana" "ana@example.org" "18.5" ∧
      parseNumericLiteral "18.0" = some (.decimal false 180 (-1)) ∧
      (onSubmit (fun _ => true)
        { sampleForm with fields := ⟨"Ana", "ana@example.org", "18.0"⟩ }).datosUsuario =
        none :=
  ⟨by decide,
   ((onSubmit_age (fun _ => true)
      { sampleForm with fields := ⟨"Ana", "ana@example.org", "18.5"⟩ }
      (.decimal false 185 (-1)) (by decide)).2.2.2.2.1
        (((onSubmit_age (fun _ => true)
          { sampleForm with fields := ⟨"Ana", "ana@example.org", "18.5"⟩ }
          (.decimal false 185 (-1)) (by decide)).1).2 ⟨by decide, rfl⟩)).2.1,
   by decide,
   ((onSubmit_age (fun _ => true)
      { sampleForm with fields := ⟨"Ana", "ana@example.org", "18.0"⟩ }
      (.decimal false 180 (-1)) (by decide)).2.2.1 (Or.inl (by decide))).1⟩

set_option exponentiation.threshold 5000 in
set_option maxRecDepth 100000 in
/-- A text that is no numeric literal converts to `NaN`, for which the
comparison `edad.value <= 18` is false: the text `abc` in the age field, which
a number field cannot hold, is stored. -/
theorem onSubmit_not_a_number :
    stringToNumber "abc" = none ∧
      (onSubmit (fun _ => true)
        { sampleForm with fields := ⟨"Ana", "ana@example.org", "abc"⟩ }).datosUsuario =
        some [("nombre", .str "Ana"), ("correo", .str "ana@example.org"),
          ("edad", .str "abc")] := by
  decide

/-! ## Claims on the start of the search widget -/

/-- The arrival of the post list shows every post and leaves the input field
alone. -/
theorem postsLoaded_fields (posts : List Post) (s : DynamicSearch) :
    (postsLoaded posts s).searchInput = s.searchInput ∧
      (postsLoaded posts s).posts = posts ∧
      shownPosts (postsLoaded posts s) = posts := by
  unfold postsLoaded
  refine ⟨?_, ?_, ?_⟩
  · exact (displayPosts_frame _ _ _ _).2.2.2.1
  · exact (displayPosts_frame _ _ _ _).1
  · exact shownPosts_showAllPosts _

/-- The replay of a term that is not blank shows the posts of the list held
at that moment in which the trimmed term occurs. -/
theorem replayTimer_fields (h : Host) (t : String) (s : DynamicSearch)
    (ht : trim t ≠ "") :
    (replayTimer h t s).searchInput = t ∧
      shownPosts (replayTimer h t s) =
        s.posts.filter fun p => decide (TermOccurs h (trim t) p) := by
  unfold replayTimer search
  refine ⟨(performSearch_fields h { s with searchInput := t } ht).1, ?_⟩
  rw [performSearch_of_ne h { s with searchInput := t } ht]
  have hshown : ∀ x : DynamicSearch, shownPosts (updateBackButton x) = shownPosts x :=
    fun _ => rfl
  rw [hshown, filterAndDisplayPosts_filter h (trim t) true _ ht,
    (addToSearchHistory_frame _ _).1]

/-- C22, by the order of the two events, for a term `t` that is not blank.
When the post list arrives before the timer fires, the input field holds `t`
and the posts shown are the filter result for the trimmed term over the loaded
list. When the timer fires first, the input field holds `t` as well, but the
posts shown at the end are the whole loaded list, not the filter result: the
replay filtered the empty list, and the arrival of the list then calls
`showAllPosts()`. -/
theorem replay_order (h : Host) (location t : String) (posts : List Post)
    (ht : trim t ≠ "") :
    ((replayTimer h t (postsLoaded posts (DynamicSearch.init location))).searchInput = t ∧
        shownPosts (replayTimer h t (postsLoaded posts (DynamicSearch.init location))) =
          posts.filter fun p => decide (TermOccurs h (trim t) p)) ∧
      ((postsLoaded posts (replayTimer h t (DynamicSearch.init location))).searchInput = t ∧
        shownPosts (postsLoaded posts (replayTimer h t (DynamicSearch.init location))) =
          posts) := by
  refine ⟨⟨(replayTimer_fields h t _ ht).1, ?_⟩, ?_, (postsLoaded_fields posts _).2.2⟩
  · rw [(replayTimer_fields h t _ ht).2, (postsLoaded_fields posts _).2.1]
  · rw [(postsLoaded_fields posts _).1]
    exact (replayTimer_fields h t _ ht).1

/-- Witness of C22: the page opened at `?search=aut` with the sample list.
With the timer first the three posts are shown and the search info is hidden;
with the list first only the posts 1 and 12 are shown. -/
theorem replay_order_witness :
    trim "aut" ≠ "" ∧
      shownPosts (postsLoaded samplePosts
        (replayTimer asciiHost "aut" (DynamicSearch.init "?search=aut"))) = samplePosts ∧
      shownPosts (replayTimer asciiHost "aut"
        (postsLoaded samplePosts (DynamicSearch.init "?search=aut"))) =
        [⟨1, "Sunt Aut", "quia et"⟩, ⟨12, "in quibusdam", "itaque id aut"⟩] ∧
      (postsLoaded samplePosts
        (replayTimer asciiHost "aut" (DynamicSearch.init "?search=aut"))).searchInfoHidden =
        true :=
  ⟨by decide,
   (replay_order asciiHost "?search=aut" "aut" samplePosts (by decide)).2.2,
   by decide, by decide⟩

/-! ## Claims on the end of a query -/

/-- The picture-of-day query ends with the loading indicator hidden, on the
error card when it fails and on the card of a picture otherwise. -/
theorem getAPOD_outcome (st : Storage) (now : Int) (fetch : Fetch ApodData)
    (date : Option CivilDate) (m : APODModule) :
    (getAPOD st now fetch date m).loadingHidden = true ∧
      (∀ k, apodFailure st now fetch date m = some k →
        ∃ message, (getAPOD st now fetch date m).results = .error message) ∧
      (apodFailure st now fetch date m = none →
        ∃ data, (getAPOD st now fetch date m).results = .picture data) := by
  have hload : ∀ x : APODModule, (x.showLoading false).loadingHidden = true := fun _ => rfl
  refine ⟨hload _, ?_⟩
  have htrue : m.showLoading true = { m with loadingHidden := false, results := .empty } := rfl
  unfold getAPOD apodFailure getAPODTry
  rw [htrue]
  simp only
  cases hreq : getAPODRequest st now m.dateInput date with
  | error message => exact ⟨fun _ _ => ⟨message, rfl⟩, fun h => by simp at h⟩
  | ok url =>
    simp only
    cases hfetch : fetch url with
    | error message => exact ⟨fun _ _ => ⟨message, rfl⟩, fun h => by simp at h⟩
    | ok response =>
      simp only
      cases hok : response.ok with
      | false => exact ⟨fun _ _ => ⟨_, rfl⟩, fun h => by simp at h⟩
      | true =>
        simp only [Bool.not_true, Bool.false_eq_true, if_false, if_true]
        cases hbody : response.body with
        | error message => exact ⟨fun _ _ => ⟨message, rfl⟩, fun h => by simp at h⟩
        | ok data =>
          simp only
          by_cases himg : data.media_type = some "image"
          · simp [himg, displayAPOD, APODModule.showLoading]
          · simp [himg, APODModule.showError, APODModule.showLoading]


/-- The rover-photo query ends with the loading indicator hidden, on the error
card when it fails and on the grid of photos otherwise. -/
theorem getMarsPhotos_outcome (st : Storage) (fetch : Fetch MarsData) (sol : JSValue)
    (m : MarsRoverModule) :
    (getMarsPhotos st fetch sol m).loadingHidden = true ∧
      (∀ k, marsFailure st fetch sol m = some k →
        ∃ message, (getMarsPhotos st fetch sol m).results = .error message) ∧
      (marsFailure st fetch sol m = none →
        ∃ shown cards, (getMarsPhotos st fetch sol m).results = .photos shown cards) := by
  have hload : ∀ x : MarsRoverModule, (x.showLoading false).loadingHidden = true :=
    fun _ => rfl
  refine ⟨hload _, ?_⟩
  have htrue : m.showLoading true = { m with loadingHidden := false, results := .empty } := rfl
  unfold getMarsPhotos marsFailure getMarsPhotosTry
  rw [htrue]
  simp only
  cases hreq : getMarsPhotosRequest st m.solInput m.cameraSelect sol with
  | error message => exact ⟨fun _ _ => ⟨message, rfl⟩, fun h => by simp at h⟩
  | ok url =>
    simp only
    cases hfetch : fetch url with
    | error message => exact ⟨fun _ _ => ⟨message, rfl⟩, fun h => by simp at h⟩
    | ok response =>
      simp only
      cases hok : response.ok with
      | false => exact ⟨fun _ _ => ⟨_, rfl⟩, fun h => by simp at h⟩
      | true =>
        simp only [Bool.not_true, Bool.false_eq_true, if_false, if_true]
        cases hbody : response.body with
        | error message => exact ⟨fun _ _ => ⟨message, rfl⟩, fun h => by simp at h⟩
        | ok data =>
          obtain ⟨photos⟩ := data
          simp only
          cases photos with
          | none => exact ⟨fun _ _ => ⟨_, rfl⟩, fun h => by simp at h⟩
          | some list =>
            cases list with
            | nil => exact ⟨fun _ _ => ⟨_, rfl⟩, fun h => by simp at h⟩
            | cons photo rest =>
              exact ⟨fun k h => by simp at h, fun _ => ⟨_, _, rfl⟩⟩

/-- The tech-image search ends with the loading indicator hidden, on the error
card when it fails and on the list of cards otherwise. -/
theorem searchTechnologies_outcome (fetch : Fetch TechData) (query limit : Option String)
    (m : TechTransferModule) :
    (searchTechnologies fetch query limit m).loadingHidden = true ∧
      (∀ k, techFailure fetch query limit m = some k →
        ∃ message, (searchTechnologies fetch query limit m).results = .error message) ∧
      (techFailure fetch query limit m = none →
        ∃ term cards,
          (searchTechnologies fetch query limit m).results = .technologies term cards) := by
  have hload : ∀ x : TechTransferModule, (x.showLoading false).loadingHidden = true :=
    fun _ => rfl
  refine ⟨hload _, ?_⟩
  have htrue : m.showLoading true = { m with loadingHidden := false, results := .empty } := rfl
  unfold searchTechnologies techFailure searchTechnologiesTry
  rw [htrue]
  simp only
  by_cases hq : orString query (trim m.searchInput) = ""
  · simp only [hq, beq_self_eq_true, if_true]
    exact ⟨fun _ _ => ⟨_, rfl⟩, fun h => by simp at h⟩
  · have hq' : (orString query (trim m.searchInput) == "") = false := by simpa using hq
    simp only [hq, hq', Bool.false_eq_true, if_false]
    cases hfetch : fetch (techSearchUrl (orString query (trim m.searchInput))
        (orString limit m.limitSelect)) with
    | error message => exact ⟨fun _ _ => ⟨message, rfl⟩, fun h => by simp at h⟩
    | ok response =>
      simp only
      cases hok : response.ok with
      | false => exact ⟨fun _ _ => ⟨_, rfl⟩, fun h => by simp at h⟩
      | true =>
        simp only [Bool.not_true, Bool.false_eq_true, if_false, if_true]
        cases hbody : response.body with
        | error message => exact ⟨fun _ _ => ⟨message, rfl⟩, fun h => by simp at h⟩
        | ok data =>
          obtain ⟨collection⟩ := data
          simp only
          cases collection with
          | none => exact ⟨fun _ _ => ⟨_, rfl⟩, fun h => by simp [responseItems] at h⟩
          | some collection =>
            obtain ⟨items⟩ := collection
            cases items with
            | none => exact ⟨fun _ _ => ⟨_, rfl⟩, fun h => by simp [responseItems] at h⟩
            | some list =>
              cases list with
              | nil => exact ⟨fun _ _ => ⟨_, rfl⟩, fun h => by simp [responseItems] at h⟩
              | cons item rest =>
                by_cases hv : (item :: rest).filter isValidTech = []
                · have hlen : (((item :: rest).filter isValidTech).length == 0) = true := by
                    rw [hv]
                    rfl
                  simp only [Option.bind, hlen, if_true]
                  exact ⟨fun _ _ => ⟨_, rfl⟩, fun h => by simp [responseItems, hv] at h⟩
                · have hlen : (((item :: rest).filter isValidTech).length == 0) = false := by
                    cases hf : (item :: rest).filter isValidTech with
                    | nil => exact absurd hf hv
                    | cons a b => rfl
                  simp only [Option.bind, hlen, Bool.false_eq_true, if_false]
                  exact ⟨fun k h => by simp [responseItems, hv] at h, fun _ => ⟨_, _, rfl⟩⟩


/-- C21: for each of the picture-of-day, rover-photo and tech-image modules,
for every input and every outcome of the request (rejection, any status, any
body), the query runs to its end, as a total function without exception, with
the loading indicator hidden and the result area holding exactly one of the
error card and the display; every validation, transport or shape failure ends
on the error card. -/
theorem query_ends_in_display_or_error (st : Storage) (now : Int)
    (apodFetch : Fetch ApodData) (date : Option CivilDate) (apod : APODModule)
    (marsFetch : Fetch MarsData) (sol : JSValue) (mars : MarsRoverModule)
    (techFetch : Fetch TechData) (query limit : Option String) (tech : TechTransferModule) :
    ((getAPOD st now apodFetch date apod).loadingHidden = true ∧
        Xor' (∃ message, (getAPOD st now apodFetch date apod).results = .error message)
          (∃ data, (getAPOD st now apodFetch date apod).results = .picture data) ∧
        (∀ k, apodFailure st now apodFetch date apod = some k →
          ∃ message, (getAPOD st now apodFetch date apod).results = .error message)) ∧
      ((getMarsPhotos st marsFetch sol mars).loadingHidden = true ∧
        Xor' (∃ message, (getMarsPhotos st marsFetch sol mars).results = .error message)
          (∃ shown cards,
            (getMarsPhotos st marsFetch sol mars).results = .photos shown cards) ∧
        (∀ k, marsFailure st marsFetch sol mars = some k →
          ∃ message, (getMarsPhotos st marsFetch sol mars).results = .error message)) ∧
      ((searchTechnologies techFetch query limit tech).loadingHidden = true ∧
        Xor' (∃ message,
            (searchTechnologies techFetch query limit tech).results = .error message)
          (∃ term cards,
            (searchTechnologies techFetch query limit tech).results =
              .technologies term cards) ∧
        (∀ k, techFailure techFetch query limit tech = some k →
          ∃ message,
            (searchTechnologies techFetch query limit tech).results = .error message)) := by
  refine ⟨?_, ?_, ?_⟩
  · obtain ⟨hload, hfail, hdisplay⟩ := getAPOD_outcome st now apodFetch date apod
    refine ⟨hload, ?_, hfail⟩
    cases hf : apodFailure st now apodFetch date apod with
    | some k =>
      obtain ⟨message, hm⟩ := hfail k hf
      exact Or.inl ⟨⟨message, hm⟩, fun ⟨data, hd⟩ => by rw [hm] at hd; cases hd⟩
    | none =>
      obtain ⟨data, hd⟩ := hdisplay hf
      exact Or.inr ⟨⟨data, hd⟩, fun ⟨message, hm⟩ => by rw [hd] at hm; cases hm⟩
  · obtain ⟨hload, hfail, hdisplay⟩ := getMarsPhotos_outcome st marsFetch sol mars
    refine ⟨hload, ?_, hfail⟩
    cases hf : marsFailure st marsFetch sol mars with
    | some k =>
      obtain ⟨message, hm⟩ := hfail k hf
      exact Or.inl ⟨⟨message, hm⟩, fun ⟨_, _, hd⟩ => by rw [hm] at hd; cases hd⟩
    | none =>
      obtain ⟨shown, cards, hd⟩ := hdisplay hf
      exact Or.inr ⟨⟨shown, cards, hd⟩, fun ⟨message, hm⟩ => by rw [hd] at hm; cases hm⟩
  · obtain ⟨hload, hfail, hdisplay⟩ := searchTechnologies_outcome techFetch query limit tech
    refine ⟨hload, ?_, hfail⟩
    cases hf : techFailure techFetch query limit tech with
    | some k =>
      obtain ⟨message, hm⟩ := hfail k hf
      exact Or.inl ⟨⟨message, hm⟩, fun ⟨_, _, hd⟩ => by rw [hm] at hd; cases hd⟩
    | none =>
      obtain ⟨term, cards, hd⟩ := hdisplay hf
      exact Or.inr ⟨⟨term, cards, hd⟩, fun ⟨message, hm⟩ => by rw [hd] at hm; cases hm⟩

/-- Witness of C21: a picture-of-day query without a date, which fails
validation and ends on the error card. -/
theorem query_ends_in_display_or_error_witness :
    apodFailure Storage.empty 1000000000000 (fun _ => .error "Failed to fetch") none
        ⟨none, true, .empty⟩ = some .validation ∧
      ∃ message, (getAPOD Storage.empty 1000000000000 (fun _ => .error "Failed to fetch")
        none ⟨none, true, .empty⟩).results = .error message :=
  ⟨by decide,
   (query_ends_in_display_or_error Storage.empty 1000000000000
      (fun _ => .error "Failed to fetch") none ⟨none, true, .empty⟩
      (marsNetwork 1) .null sampleMarsModule
      (techNetwork 1) none none sampleTechModule).1.2.2 .validation (by decide)⟩

end NasaTaller
